import Mathlib

/-!
# Digital book site: the desktop pagination engine

A shallow embedding of `src/main.js`.  Markup is a `String`, measured heights
are exact integers (pixels), a JavaScript object used as a map is an
association list that keeps insertion order, and the two module-level
variables `generatedPages` and `chapterStartPages` are the fields of an
explicit `State`.  The DOM measurement (`measureElement`) and the container
height read by `getPageMaxHeight` are inputs, collected in `Env`.

The active-chapter resolution of `updateCommentsForCurrentPage` works on the
same `State`.  The rating submission `rateChapter` is asynchronous: it is
split into the call itself and the handlers run when the request settles,
and the interleavings are the event sequences of `ratingRun`.  Chapter ids
and page numbers are strings and natural numbers.

The page-turn plugin is reduced to its page count, current page and display
mode (`Flipbook`), the resize timer to a table of live timers with due times
in milliseconds (`ResizeState`), and dates to milliseconds since the epoch.
-/

namespace BookSite

/-! ## JavaScript objects used as maps -/

/-- A JavaScript object with string keys: the entries in insertion order.
Keys are ordinary property names; the special key `__proto__`, which a
JavaScript object does not store, is outside the model. -/
abbrev JsObj (α : Type) := List (String × α)

/-- Property read `obj[k]`: the value stored under `k`, `none` for `undefined`. -/
def JsObj.get {α : Type} : JsObj α → String → Option α
  | [], _ => none
  | (k', v) :: rest, k => if k' = k then some v else JsObj.get rest k

/-- Property write `obj[k] = v`: overwrite in place when the key exists,
append a new entry otherwise. -/
def JsObj.set {α : Type} : JsObj α → String → α → JsObj α
  | [], k, v => [(k, v)]
  | (k', v') :: rest, k, v =>
    if k' = k then (k', v) :: rest else (k', v') :: JsObj.set rest k v

/-! ## Data model -/

/-- One content item of a chapter: an object with a `type` tag and the fields
the renderer reads; a field that is absent is `none`. -/
structure ContentItem where
  type : String
  text : Option String := none
  src : Option String := none
  style : Option String := none
  className : Option String := none
  date : Option String := none
  author : Option String := none
  chapterId : Option String := none
deriving DecidableEq, Repr

/-- A chapter of `bookContent.chapters`. -/
structure Chapter where
  id : String
  chapterId : String
  title : String
  content : List ContentItem
deriving DecidableEq, Repr

/-- The content model `window.bookContent`. -/
structure BookContent where
  chapters : List Chapter
deriving DecidableEq, Repr

/-- An entry of `generatedPages`; the fixed pages have no `chapterId`. -/
structure Page where
  type : String
  html : String
  chapterId : Option String := none
deriving DecidableEq, Repr

/-- One entry of `authManager.userRatings`; a `timestamp` that is `undefined`
is `none`. -/
structure RatingEntry where
  rating : Int
  timestamp : Option String
deriving DecidableEq, Repr

/-- What the pagination reads from the browser: the measured outer height of
a piece of markup, the height of `#magazine` (`none` when jQuery reports
none), and the ratings of the logged-in user. -/
structure Env where
  measureElement : String → Int
  magazineHeight : Option Int
  userRatings : JsObj RatingEntry

/-- The module-level variables written by `paginateContent`. -/
structure State where
  generatedPages : List Page
  chapterStartPages : JsObj Nat
deriving DecidableEq, Repr

/-- The accumulator object made by `createEmptyPage`. -/
structure CurrentPage where
  elements : List String
  height : Int
  maxHeight : Int
  chapterId : Option String
deriving DecidableEq, Repr

/-! ## Rendering of content items -/

/-- Interpolation `${x}` of a string-valued field that may be absent. -/
def jsStr : Option String → String
  | some s => s
  | none => "undefined"

/-- The test `s.includes(t)` on strings. -/
def jsIncludes (s t : String) : Bool :=
  s.data.tails.any (fun suffix => t.data.isPrefixOf suffix)

/-- Method `authManager.isChapterRated`. -/
def isChapterRated (userRatings : JsObj RatingEntry) (chapterId : String) : Bool :=
  match userRatings.get chapterId with
  | some e => decide (e.rating > 0)
  | none => false

/-- Method `authManager.getUserRating`; `none` is `null`. -/
def getUserRating (userRatings : JsObj RatingEntry) (chapterId : String) : Option Int :=
  if isChapterRated userRatings chapterId then
    (userRatings.get chapterId).map (fun e => e.rating)
  else none

/-- Interpolation of the value returned by `getUserRating`. -/
def jsNum : Option Int → String
  | some n => toString n
  | none => "null"

/-- The markup of one star inside `createRatingHTML`. -/
def starHTML (isRated : Bool) (userRating : Option Int) (chapterId : String) (i : Nat) : String :=
  let filled :=
    if isRated && (match userRating with | some r => decide (r ≥ (i : Int)) | none => false)
    then "filled" else ""
  let disabled := if isRated then "disabled" else ""
  "<span class=\"star " ++ filled ++ " " ++ disabled ++ "\" data-value=\"" ++ toString i ++
    "\" onclick=\"window.rateChapter(\x27" ++ chapterId ++ "\x27, " ++ toString i ++
    ")\">‚òÖ</span>"

/-- Function `createRatingHTML`. -/
def createRatingHTML (userRatings : JsObj RatingEntry) (chapterId : String) : String :=
  let isRated := isChapterRated userRatings chapterId
  let userRating := getUserRating userRatings chapterId
  let stars := String.join ([1, 2, 3, 4, 5].map (starHTML isRated userRating chapterId))
  let ratedClass := if isRated then "rated" else ""
  let label := if isRated then "‚úì You rated " ++ jsNum userRating ++ " stars"
    else "Rate this chapter"
  "\n        <div class=\"rating-container " ++ ratedClass ++ "\" data-chapter=\"" ++ chapterId ++
    "\" id=\"rating-" ++ chapterId ++ "\">\n" ++
  "            <div class=\"rating-top\">\n" ++
  "                <div class=\"rating-label\">" ++ label ++ "</div>\n" ++
  "                <div class=\"star-rating\">" ++ stars ++ "</div>\n" ++
  "            </div>\n" ++
  "            <div class=\"rating-bottom\">\n" ++
  "                <div class=\"rating-info\">Avg: <span class=\"avg-rating\" id=\"avg-" ++
    chapterId ++ "\">0.0</span> ‚≠ê (<span id=\"total-" ++ chapterId ++
    "\">0</span> ratings)</div>\n" ++
  "            </div>\n" ++
  "        </div>\n    "

/-- Function `createElementHTML`: the markup of one content item, the empty
string for a type the switch does not know. -/
def createElementHTML (userRatings : JsObj RatingEntry) (contentItem : ContentItem) : String :=
  if contentItem.type = "paragraph" then
    "<p>" ++ jsStr contentItem.text ++ "</p>"
  else if contentItem.type = "image" then
    let isLandscape := contentItem.className = some "landscape-image" ||
      (match contentItem.style with
        | some s => jsIncludes s "aspect-ratio"
        | none => false)
    let styleAttr :=
      if isLandscape then
        "style=\"width: 100%; height: auto; max-height: none; object-fit: contain;\""
      else match contentItem.style with
        | some s => if s ≠ "" then "style=\"" ++ s ++ "\"" else ""
        | none => ""
    "<img src=\"" ++ jsStr contentItem.src ++ "\" alt=\"Chapter illustration\" " ++ styleAttr ++ ">"
  else if contentItem.type = "lyrics" then
    "<div class=\"song-lyrics\"><center><i><pre>" ++ jsStr contentItem.text ++
      "</pre></i></center></div>"
  else if contentItem.type = "metadata" then
    "<div class=\"post-date\"><span class=\"date\">" ++ jsStr contentItem.date ++
      "</span><span class=\"author\">" ++ jsStr contentItem.author ++ "</span></div>"
  else if contentItem.type = "rating" then
    createRatingHTML userRatings (jsStr contentItem.chapterId)
  else ""

/-! ## Pagination -/

/-- Function `createEmptyPage`. -/
def createEmptyPage : CurrentPage :=
  { elements := [], height := 0, maxHeight := 0, chapterId := none }

/-- Function `getPageMaxHeight`: the container height, 600 when it is absent
or zero, minus the 90 pixel vertical margin. -/
def getPageMaxHeight (env : Env) : Int :=
  (match env.magazineHeight with
    | some h => if h = 0 then 600 else h
    | none => 600) - 90

/-- The markup of a chapter title. -/
def titleHTML (chapter : Chapter) : String :=
  "<h2>" ++ chapter.title ++ "</h2>"

/-- The object pushed on `generatedPages` when the accumulator is flushed. -/
def contentPage (chapter : Chapter) (elements : List String) : Page :=
  { type := "content", html := String.join elements, chapterId := some chapter.chapterId }

/-- The body of `chapter.content.forEach` in `paginateContent`, on the pair
of the page list and the accumulator. -/
def contentStep (env : Env) (maxHeight : Int) (chapter : Chapter)
    (st : List Page × CurrentPage) (contentItem : ContentItem) : List Page × CurrentPage :=
  let elementHTML := createElementHTML env.userRatings contentItem
  if elementHTML = "" then st
  else
    let elementHeight := env.measureElement elementHTML
    let st1 : List Page × CurrentPage :=
      if st.2.height + elementHeight > maxHeight - 10 then
        (st.1 ++ [contentPage chapter st.2.elements],
          { createEmptyPage with maxHeight := maxHeight, chapterId := some chapter.chapterId })
      else st
    (st1.1, { st1.2 with
      elements := st1.2.elements ++ [elementHTML],
      height := st1.2.height + elementHeight })

/-- The body of `bookContent.chapters.forEach` in `paginateContent`. -/
def chapterStep (env : Env) (maxHeight : Int) (s : State) (chapter : Chapter) : State :=
  let starts := s.chapterStartPages.set chapter.id s.generatedPages.length
  let currentPage : CurrentPage :=
    { createEmptyPage with maxHeight := maxHeight, chapterId := some chapter.chapterId }
  let titleHeight := env.measureElement (titleHTML chapter)
  let currentPage : CurrentPage :=
    { currentPage with
      elements := currentPage.elements ++ [titleHTML chapter],
      height := currentPage.height + titleHeight }
  let st := chapter.content.foldl (contentStep env maxHeight chapter)
    (s.generatedPages, currentPage)
  let pages :=
    if st.2.elements.length > 0 then st.1 ++ [contentPage chapter st.2.elements] else st.1
  { generatedPages := pages, chapterStartPages := starts }

/-- The leading blank page. -/
def blankPage : Page :=
  { type := "blank", html := "<div class=\"hard\"><div class=\"cover-content\"></div></div>" }

/-- The front cover. -/
def coverPage : Page :=
  { type := "cover",
    html := "<div class=\"hard\"><div class=\"cover-content\"><img src=\"https://imgs-development.zohostratus.in/Screenshot%202025-10-31%20at%202.34.52%E2%80%AFPM.png\"></div></div>" }

/-- The inner cover page. -/
def coverBackPage : Page :=
  { type := "cover-back",
    html := "<div class=\"hard\"><div class=\"cover-content\"><img src=\"https://imgs-development.zohostratus.in/bk2.jpg\"></div></div>" }

/-- The back cover. -/
def backCoverPage : Page :=
  { type := "back-cover",
    html := "<div class=\"hard\"><div class=\"cover-content back-cover\"><h2>Be sure to leave ratings!!</h2></div></div>" }

/-- Function `paginateContent`: returns early, leaving the state alone, when
the content model is absent; otherwise rebuilds both variables. -/
def paginateContent (env : Env) (bookContent : Option BookContent) (s : State) : State :=
  match bookContent with
  | none => s
  | some book =>
    let maxHeight := getPageMaxHeight env
    let s0 : State :=
      { generatedPages := [blankPage, coverPage, coverBackPage], chapterStartPages := [] }
    let s1 := book.chapters.foldl (chapterStep env maxHeight) s0
    { s1 with generatedPages := s1.generatedPages ++ [backCoverPage] }

/-! ## The layout of a chapter, element by element

`paginateContent` keeps the elements of a page apart only while the page is
being filled; the page pushed on `generatedPages` holds their concatenation.
`pack` follows the same loop but returns, for every page it flushes, the list
of elements that were in the accumulator. -/

/-- The markup of the items of a chapter that the loop does not skip, in
order. -/
def renderedItems (env : Env) (chapter : Chapter) : List String :=
  (chapter.content.map (createElementHTML env.userRatings)).filter (fun m => decide (m ≠ ""))

/-- The element lists flushed by the loop of `paginateContent` that starts
with accumulator elements `cur` of accumulated height `h` and meets the
markups `ms`, the final flush included. -/
def pack (measure : String → Int) (maxHeight : Int) :
    List String → Int → List String → List (List String)
  | cur, _, [] => if cur.length > 0 then [cur] else []
  | cur, h, m :: ms =>
    if h + measure m > maxHeight - 10 then
      cur :: pack measure maxHeight [m] (measure m) ms
    else pack measure maxHeight (cur ++ [m]) (h + measure m) ms

/-- The element lists of the pages of one chapter: the accumulator starts
with the title. -/
def chapterLayout (env : Env) (maxHeight : Int) (chapter : Chapter) : List (List String) :=
  pack env.measureElement maxHeight [titleHTML chapter]
    (env.measureElement (titleHTML chapter)) (renderedItems env chapter)

/-- The pages pushed while one chapter is processed: what the body of the
chapter loop adds to an empty page list. -/
def chapterPages (env : Env) (maxHeight : Int) (chapter : Chapter) : List Page :=
  (chapterStep env maxHeight { generatedPages := [], chapterStartPages := [] } chapter).generatedPages

/-- The three fixed leading pages. -/
def leadingPages : List Page := [blankPage, coverPage, coverBackPage]

/-- The sum of the measured heights of a list of elements. -/
def totalHeight (measure : String → Int) (elements : List String) : Int :=
  (elements.map measure).sum

/-- The pages of type `content` whose `chapterId` field equals `x`, in page
order. -/
def contentPagesWithChapterId (pages : List Page) (x : String) : List Page :=
  pages.filter (fun p => decide (p.type = "content") && decide (p.chapterId = some x))

/-! ## Active chapter of the discussion panel -/

/-- The fields of `discussionManager` that a page turn reads and writes,
together with the calls of `loadResponsesForChapter` made so far, oldest
first; `none` is `null`. -/
structure DiscussionManager where
  currentChapterId : Option String
  currentChapterTitle : String
  loadCalls : List (String × String)
deriving DecidableEq, Repr

/-- Method `loadResponsesForChapter` up to its first suspension point: it
stores the chapter and starts loading its comments.  The rendering of the
loaded comments is not part of the model. -/
def loadResponsesForChapter (dm : DiscussionManager) (chapterId chapterTitle : String) :
    DiscussionManager :=
  { currentChapterId := some chapterId, currentChapterTitle := chapterTitle,
    loadCalls := dm.loadCalls ++ [(chapterId, chapterTitle)] }

/-- Comparison `a >= b` where `b` may be `undefined`. -/
def jsGe (a : Nat) : Option Nat → Bool
  | some b => decide (a ≥ b)
  | none => false

/-- Comparison `a < b` where `b` may be `undefined`. -/
def jsLt (a : Nat) : Option Nat → Bool
  | some b => decide (a < b)
  | none => false

/-- Comparison `a > b` where either side may be `undefined`. -/
def jsGt : Option Nat → Option Nat → Bool
  | some a, some b => decide (a > b)
  | _, _ => false

/-- Truthiness test `!x` on a value that is a string or `null`. -/
def jsNot : Option String → Bool
  | some x => decide (x = "")
  | none => true

/-- The range test of `updateCommentsForCurrentPage` for one chapter, `rest`
being the chapters after it: the range runs from the chapter's start to the
start of the next chapter, or to 99999 for the last chapter. -/
def inChapterRange (starts : JsObj Nat) (chapter : Chapter) (rest : List Chapter)
    (pageToCheck : Nat) : Bool :=
  let startPage := JsObj.get starts chapter.id
  let nextStartPage :=
    match rest with
    | next :: _ => JsObj.get starts next.id
    | [] => some 99999
  jsGe pageToCheck startPage && jsLt pageToCheck nextStartPage

/-- The update of `currentChapter` when `chapter` is in range: keep the
chapter with the highest start page. -/
def keepLater (starts : JsObj Nat) (currentChapter : Option Chapter) (chapter : Chapter) :
    Option Chapter :=
  match currentChapter with
  | none => some chapter
  | some c =>
    if jsGt (JsObj.get starts chapter.id) (JsObj.get starts c.id) then some chapter
    else some c

/-- The inner loop of `updateCommentsForCurrentPage` over the chapters, for
one checked page, started with `currentChapter`. -/
def scanChapters (starts : JsObj Nat) (pageToCheck : Nat) :
    List Chapter → Option Chapter → Option Chapter
  | [], currentChapter => currentChapter
  | chapter :: rest, currentChapter =>
    scanChapters starts pageToCheck rest
      (if inChapterRange starts chapter rest pageToCheck then
        keepLater starts currentChapter chapter
      else currentChapter)

/-- The value of `currentChapter` after the two loops of
`updateCommentsForCurrentPage`: the pages checked are `currentPage` and
`currentPage + 1`. -/
def currentChapterFor (chapters : List Chapter) (starts : JsObj Nat) (currentPage : Nat) :
    Option Chapter :=
  [currentPage, currentPage + 1].foldl
    (fun currentChapter pageToCheck => scanChapters starts pageToCheck chapters currentChapter)
    none

/-- Function `updateCommentsForCurrentPage`. -/
def updateCommentsForCurrentPage (book : BookContent) (s : State) (dm : DiscussionManager)
    (currentPage : Nat) : DiscussionManager :=
  match currentChapterFor book.chapters s.chapterStartPages currentPage with
  | some currentChapter =>
    if jsNot dm.currentChapterId ||
        decide (some currentChapter.chapterId ≠ dm.currentChapterId) then
      loadResponsesForChapter dm currentChapter.chapterId currentChapter.title
    else dm
  | none => dm

/-- Whether the range of some chapter of the list contains the page. -/
def anyChapterRangeContains (starts : JsObj Nat) (pageToCheck : Nat) : List Chapter → Bool
  | [] => false
  | chapter :: rest =>
    inChapterRange starts chapter rest pageToCheck ||
      anyChapterRangeContains starts pageToCheck rest

/-- The start page recorded for a chapter, 0 when there is none. -/
def startOf (starts : JsObj Nat) (chapter : Chapter) : Nat :=
  (JsObj.get starts chapter.id).getD 0

/-! ## Rating submission -/

/-- The body of a `POST /addRating` request. -/
structure AddRatingRequest where
  chapterId : String
  rating : Int
deriving DecidableEq, Repr

/-- The fields of the JSON answer to `/addRating` that decide what
`rateChapter` does with it; `averageRating`, `totalRatings` and `message`
only reach the page and the console. -/
structure AddRatingResponse where
  success : Bool
  alreadyRated : Bool := false
  existingRating : Option Int := none
deriving DecidableEq, Repr

/-- How a request settles: with a parsed JSON answer, or with a rejection
(transport failure or a body that is not JSON). -/
inductive Outcome where
  | responded (data : AddRatingResponse)
  | rejected
deriving DecidableEq, Repr

/-- What `rateChapter` reads and writes: the login flag and ratings of
`authManager`, the set `ratingSubmissions` (its elements in insertion
order), the chapter ids whose rating widget is in the document, the
`/addRating` requests that have not settled yet, every `/addRating` request
issued so far, and the calls of `showMessage` so far. -/
structure RatingState where
  isAuthenticated : Bool
  userRatings : JsObj RatingEntry
  ratingSubmissions : List String
  widgets : List String
  pending : List AddRatingRequest
  sent : List AddRatingRequest
  messages : List (String × String)
deriving DecidableEq, Repr

/-- Method `markChapterAsRated`; `now` is the current time as text. -/
def markChapterAsRated (userRatings : JsObj RatingEntry) (chapterId : String) (rating : Int)
    (now : String) : JsObj RatingEntry :=
  JsObj.set userRatings chapterId { rating := rating, timestamp := some now }

/-- Function `showMessage`. -/
def showMessage (s : RatingState) (text type : String) : RatingState :=
  { s with messages := s.messages ++ [(text, type)] }

/-- Method `Set.prototype.add`. -/
def setAdd (set : List String) (x : String) : List String :=
  if x ∈ set then set else set ++ [x]

/-- Method `Set.prototype.delete`. -/
def setDelete (set : List String) (x : String) : List String :=
  set.filter (fun y => decide (y ≠ x))

/-- Function `window.rateChapter` up to the moment the request is on its
way. -/
def rateChapter (s : RatingState) (chapterId : String) (rating : Int) : RatingState :=
  if !s.isAuthenticated then
    showMessage s "Please login to rate chapters" "error"
  else if isChapterRated s.userRatings chapterId then
    showMessage s
      ("You already rated this chapter " ++ jsNum (getUserRating s.userRatings chapterId)
        ++ " stars!") "error"
  else if decide (chapterId ∈ s.ratingSubmissions) then
    showMessage s "Please wait, submitting rating..." "error"
  else if decide (chapterId ∉ s.widgets) then s
  else
    { s with
      ratingSubmissions := setAdd s.ratingSubmissions chapterId,
      pending := s.pending ++ [{ chapterId := chapterId, rating := rating }],
      sent := s.sent ++ [{ chapterId := chapterId, rating := rating }] }

/-- The `then`, `catch` and `finally` handlers of the request issued by
`rateChapter`, run when that request settles. -/
def settleAddRating (s : RatingState) (request : AddRatingRequest) (outcome : Outcome)
    (now : String) : RatingState :=
  let failed := showMessage s "Failed to submit rating. Please try again." "error"
  let s1 :=
    match outcome with
    | Outcome.responded data =>
      if data.success then
        showMessage
          { s with userRatings :=
              markChapterAsRated s.userRatings request.chapterId request.rating now }
          ("Thank you! Your " ++ toString request.rating ++ "-star rating has been saved!")
          "success"
      else if data.alreadyRated then
        let existingRating :=
          match data.existingRating with
          | some e => if e = 0 then request.rating else e
          | none => request.rating
        showMessage
          { s with userRatings :=
              markChapterAsRated s.userRatings request.chapterId existingRating now }
          ("You already rated this chapter " ++ toString existingRating ++ " stars!") "error"
      else failed
    | Outcome.rejected => failed
  { s1 with
    ratingSubmissions := setDelete s1.ratingSubmissions request.chapterId,
    pending := s1.pending.erase request }

/-- Method `clearAuth`, run by `logout` before the page is left. -/
def clearAuth (s : RatingState) : RatingState :=
  { s with isAuthenticated := false, userRatings := [] }

/-- What can happen to the rating state once the page is initialized: a call
of `rateChapter`, the settling of an outstanding request, or a logout. -/
inductive RatingEvent where
  | rate (chapterId : String) (rating : Int)
  | settle (request : AddRatingRequest) (outcome : Outcome) (now : String)
  | logout
deriving DecidableEq, Repr

/-- One event; a request that is not outstanding cannot settle. -/
def ratingStep (s : RatingState) : RatingEvent → RatingState
  | RatingEvent.rate chapterId rating => rateChapter s chapterId rating
  | RatingEvent.settle request outcome now =>
    if request ∈ s.pending then settleAddRating s request outcome now else s
  | RatingEvent.logout => clearAuth s

/-- A sequence of events, in order. -/
def ratingRun (s : RatingState) (events : List RatingEvent) : RatingState :=
  events.foldl ratingStep s

/-- The rating state when the page is initialized, with the ratings that
`loadUserRatings` has stored: nothing is in flight. -/
def freshRatingState (isAuthenticated : Bool) (userRatings : JsObj RatingEntry)
    (widgets : List String) : RatingState :=
  { isAuthenticated := isAuthenticated, userRatings := userRatings, ratingSubmissions := [],
    widgets := widgets, pending := [], sent := [], messages := [] }

/-! ## Flipbook and navigation -/

/-- Modelled from the spec: what the site reads from the page-turn plugin,
the number of pages, the current raw page (1-based) and the display mode,
together with the state of the two navigation buttons. -/
structure Flipbook where
  pages : Nat
  page : Nat
  display : String
  prevBtnDisabled : Bool
  nextBtnDisabled : Bool
deriving DecidableEq, Repr

/-- The `turning` handler that `buildFlipbook` installs. -/
def onTurning (fb : Flipbook) (page : Nat) : Flipbook :=
  { fb with prevBtnDisabled := decide (page ≤ 2), nextBtnDisabled := decide (page = fb.pages) }

/-- Modelled from the spec: the plugin call `turn('page', k)`, which goes
to raw page `k` when that page exists and runs the `turning` handler. -/
def turnToPage (fb : Flipbook) (k : Nat) : Flipbook :=
  if 1 ≤ k ∧ k ≤ fb.pages then { onTurning fb k with page := k } else fb

/-- The display mode chosen from the window width. -/
def displayMode (windowWidth : Nat) : String :=
  if windowWidth ≤ 768 then "single" else "double"

/-- Function `buildFlipbook`: one plugin page per entry of `generatedPages`,
in order, starting at page 2 with the previous button disabled. -/
def buildFlipbook (s : State) (windowWidth : Nat) : Flipbook :=
  { pages := s.generatedPages.length, page := 2, display := displayMode windowWidth,
    prevBtnDisabled := true, nextBtnDisabled := false }

/-- The entry of `generatedPages` shown as raw page `k` of the flipbook. -/
def flipbookPage (s : State) (k : Nat) : Option Page :=
  if k = 0 then none else s.generatedPages[k - 1]?

/-- A navigation call on the plugin. -/
inductive TurnCommand where
  | previous
  | next
deriving DecidableEq, Repr

/-- The `keydown` handler of `initDesktopFunctions`: the plugin calls it
makes. -/
def onKeydown (targetIsInput : Bool) (keyCode : Nat) (currentPage : Nat) : List TurnCommand :=
  if targetIsInput then []
  else
    (if keyCode = 37 then (if currentPage > 3 then [TurnCommand.previous] else []) else [])
      ++ (if keyCode = 39 then [TurnCommand.next] else [])

/-- The callback of the resize timer in `initDesktopFunctions`. -/
def resizeReflow (env : Env) (bookContent : Option BookContent) (s : State) (fb : Flipbook)
    (windowWidth : Nat) : State × Flipbook :=
  let currentPage := fb.page
  let s1 := paginateContent env bookContent s
  let fb1 := buildFlipbook s1 windowWidth
  let fb2 := if currentPage > 1 then turnToPage fb1 (min currentPage fb1.pages) else fb1
  (s1, { fb2 with display := displayMode windowWidth })

/-- The raw page a sidebar link of `buildChapterNavigation` turns to: the
number in its `data-page` attribute plus one; `none` when the chapter has no
start page.  Writing the number into the attribute and parsing it back gives
the number again. -/
def chapterLinkTarget (s : State) (chapter : Chapter) : Option Nat :=
  (JsObj.get s.chapterStartPages chapter.id).map (fun startPage => startPage + 1)

/-! ## Resize debounce -/

/-- The resize timers of the browser that have not fired yet (id and due
time in milliseconds), the next timer id, the variable `resizeTimer`
(`none` while it is `undefined`) and the times at which the timer callback
ran; every run is one call of `paginateContent` and one of
`buildFlipbook`. -/
structure ResizeState where
  liveTimers : List (Nat × Nat)
  nextTimerId : Nat
  resizeTimer : Option Nat
  reflows : List Nat
deriving DecidableEq, Repr

/-- The settle interval passed to `setTimeout`. -/
def settleInterval : Nat := 500

/-- Browser function `clearTimeout`. -/
def clearTimeout (liveTimers : List (Nat × Nat)) (id : Option Nat) : List (Nat × Nat) :=
  liveTimers.filter (fun timer => decide (some timer.1 ≠ id))

/-- The `resize` handler of `initDesktopFunctions`, called at time `t`. -/
def onResize (s : ResizeState) (t : Nat) : ResizeState :=
  { liveTimers := clearTimeout s.liveTimers s.resizeTimer ++ [(s.nextTimerId, t + settleInterval)],
    nextTimerId := s.nextTimerId + 1,
    resizeTimer := some s.nextTimerId,
    reflows := s.reflows }

/-- The passing of time up to `t`: every live timer that is due runs its
callback, at its due time, and is gone. -/
def fireDue (s : ResizeState) (t : Nat) : ResizeState :=
  { s with
    liveTimers := s.liveTimers.filter (fun timer => decide (t < timer.2)),
    reflows := s.reflows
      ++ ((s.liveTimers.filter (fun timer => decide (timer.2 ≤ t))).map (fun timer => timer.2)) }

/-- A sequence of resize events at the given times, in order: before each
event the timers due by then fire. -/
def resizeBurst (s : ResizeState) (times : List Nat) : ResizeState :=
  times.foldl (fun st t => onResize (fireDue st t) t) s

/-- A burst of resize events: the times are in order and each event follows
the one before it by less than the settle interval. -/
def closelySpaced : List Nat → Bool
  | a :: b :: rest =>
    decide (a ≤ b) && decide (b < a + settleInterval) && closelySpaced (b :: rest)
  | _ => true

/-- The state before the first resize event. -/
def quietResizeState : ResizeState :=
  { liveTimers := [], nextTimerId := 0, resizeTimer := none, reflows := [] }

/-! ## Loading the user's ratings -/

/-- One rating record of the answer to `/getUserRatings`. -/
structure RatingRecord where
  chapterId : String
  rating : Int
  timestamp : Option String := none
  CREATEDTIME : Option String := none
deriving DecidableEq, Repr

/-- The `ratings` field of the answer: an array, an object keyed by chapter
id (its entries in the order of `Object.keys`), or anything else. -/
inductive RatingsPayload where
  | array (records : List RatingRecord)
  | object (records : JsObj RatingRecord)
  | other
deriving DecidableEq, Repr

/-- The answer to `/getUserRatings`. -/
structure UserRatingsResponse where
  success : Bool
  ratings : RatingsPayload
deriving DecidableEq, Repr

/-- Expression `a || b` on values that are strings or `undefined`. -/
def jsOr (a b : Option String) : Option String :=
  if jsNot a then b else a

/-- The body of the loop of `loadUserRatings` over an array of records. -/
def storeArrayRecord (userRatings : JsObj RatingEntry) (rating : RatingRecord) :
    JsObj RatingEntry :=
  if decide (rating.chapterId ≠ "") && decide (rating.rating > 0) then
    JsObj.set userRatings rating.chapterId
      { rating := rating.rating, timestamp := jsOr rating.timestamp rating.CREATEDTIME }
  else userRatings

/-- The loop of `loadUserRatings` over an array of records. -/
def ratingsFromArray (records : List RatingRecord) : JsObj RatingEntry :=
  records.foldl storeArrayRecord []

/-- The body of the loop of `loadUserRatings` over the keys of an object of
records. -/
def storeObjectRecord (records : JsObj RatingRecord) (userRatings : JsObj RatingEntry)
    (chapterId : String) : JsObj RatingEntry :=
  match JsObj.get records chapterId with
  | some rating =>
    if rating.rating > 0 then
      JsObj.set userRatings chapterId { rating := rating.rating, timestamp := rating.timestamp }
    else userRatings
  | none => userRatings

/-- The loop of `loadUserRatings` over the keys of an object of records. -/
def ratingsFromObject (records : JsObj RatingRecord) : JsObj RatingEntry :=
  (records.map (fun entry => entry.1)).foldl (storeObjectRecord records) []

/-- Method `loadUserRatings`: the value of `userRatings` it leaves;
`none` stands for a request that failed. -/
def loadUserRatings (outcome : Option UserRatingsResponse) : JsObj RatingEntry :=
  match outcome with
  | some data =>
    if data.success then
      match data.ratings with
      | RatingsPayload.array records => ratingsFromArray records
      | RatingsPayload.object records => ratingsFromObject records
      | RatingsPayload.other => []
    else []
  | none => []

/-! ## Age of a comment -/

/-- Method `getTimeAgo`; times are milliseconds since the epoch, `none` is a
timestamp that is missing or empty, and `/` on integers with a positive
divisor is the floor of the quotient. -/
def getTimeAgo (now : Int) (timestamp : Option Int) : String :=
  match timestamp with
  | none => "Just now"
  | some thenTime =>
    let seconds := (now - thenTime) / 1000
    if seconds < 60 then "Just now"
    else
      let minutes := seconds / 60
      if minutes < 60 then toString minutes ++ "m ago"
      else
        let hours := minutes / 60
        if hours < 24 then toString hours ++ "h ago"
        else
          let days := hours / 24
          if days < 7 then toString days ++ "d ago"
          else
            let weeks := days / 7
            if weeks < 4 then toString weeks ++ "w ago"
            else
              let months := days / 30
              if months < 12 then toString months ++ "mo ago"
              else
                let years := days / 365
                toString years ++ "y ago"

/-- Consistency of the rating state: the in-flight set holds exactly the
chapter ids of the outstanding requests, no two outstanding requests are for
the same chapter, and no outstanding request is for a rated chapter. -/
def RatingInv (s : RatingState) : Prop :=
  (∀ c, c ∈ s.ratingSubmissions ↔ ∃ request ∈ s.pending, request.chapterId = c) ∧
  (s.pending.map AddRatingRequest.chapterId).Nodup ∧
  (∀ request ∈ s.pending, isChapterRated s.userRatings request.chapterId = false)

/-- The requests of a list that are for the chapter `c`. -/
def requestsFor (c : String) (requests : List AddRatingRequest) : List AddRatingRequest :=
  requests.filter (fun request => decide (request.chapterId = c))

/-- Every entry of a ratings object has a rating above 0. -/
def AllPositive (userRatings : JsObj RatingEntry) : Prop :=
  ∀ c e, JsObj.get userRatings c = some e → e.rating > 0

/-! ## Concrete inputs -/

/-- A browser in which every piece of markup is as tall as it is long, the
container is 200 pixels high, and no chapter is rated. -/
def sampleEnv : Env :=
  { measureElement := fun m => (m.length : Int), magazineHeight := some 200, userRatings := [] }

/-- A first chapter whose backend identifier differs from its `id`: one
paragraph and one item of a type the renderer does not know. -/
def sampleChapter1 : Chapter :=
  { id := "chapter-1", chapterId := "101", title := "One",
    content := [{ type := "paragraph", text := some "x" }, { type := "footnote" }] }

/-- A second chapter with a single paragraph. -/
def sampleChapter2 : Chapter :=
  { id := "chapter-2", chapterId := "102", title := "Two",
    content := [{ type := "paragraph", text := some "y" }] }

/-- A book of two chapters. -/
def sampleBook : BookContent := { chapters := [sampleChapter1, sampleChapter2] }

/-- The state before the first pagination run. -/
def emptyState : State := { generatedPages := [], chapterStartPages := [] }

/-- A browser with a container 130 pixels high, so that a page takes 40
pixels and the budget is 30, in which every piece of markup is 50 pixels
tall. -/
def smallEnv : Env :=
  { measureElement := fun _ => 50, magazineHeight := some 130, userRatings := [] }

/-- A chapter with a title and no content. -/
def titleOnlyChapter : Chapter :=
  { id := "intro", chapterId := "intro", title := "Intro", content := [] }

/-- A book whose only chapter has no content. -/
def titleOnlyBook : BookContent := { chapters := [titleOnlyChapter] }

/-- A browser in which markup is as tall as it is long and the container is
120 pixels high: a page takes 30 pixels and the budget is 20. -/
def exactEnv : Env :=
  { measureElement := fun m => (m.length : Int), magazineHeight := some 120, userRatings := [] }

/-- A browser with a container 200 pixels high (a page of 110) in which the
paragraph "big" is 500 pixels tall and everything else 10. -/
def tallEnv : Env :=
  { measureElement := fun m => if m = "<p>big</p>" then 500 else 10,
    magazineHeight := some 200, userRatings := [] }

/-- A chapter with an oversize paragraph between two small ones. -/
def tallChapter : Chapter :=
  { id := "tall", chapterId := "tall", title := "Tall",
    content := [{ type := "paragraph", text := some "a" },
      { type := "paragraph", text := some "big" },
      { type := "paragraph", text := some "b" }] }

/-- A book whose only chapter holds the oversize paragraph. -/
def tallBook : BookContent := { chapters := [tallChapter] }

/-- A chapter whose only item has a type the renderer does not know. -/
def footnoteChapter : Chapter :=
  { id := "notes", chapterId := "notes", title := "Notes", content := [{ type := "footnote" }] }

/-- A book that ends with the chapter of footnotes. -/
def footnoteBook : BookContent := { chapters := [sampleChapter2, footnoteChapter] }

/-- A chapter of `n` paragraphs. -/
def manyParagraphs (n : Nat) : Chapter :=
  { id := "long", chapterId := "long", title := "Long",
    content := List.replicate n { type := "paragraph", text := some "x" } }

/-- A book whose only chapter has `n` paragraphs. -/
def longBook (n : Nat) : BookContent := { chapters := [manyParagraphs n] }

/-- A chapter whose backend identifier is the empty string. -/
def unnamedChapter : Chapter :=
  { id := "prologue", chapterId := "", title := "Prologue", content := [] }

/-- A book whose only chapter has an empty backend identifier. -/
def unnamedBook : BookContent := { chapters := [unnamedChapter] }

/-- The discussion manager right after construction. -/
def newDiscussionManager : DiscussionManager :=
  { currentChapterId := none, currentChapterTitle := "", loadCalls := [] }

/-- A logged-in reader without ratings on a page that shows the rating widget
of chapter "ch3". -/
def readerState : RatingState := freshRatingState true [] ["ch3"]

/-- A flipbook of the sample book that shows the leading blank page. -/
def blankPageFlipbook : Flipbook :=
  { pages := 6, page := 1, display := "double", prevBtnDisabled := true,
    nextBtnDisabled := false }

/-- A chapter that ends with its rating widget. -/
def ratedChapter : Chapter :=
  { id := "chapter-3", chapterId := "ch3", title := "Three",
    content := [{ type := "paragraph", text := some "z" },
      { type := "rating", chapterId := some "ch3" }] }

/-- A book whose only chapter has a rating widget. -/
def ratedBook : BookContent := { chapters := [ratedChapter] }

/-- A browser in which every piece of markup is 10 pixels tall, the container
is 600 pixels high and the reader has rated nothing. -/
def unratedEnv : Env :=
  { measureElement := fun _ => 10, magazineHeight := some 600, userRatings := [] }

/-- The same browser after the reader has given chapter "ch3" five stars. -/
def fiveStarEnv : Env :=
  { measureElement := fun _ => 10, magazineHeight := some 600,
    userRatings := [("ch3", { rating := 5, timestamp := some "2025-11-01T10:00:00.000Z" })] }

/-- Two rating records as the backend stores them: a five-star rating and
a record without a rating. -/
def sampleRecords : List RatingRecord :=
  [{ chapterId := "ch1", rating := 5, timestamp := some "2025-11-01" },
    { chapterId := "7", rating := 0, timestamp := some "2025-11-02" }]

/-- The records of `sampleRecords` as an object keyed by chapter id, its keys
in the order of `Object.keys`. -/
def sampleKeyed : JsObj RatingRecord :=
  [("7", { chapterId := "7", rating := 0, timestamp := some "2025-11-02" }),
    ("ch1", { chapterId := "ch1", rating := 5, timestamp := some "2025-11-01" })]

/-- A rating record whose timestamp is the empty string. -/
def undatedRecord : RatingRecord :=
  { chapterId := "ch1", rating := 5, timestamp := some "" }

/-- A success answer to `/getUserRatings` that delivers an array. -/
def arrayAnswer (records : List RatingRecord) : Option UserRatingsResponse :=
  some { success := true, ratings := RatingsPayload.array records }

/-- A success answer to `/getUserRatings` that delivers an object. -/
def objectAnswer (records : JsObj RatingRecord) : Option UserRatingsResponse :=
  some { success := true, ratings := RatingsPayload.object records }

/-- A chapter that repeats the `id` of the first sample chapter. -/
def twinChapter : Chapter :=
  { id := "chapter-1", chapterId := "103", title := "Twin",
    content := [{ type := "paragraph", text := some "t" }] }

/-- A book whose two chapters share one `id`. -/
def twinBook : BookContent := { chapters := [sampleChapter1, twinChapter] }

/-- The events of a reader who rates chapter "ch3" with five stars, gets a
success answer, and then tries to rate chapter "ch1". -/
def fiveStarEvents : List RatingEvent :=
  [RatingEvent.rate "ch3" 5,
    RatingEvent.settle { chapterId := "ch3", rating := 5 } (Outcome.responded { success := true })
      "2025-11-01T10:00:00.000Z",
    RatingEvent.rate "ch1" 2]

/-- The rating state of a reader whose stored ratings are `sampleRecords`,
on a page with the widgets of "ch1" and "ch3", after `fiveStarEvents`. -/
def ratedLater : RatingState :=
  ratingRun (freshRatingState true (loadUserRatings (arrayAnswer sampleRecords)) ["ch1", "ch3"])
    fiveStarEvents

/-! ## Lemmas on the embedding -/

theorem JsObj.get_set_self {α : Type} (o : JsObj α) (k : String) (v : α) :
    JsObj.get (JsObj.set o k v) k = some v := by
  induction o with
  | nil => simp [JsObj.set, JsObj.get]
  | cons e rest ih =>
    obtain ⟨k', v'⟩ := e
    by_cases h : k' = k
    · simp [JsObj.set, JsObj.get, h]
    · simp [JsObj.set, JsObj.get, h, ih]

theorem JsObj.get_set_other {α : Type} (o : JsObj α) (k k2 : String) (v : α) (hk : k ≠ k2) :
    JsObj.get (JsObj.set o k v) k2 = JsObj.get o k2 := by
  induction o with
  | nil => simp [JsObj.set, JsObj.get, hk]
  | cons e rest ih =>
    obtain ⟨k', v'⟩ := e
    by_cases h : k' = k
    · subst h
      simp [JsObj.set, JsObj.get, hk]
    · by_cases h2 : k' = k2
      · subst h2
        simp [JsObj.set, JsObj.get, h]
      · simp [JsObj.set, JsObj.get, h, h2, ih]

theorem foldl_contentStep_flush (env : Env) (maxHeight : Int) (chapter : Chapter)
    (items : List ContentItem) (pages : List Page) (cp : CurrentPage) :
    (let st := items.foldl (contentStep env maxHeight chapter) (pages, cp)
     if st.2.elements.length > 0 then st.1 ++ [contentPage chapter st.2.elements] else st.1)
    = pages ++ (pack env.measureElement maxHeight cp.elements cp.height
        ((items.map (createElementHTML env.userRatings)).filter
          (fun m => decide (m ≠ "")))).map (contentPage chapter) := by
  induction items generalizing pages cp with
  | nil =>
    by_cases h : cp.elements.length > 0 <;> simp [pack, h]
  | cons item rest ih =>
    simp only [List.foldl_cons, List.map_cons]
    by_cases hm : createElementHTML env.userRatings item = ""
    · have hstep : contentStep env maxHeight chapter (pages, cp) item = (pages, cp) := by
        simp [contentStep, hm]
      rw [hstep, ih]
      simp [hm]
    · by_cases hov : cp.height + env.measureElement (createElementHTML env.userRatings item)
          > maxHeight - 10
      · have hstep : contentStep env maxHeight chapter (pages, cp) item
            = (pages ++ [contentPage chapter cp.elements],
                { elements := [createElementHTML env.userRatings item],
                  height := env.measureElement (createElementHTML env.userRatings item),
                  maxHeight := maxHeight, chapterId := some chapter.chapterId }) := by
          simp [contentStep, hm, hov, createEmptyPage]
        rw [hstep, ih]
        simp [hm, pack, hov]
      · have hstep : contentStep env maxHeight chapter (pages, cp) item
            = (pages, { cp with
                  elements := cp.elements ++ [createElementHTML env.userRatings item],
                  height := cp.height + env.measureElement
                    (createElementHTML env.userRatings item) }) := by
          simp [contentStep, hm, hov]
        rw [hstep, ih]
        simp [hm, pack, hov]

theorem chapterStep_generatedPages (env : Env) (maxHeight : Int) (s : State) (chapter : Chapter) :
    (chapterStep env maxHeight s chapter).generatedPages
      = s.generatedPages ++ (chapterLayout env maxHeight chapter).map (contentPage chapter) := by
  have h := foldl_contentStep_flush env maxHeight chapter chapter.content s.generatedPages
    { elements := [titleHTML chapter], height := env.measureElement (titleHTML chapter),
      maxHeight := maxHeight, chapterId := some chapter.chapterId }
  simp only [chapterStep, chapterLayout, renderedItems, createEmptyPage, List.nil_append,
    zero_add]
  exact h

theorem chapterStep_chapterStartPages (env : Env) (maxHeight : Int) (s : State)
    (chapter : Chapter) :
    (chapterStep env maxHeight s chapter).chapterStartPages
      = JsObj.set s.chapterStartPages chapter.id s.generatedPages.length := rfl

theorem chapterPages_eq (env : Env) (maxHeight : Int) (chapter : Chapter) :
    chapterPages env maxHeight chapter
      = (chapterLayout env maxHeight chapter).map (contentPage chapter) := by
  simp [chapterPages, chapterStep_generatedPages]

theorem chapterStep_pages (env : Env) (maxHeight : Int) (s : State) (chapter : Chapter) :
    (chapterStep env maxHeight s chapter).generatedPages
      = s.generatedPages ++ chapterPages env maxHeight chapter := by
  rw [chapterStep_generatedPages, chapterPages_eq]

theorem foldl_chapterStep_pages (env : Env) (maxHeight : Int) (chapters : List Chapter)
    (s : State) :
    (chapters.foldl (chapterStep env maxHeight) s).generatedPages
      = s.generatedPages ++ chapters.flatMap (chapterPages env maxHeight) := by
  induction chapters generalizing s with
  | nil => simp
  | cons c rest ih =>
    simp only [List.foldl_cons, List.flatMap_cons]
    rw [ih, chapterStep_pages, List.append_assoc]

theorem paginateContent_pages (env : Env) (book : BookContent) (s : State) :
    (paginateContent env (some book) s).generatedPages
      = leadingPages ++ book.chapters.flatMap (chapterPages env (getPageMaxHeight env))
          ++ [backCoverPage] := by
  simp [paginateContent, foldl_chapterStep_pages, leadingPages]

theorem String_join_cons (a : String) (l : List String) : String.join (a :: l) = a ++ String.join l := by
  apply String.ext
  simp [String.data_join]

theorem String_join_append (a b : List String) : String.join (a ++ b) = String.join a ++ String.join b := by
  apply String.ext
  simp [String.data_join]

theorem String_join_flatten (gs : List (List String)) :
    String.join (gs.map String.join) = String.join gs.flatten := by
  induction gs with
  | nil => rfl
  | cons g rest ih => simp [String_join_cons, String_join_append, ih]

theorem String_join_filter (l : List String) :
    String.join (l.filter (fun m => decide (m ≠ ""))) = String.join l := by
  induction l with
  | nil => rfl
  | cons a rest ih =>
    by_cases h : a = ""
    · subst h
      simp_all [String_join_cons]
    · simp_all [String_join_cons]


theorem pack_flatten (measure : String → Int) (mh : Int) (ms : List String) (cur : List String) (h : Int) :
    (pack measure mh cur h ms).flatten = cur ++ ms := by
  induction ms generalizing cur h with
  | nil =>
    cases cur <;> simp [pack]
  | cons m rest ih =>
    by_cases hov : h + measure m > mh - 10
    · simp [pack, hov, ih]
    · simp [pack, hov, ih]

theorem pack_ne_nil (measure : String → Int) (mh : Int) (ms : List String) (cur : List String) (h : Int)
    (hcur : cur ≠ []) : ∀ g ∈ pack measure mh cur h ms, g ≠ [] := by
  induction ms generalizing cur h with
  | nil =>
    intro g hg
    cases cur with
    | nil => exact absurd rfl hcur
    | cons a t =>
      simp [pack] at hg
      simp [hg]
  | cons m rest ih =>
    intro g hg
    by_cases hov : h + measure m > mh - 10
    · simp only [pack, hov, if_true, List.mem_cons] at hg
      rcases hg with hg | hg
      · rw [hg]; exact hcur
      · exact ih [m] (measure m) (by simp) g hg
    · simp only [pack, hov, if_false] at hg
      exact ih (cur ++ [m]) (h + measure m) (by simp) g hg

theorem pack_head (measure : String → Int) (mh : Int) (ms : List String) (cur : List String) (h : Int)
    (hcur : cur ≠ []) : ∃ tail more, pack measure mh cur h ms = (cur ++ tail) :: more := by
  induction ms generalizing cur h with
  | nil =>
    refine ⟨[], [], ?_⟩
    cases cur with
    | nil => exact absurd rfl hcur
    | cons a t => simp [pack]
  | cons m rest ih =>
    by_cases hov : h + measure m > mh - 10
    · exact ⟨[], pack measure mh [m] (measure m) rest, by simp [pack, hov]⟩
    · obtain ⟨tail, more, ht⟩ := ih (cur ++ [m]) (h + measure m) (by simp)
      exact ⟨m :: tail, more, by simp [pack, hov, ht]⟩

theorem pack_budget (measure : String → Int) (mh : Int) (ms : List String) (cur : List String) (h : Int)
    (hh : h = totalHeight measure cur) (hinv : cur.length = 1 ∨ h ≤ mh - 10) :
    ∀ g ∈ pack measure mh cur h ms,
      totalHeight measure g ≤ mh - 10 ∨ ∃ e, g = [e] ∧ measure e > mh - 10 := by
  induction ms generalizing cur h with
  | nil =>
    intro g hg
    by_cases hl : cur.length > 0
    · simp only [pack, hl, if_true, List.mem_singleton] at hg
      subst hg
      by_cases hb : totalHeight measure g ≤ mh - 10
      · exact Or.inl hb
      · rcases hinv with h1 | h1
        · right
          match g, h1 with
          | [e], _ =>
            refine ⟨e, rfl, ?_⟩
            simp [totalHeight] at hb
            omega
        · exact absurd (hh ▸ h1) hb
    · simp [pack, hl] at hg
  | cons m rest ih =>
    intro g hg
    by_cases hov : h + measure m > mh - 10
    · simp only [pack, hov, if_true, List.mem_cons] at hg
      rcases hg with hg | hg
      · subst hg
        by_cases hb : totalHeight measure g ≤ mh - 10
        · exact Or.inl hb
        · rcases hinv with h1 | h1
          · right
            match g, h1 with
            | [e], _ =>
              refine ⟨e, rfl, ?_⟩
              simp [totalHeight] at hb
              omega
          · exact absurd (hh ▸ h1) hb
      · exact ih [m] (measure m) (by simp [totalHeight]) (Or.inl rfl) g hg
    · simp only [pack, hov, if_false] at hg
      refine ih (cur ++ [m]) (h + measure m) ?_ (Or.inr (by omega)) g hg
      simp [totalHeight, hh]

theorem totalHeight_nonneg (measure : String → Int) (hnn : ∀ m, 0 ≤ measure m) (l : List String) :
    0 ≤ totalHeight measure l := by
  induction l with
  | nil => simp [totalHeight]
  | cons a t ih =>
    have := hnn a
    simp [totalHeight] at ih ⊢
    omega

theorem pack_fits (measure : String → Int) (mh : Int) (hnn : ∀ m, 0 ≤ measure m)
    (ms : List String) (cur : List String) (h : Int) (hcur : cur ≠ [])
    (hfit : h + totalHeight measure ms ≤ mh - 10) :
    pack measure mh cur h ms = [cur ++ ms] := by
  induction ms generalizing cur h with
  | nil =>
    cases cur with
    | nil => exact absurd rfl hcur
    | cons a t => simp [pack]
  | cons m rest ih =>
    have h0 := totalHeight_nonneg measure hnn rest
    have hm : totalHeight measure (m :: rest) = measure m + totalHeight measure rest := by
      simp [totalHeight]
    have hov : ¬ (h + measure m > mh - 10) := by omega
    simp only [pack, hov, if_false]
    rw [ih (cur ++ [m]) (h + measure m) (by simp) (by omega)]
    simp

theorem pack_oversize (measure : String → Int) (mh : Int) (hnn : ∀ m, 0 ≤ measure m)
    (before : List String) (m : String) (after : List String) (hbig : measure m > mh)
    (cur : List String) (h : Int) (hh : 0 ≤ h) :
    ∃ A B, pack measure mh cur h (before ++ m :: after) = A ++ [[m]] ++ B
      ∧ A.flatten = cur ++ before ∧ B.flatten = after := by
  induction before generalizing cur h with
  | nil =>
    have hov : h + measure m > mh - 10 := by omega
    cases after with
    | nil =>
      exact ⟨[cur], [], by simp [pack, hov], by simp, by simp⟩
    | cons m2 rest =>
      have h2 := hnn m2
      have hov2 : measure m + measure m2 > mh - 10 := by omega
      refine ⟨[cur], pack measure mh [m2] (measure m2) rest, by simp [pack, hov, hov2], by simp, ?_⟩
      simp [pack_flatten]
  | cons p rest ih =>
    have hp := hnn p
    by_cases hov : h + measure p > mh - 10
    · obtain ⟨A, B, hpk, hA, hB⟩ := ih [p] (measure p) hp
      exact ⟨cur :: A, B, by simp [pack, hov, hpk], by simp [hA], hB⟩
    · obtain ⟨A, B, hpk, hA, hB⟩ := ih (cur ++ [p]) (h + measure p) (by omega)
      exact ⟨A, B, by simp [pack, hov, hpk], by simp [hA], hB⟩

theorem foldl_chapterStep_get_other (env : Env) (mh : Int) (cs : List Chapter) (s : State)
    (k : String) (hk : ∀ c ∈ cs, c.id ≠ k) :
    JsObj.get (cs.foldl (chapterStep env mh) s).chapterStartPages k
      = JsObj.get s.chapterStartPages k := by
  induction cs generalizing s with
  | nil => rfl
  | cons c rest ih =>
    simp only [List.foldl_cons]
    rw [ih _ (fun c' hc' => hk c' (List.mem_cons_of_mem _ hc')), chapterStep_chapterStartPages,
      JsObj.get_set_other _ _ _ _ (hk c (List.mem_cons_self _ _))]

theorem foldl_chapterStep_start (env : Env) (mh : Int) (pre post : List Chapter) (c : Chapter)
    (s : State) (hid : ((pre ++ c :: post).map Chapter.id).Nodup) :
    JsObj.get ((pre ++ c :: post).foldl (chapterStep env mh) s).chapterStartPages c.id
      = some (s.generatedPages.length + (pre.flatMap (chapterPages env mh)).length) := by
  have hpost : ∀ c' ∈ post, c'.id ≠ c.id := by
    intro c' hc' heq
    rw [List.map_append, List.map_cons, List.nodup_append] at hid
    have h2 := (List.nodup_cons.mp hid.2.1).1
    exact h2 (heq ▸ List.mem_map_of_mem _ hc')
  rw [List.foldl_append, List.foldl_cons, foldl_chapterStep_get_other _ _ _ _ _ hpost,
    chapterStep_chapterStartPages, JsObj.get_set_self, foldl_chapterStep_pages]
  simp

theorem paginateContent_start (env : Env) (book : BookContent) (s : State)
    (pre post : List Chapter) (c : Chapter) (hsplit : book.chapters = pre ++ c :: post)
    (hid : (book.chapters.map Chapter.id).Nodup) :
    JsObj.get (paginateContent env (some book) s).chapterStartPages c.id
      = some (3 + (pre.flatMap (chapterPages env (getPageMaxHeight env))).length) := by
  rw [hsplit] at hid
  have h := foldl_chapterStep_start env (getPageMaxHeight env) pre post c
    { generatedPages := [blankPage, coverPage, coverBackPage], chapterStartPages := [] } hid
  simp only [paginateContent, hsplit]
  rw [h]
  simp

theorem paginateContent_split (env : Env) (book : BookContent) (s : State)
    (pre post : List Chapter) (c : Chapter) (hsplit : book.chapters = pre ++ c :: post) :
    (paginateContent env (some book) s).generatedPages
      = (leadingPages ++ pre.flatMap (chapterPages env (getPageMaxHeight env)))
        ++ (chapterPages env (getPageMaxHeight env) c
        ++ (post.flatMap (chapterPages env (getPageMaxHeight env)) ++ [backCoverPage])) := by
  rw [paginateContent_pages, hsplit]
  simp

theorem chapterPages_ne_nil (env : Env) (mh : Int) (c : Chapter) :
    chapterPages env mh c ≠ [] := by
  obtain ⟨tail, more, h⟩ := pack_head env.measureElement mh (renderedItems env c)
    [titleHTML c] (env.measureElement (titleHTML c)) (by simp)
  rw [chapterPages_eq, chapterLayout, h]
  simp



theorem contentPagesWithChapterId_append (a b : List Page) (x : String) :
    contentPagesWithChapterId (a ++ b) x
      = contentPagesWithChapterId a x ++ contentPagesWithChapterId b x := by
  simp [contentPagesWithChapterId]

theorem contentPagesWithChapterId_chapterPages_self (env : Env) (mh : Int) (c : Chapter) :
    contentPagesWithChapterId (chapterPages env mh c) c.chapterId = chapterPages env mh c := by
  rw [chapterPages_eq, contentPagesWithChapterId, List.filter_eq_self]
  intro p hp
  obtain ⟨g, _, rfl⟩ := List.mem_map.mp hp
  simp [contentPage]

theorem contentPagesWithChapterId_chapterPages_other (env : Env) (mh : Int) (c : Chapter)
    (x : String) (hx : c.chapterId ≠ x) :
    contentPagesWithChapterId (chapterPages env mh c) x = [] := by
  rw [chapterPages_eq, contentPagesWithChapterId, List.filter_eq_nil_iff]
  intro p hp
  obtain ⟨g, _, rfl⟩ := List.mem_map.mp hp
  simp [contentPage, hx]

theorem contentPagesWithChapterId_flatMap_other (env : Env) (mh : Int) (cs : List Chapter)
    (x : String) (hx : ∀ c ∈ cs, c.chapterId ≠ x) :
    contentPagesWithChapterId (cs.flatMap (chapterPages env mh)) x = [] := by
  induction cs with
  | nil => rfl
  | cons c rest ih =>
    rw [List.flatMap_cons, contentPagesWithChapterId_append,
      contentPagesWithChapterId_chapterPages_other env mh c x (hx c (List.mem_cons_self _ _)),
      ih (fun c' hc' => hx c' (List.mem_cons_of_mem _ hc'))]
    rfl

theorem contentPagesWithChapterId_fixed (x : String) :
    contentPagesWithChapterId leadingPages x = [] ∧
    contentPagesWithChapterId [backCoverPage] x = [] := by
  constructor <;>
    simp [contentPagesWithChapterId, leadingPages, blankPage, coverPage, coverBackPage,
      backCoverPage]

theorem chapters_split_of_getElem? (chapters : List Chapter) (i : Nat) (c : Chapter)
    (hi : chapters[i]? = some c) :
    chapters = chapters.take i ++ c :: chapters.drop (i + 1) := by
  obtain ⟨h, hc⟩ := List.getElem?_eq_some.mp hi
  have h1 := List.take_append_drop i chapters
  rw [List.drop_eq_getElem_cons h, hc] at h1
  exact h1.symm

theorem flatMap_take_length_le (env : Env) (mh : Int) (chapters : List Chapter) (i j : Nat)
    (hij : i ≤ j) :
    ((chapters.take i).flatMap (chapterPages env mh)).length
      ≤ ((chapters.take j).flatMap (chapterPages env mh)).length := by
  obtain ⟨d, rfl⟩ := Nat.exists_eq_add_of_le hij
  rw [List.take_add, List.flatMap_append, List.length_append]
  exact Nat.le_add_right _ _

theorem createElementHTML_unrecognized (userRatings : JsObj RatingEntry) (item : ContentItem)
    (h : item.type ∉ ["paragraph", "image", "lyrics", "metadata", "rating"]) :
    createElementHTML userRatings item = "" := by
  simp only [List.mem_cons, List.mem_singleton, not_or, List.mem_nil_iff, or_false] at h
  obtain ⟨h1, h2, h3, h4, h5⟩ := h
  simp [createElementHTML, h1, h2, h3, h4, h5]

theorem renderedItems_eq_nil (env : Env) (c : Chapter)
    (h : ∀ item ∈ c.content, item.type ∉ ["paragraph", "image", "lyrics", "metadata", "rating"]) :
    renderedItems env c = [] := by
  rw [renderedItems, List.filter_eq_nil_iff]
  intro m hm
  obtain ⟨item, hitem, rfl⟩ := List.mem_map.mp hm
  simp [createElementHTML_unrecognized env.userRatings item (h item hitem)]

theorem exactEnv_nonneg : ∀ m, 0 ≤ exactEnv.measureElement m := by
  intro m
  exact Int.ofNat_nonneg _

theorem tallEnv_nonneg : ∀ m, 0 ≤ tallEnv.measureElement m := by
  intro m
  show 0 ≤ (if m = "<p>big</p>" then (500 : Int) else 10)
  split <;> decide

theorem scanChapters_of_no_range (starts : JsObj Nat) (q : Nat) (cs : List Chapter)
    (cur : Option Chapter) (h : anyChapterRangeContains starts q cs = false) :
    scanChapters starts q cs cur = cur := by
  induction cs with
  | nil => rfl
  | cons c rest ih =>
    simp only [anyChapterRangeContains, Bool.or_eq_false_iff] at h
    simp only [scanChapters, h.1]
    exact ih h.2

theorem no_range_of_all_later (starts : JsObj Nat) (q : Nat) (cs : List Chapter)
    (hdef : ∀ c ∈ cs, JsObj.get starts c.id = some (startOf starts c))
    (h : ∀ c ∈ cs, q < startOf starts c) :
    anyChapterRangeContains starts q cs = false := by
  induction cs with
  | nil => rfl
  | cons c rest ih =>
    have hc := h c (List.mem_cons_self _ _)
    have hd := hdef c (List.mem_cons_self _ _)
    simp only [anyChapterRangeContains, Bool.or_eq_false_iff]
    refine ⟨?_, ih (fun b hb => hdef b (List.mem_cons_of_mem _ hb))
      (fun b hb => h b (List.mem_cons_of_mem _ hb))⟩
    simp only [inChapterRange, hd, jsGe]
    simp
    intro hge
    omega

theorem no_range_of_all_earlier (starts : JsObj Nat) (q : Nat) (cs : List Chapter)
    (hdef : ∀ c ∈ cs, JsObj.get starts c.id = some (startOf starts c))
    (h : ∀ c ∈ cs, startOf starts c ≤ q) (hq : 99999 ≤ q) :
    anyChapterRangeContains starts q cs = false := by
  induction cs with
  | nil => rfl
  | cons c rest ih =>
    simp only [anyChapterRangeContains, Bool.or_eq_false_iff]
    refine ⟨?_, ih (fun b hb => hdef b (List.mem_cons_of_mem _ hb))
      (fun b hb => h b (List.mem_cons_of_mem _ hb))⟩
    cases rest with
    | nil =>
      simp only [inChapterRange, jsLt]
      simp
      intro _
      omega
    | cons n rest2 =>
      have hn := h n (List.mem_cons_of_mem _ (List.mem_cons_self _ _))
      have hd := hdef n (List.mem_cons_of_mem _ (List.mem_cons_self _ _))
      simp only [inChapterRange, hd, jsLt]
      simp
      intro _
      omega

theorem scanChapters_of_highest (starts : JsObj Nat) (q : Nat) (hq : q < 99999)
    (cs : List Chapter) (cur : Option Chapter) (best : Chapter)
    (hdef : ∀ c ∈ cs, JsObj.get starts c.id = some (startOf starts c))
    (hsorted : cs.Pairwise (fun a b => startOf starts a < startOf starts b))
    (hmem : best ∈ cs) (hle : startOf starts best ≤ q)
    (hmax : ∀ c ∈ cs, startOf starts c ≤ q → startOf starts c ≤ startOf starts best) :
    scanChapters starts q cs cur = keepLater starts cur best := by
  induction cs generalizing cur with
  | nil => cases hmem
  | cons c rest ih =>
    obtain ⟨hhead, htail⟩ := List.pairwise_cons.mp hsorted
    have hdefr : ∀ b ∈ rest, JsObj.get starts b.id = some (startOf starts b) :=
      fun b hb => hdef b (List.mem_cons_of_mem _ hb)
    by_cases hbr : best ∈ rest
    · -- the best chapter comes later: the head is out of range
      have hcb : startOf starts c < startOf starts best := hhead best hbr
      have hout : inChapterRange starts c rest q = false := by
        cases rest with
        | nil => cases hbr
        | cons n rest2 =>
          have hd := hdef n (List.mem_cons_of_mem _ (List.mem_cons_self _ _))
          have hnb : startOf starts n ≤ startOf starts best := by
            rcases List.mem_cons.mp hbr with h1 | h1
            · rw [h1]
            · exact Nat.le_of_lt ((List.pairwise_cons.mp htail).1 best h1)
          simp only [inChapterRange, hd, jsLt]
          simp
          intro _
          omega
      simp only [scanChapters, hout]
      exact ih cur hdefr htail hbr (fun b hb => hmax b (List.mem_cons_of_mem _ hb))
    · -- the head is the best chapter: it is in range and nothing after it is
      have hbc : best = c := by
        rcases List.mem_cons.mp hmem with h1 | h1
        · exact h1
        · exact absurd h1 hbr
      subst hbc
      have hlater : ∀ b ∈ rest, q < startOf starts b := by
        intro b hb
        have h1 := hhead b hb
        by_contra hcon
        have h2 := hmax b (List.mem_cons_of_mem _ hb) (by omega)
        omega
      have hin : inChapterRange starts best rest q = true := by
        have hd := hdef best (List.mem_cons_self _ _)
        cases rest with
        | nil =>
          simp only [inChapterRange, hd, jsGe, jsLt]
          simp
          omega
        | cons n rest2 =>
          have hdn := hdef n (List.mem_cons_of_mem _ (List.mem_cons_self _ _))
          have hn := hlater n (List.mem_cons_self _ _)
          simp only [inChapterRange, hd, hdn, jsGe, jsLt]
          simp
          omega
      simp only [scanChapters, hin, if_true]
      exact scanChapters_of_no_range _ _ _ _ (no_range_of_all_later _ _ _ hdefr hlater)

theorem exists_highest_start (starts : JsObj Nat) (q : Nat) (cs : List Chapter)
    (h : ∃ c ∈ cs, startOf starts c ≤ q) :
    ∃ best ∈ cs, startOf starts best ≤ q ∧
      ∀ c ∈ cs, startOf starts c ≤ q → startOf starts c ≤ startOf starts best := by
  induction cs with
  | nil =>
    obtain ⟨c, hc, _⟩ := h
    cases hc
  | cons a rest ih =>
    by_cases hr : ∃ c ∈ rest, startOf starts c ≤ q
    · obtain ⟨b, hb, hbq, hbmax⟩ := ih hr
      by_cases ha : startOf starts a ≤ q ∧ startOf starts b < startOf starts a
      · refine ⟨a, List.mem_cons_self _ _, ha.1, ?_⟩
        intro c hc hcq
        rcases List.mem_cons.mp hc with h1 | h1
        · rw [h1]
        · have := hbmax c h1 hcq
          omega
      · refine ⟨b, List.mem_cons_of_mem _ hb, hbq, ?_⟩
        intro c hc hcq
        rcases List.mem_cons.mp hc with h1 | h1
        · subst h1
          by_contra hcon
          exact ha ⟨hcq, by omega⟩
        · exact hbmax c h1 hcq
    · obtain ⟨c, hc, hcq⟩ := h
      rcases List.mem_cons.mp hc with h1 | h1
      · subst h1
        refine ⟨c, List.mem_cons_self _ _, hcq, ?_⟩
        intro c' hc' hcq'
        rcases List.mem_cons.mp hc' with h2 | h2
        · rw [h2]
        · exact absurd ⟨c', h2, hcq'⟩ hr
      · exact absurd ⟨c, h1, hcq⟩ hr

theorem eq_of_startOf_eq (starts : JsObj Nat) (cs : List Chapter)
    (hsorted : cs.Pairwise (fun a b => startOf starts a < startOf starts b))
    (a b : Chapter) (ha : a ∈ cs) (hb : b ∈ cs) (hab : startOf starts a = startOf starts b) :
    a = b := by
  induction cs with
  | nil => cases ha
  | cons c rest ih =>
    obtain ⟨hhead, htail⟩ := List.pairwise_cons.mp hsorted
    rcases List.mem_cons.mp ha with h1 | h1 <;> rcases List.mem_cons.mp hb with h2 | h2
    · rw [h1, h2]
    · subst h1
      have := hhead b h2
      omega
    · subst h2
      have := hhead a h1
      omega
    · exact ih htail h1 h2

theorem currentChapterFor_eq (cs : List Chapter) (starts : JsObj Nat) (p : Nat) :
    currentChapterFor cs starts p
      = scanChapters starts (p + 1) cs (scanChapters starts p cs none) := rfl

theorem scanChapters_first_pass (starts : JsObj Nat) (q : Nat) (hq : q < 99999)
    (cs : List Chapter)
    (hdef : ∀ c ∈ cs, JsObj.get starts c.id = some (startOf starts c))
    (hsorted : cs.Pairwise (fun a b => startOf starts a < startOf starts b)) :
    (scanChapters starts q cs none = none ∧ ∀ c ∈ cs, q < startOf starts c) ∨
    ∃ best ∈ cs, scanChapters starts q cs none = some best ∧ startOf starts best ≤ q ∧
      ∀ c ∈ cs, startOf starts c ≤ q → startOf starts c ≤ startOf starts best := by
  by_cases h : ∃ c ∈ cs, startOf starts c ≤ q
  · obtain ⟨best, hb, hbq, hmax⟩ := exists_highest_start starts q cs h
    exact Or.inr ⟨best, hb,
      scanChapters_of_highest starts q hq cs none best hdef hsorted hb hbq hmax, hbq, hmax⟩
  · have hall : ∀ c ∈ cs, q < startOf starts c := by
      intro c hc
      by_contra hcon
      exact h ⟨c, hc, by omega⟩
    exact Or.inl ⟨scanChapters_of_no_range _ _ _ _ (no_range_of_all_later _ _ _ hdef hall), hall⟩

theorem keepLater_some (starts : JsObj Nat) (cs : List Chapter)
    (hdef : ∀ c ∈ cs, JsObj.get starts c.id = some (startOf starts c))
    (hsorted : cs.Pairwise (fun a b => startOf starts a < startOf starts b))
    (a b : Chapter) (ha : a ∈ cs) (hb : b ∈ cs) (hab : startOf starts a ≤ startOf starts b) :
    keepLater starts (some a) b = some b := by
  simp only [keepLater, hdef a ha, hdef b hb, jsGt]
  by_cases hlt : startOf starts b > startOf starts a
  · simp [hlt]
  · have heq : a = b := eq_of_startOf_eq starts cs hsorted a b ha hb (by omega)
    simp [hlt, heq]

theorem currentChapterFor_highest (starts : JsObj Nat) (p : Nat) (hp : p + 1 < 99999)
    (cs : List Chapter)
    (hdef : ∀ c ∈ cs, JsObj.get starts c.id = some (startOf starts c))
    (hsorted : cs.Pairwise (fun a b => startOf starts a < startOf starts b)) (c : Chapter) :
    currentChapterFor cs starts p = some c ↔
      c ∈ cs ∧ startOf starts c ≤ p + 1 ∧
        ∀ b ∈ cs, startOf starts b ≤ p + 1 → startOf starts b ≤ startOf starts c := by
  rw [currentChapterFor_eq]
  have key : (scanChapters starts (p + 1) cs (scanChapters starts p cs none) = none ∧
        ∀ b ∈ cs, p + 1 < startOf starts b) ∨
      ∃ best ∈ cs, scanChapters starts (p + 1) cs (scanChapters starts p cs none) = some best ∧
        startOf starts best ≤ p + 1 ∧
        ∀ b ∈ cs, startOf starts b ≤ p + 1 → startOf starts b ≤ startOf starts best := by
    by_cases h : ∃ b ∈ cs, startOf starts b ≤ p + 1
    · obtain ⟨best, hb, hbq, hmax⟩ := exists_highest_start starts (p + 1) cs h
      refine Or.inr ⟨best, hb, ?_, hbq, hmax⟩
      rw [scanChapters_of_highest starts (p + 1) hp cs _ best hdef hsorted hb hbq hmax]
      rcases scanChapters_first_pass starts p (by omega) cs hdef hsorted with ⟨h1, _⟩ | ⟨a, ha, h1, haq, _⟩
      · rw [h1]; rfl
      · rw [h1]
        exact keepLater_some starts cs hdef hsorted a best ha hb (hmax a ha (by omega))
    · have hall : ∀ b ∈ cs, p + 1 < startOf starts b := by
        intro b hb
        by_contra hcon
        exact h ⟨b, hb, by omega⟩
      refine Or.inl ⟨?_, hall⟩
      rw [scanChapters_of_no_range _ _ _ _ (no_range_of_all_later _ _ _ hdef hall)]
      exact scanChapters_of_no_range _ _ _ _
        (no_range_of_all_later _ _ _ hdef (fun b hb => by have := hall b hb; omega))
  constructor
  · intro hres
    rcases key with ⟨h1, _⟩ | ⟨best, hb, h1, hbq, hmax⟩
    · rw [h1] at hres; cases hres
    · rw [h1] at hres
      cases hres
      exact ⟨hb, hbq, hmax⟩
  · rintro ⟨hc, hcq, hcmax⟩
    rcases key with ⟨_, hall⟩ | ⟨best, hb, h1, hbq, hmax⟩
    · have := hall c hc
      omega
    · rw [h1]
      have h2 := hmax c hc hcq
      have h3 := hcmax best hb hbq
      rw [eq_of_startOf_eq starts cs hsorted best c hb hc (by omega)]

theorem foldl_chapterStep_sorted (env : Env) (mh : Int) (cs : List Chapter) (s : State)
    (hid : (cs.map Chapter.id).Nodup) :
    (∀ c ∈ cs, JsObj.get (cs.foldl (chapterStep env mh) s).chapterStartPages c.id
      = some (startOf (cs.foldl (chapterStep env mh) s).chapterStartPages c)) ∧
    cs.Pairwise (fun a b =>
      startOf (cs.foldl (chapterStep env mh) s).chapterStartPages a
        < startOf (cs.foldl (chapterStep env mh) s).chapterStartPages b) := by
  have hstart : ∀ pre c post, cs = pre ++ c :: post →
      JsObj.get (cs.foldl (chapterStep env mh) s).chapterStartPages c.id
        = some (s.generatedPages.length + (pre.flatMap (chapterPages env mh)).length) := by
    intro pre c post hsplit
    subst hsplit
    exact foldl_chapterStep_start env mh pre post c s hid
  constructor
  · intro c hc
    obtain ⟨pre, post, hsplit⟩ := List.append_of_mem hc
    simp [startOf, hstart pre c post hsplit]
  · rw [List.pairwise_iff_getElem]
    intro i j hi hj hij
    have h1 := hstart _ _ _ (chapters_split_of_getElem? cs i cs[i] (List.getElem?_eq_getElem hi))
    have h2 := hstart _ _ _ (chapters_split_of_getElem? cs j cs[j] (List.getElem?_eq_getElem hj))
    simp only [startOf, h1, h2, Option.getD_some]
    obtain ⟨d, rfl⟩ := Nat.exists_eq_add_of_lt hij
    have htake : List.take (i + d + 1) cs = List.take i cs ++ cs[i] :: List.take d (List.drop (i + 1) cs) := by
      have h3 : List.take (i + 1) cs = List.take i cs ++ [cs[i]] := by
        rw [List.take_succ, List.getElem?_eq_getElem hi]
        rfl
      have h4 : i + d + 1 = (i + 1) + d := by omega
      rw [h4, List.take_add, h3, List.append_assoc]
      rfl
    rw [htake, List.flatMap_append, List.flatMap_cons, List.length_append, List.length_append]
    have hne := List.length_pos.mpr (chapterPages_ne_nil env mh cs[i])
    omega

theorem paginateContent_starts_sorted (env : Env) (book : BookContent) (s : State)
    (hid : (book.chapters.map Chapter.id).Nodup) :
    (∀ c ∈ book.chapters, JsObj.get (paginateContent env (some book) s).chapterStartPages c.id
      = some (startOf (paginateContent env (some book) s).chapterStartPages c)) ∧
    book.chapters.Pairwise (fun a b =>
      startOf (paginateContent env (some book) s).chapterStartPages a
        < startOf (paginateContent env (some book) s).chapterStartPages b) :=
  foldl_chapterStep_sorted env (getPageMaxHeight env) book.chapters
    { generatedPages := [blankPage, coverPage, coverBackPage], chapterStartPages := [] } hid

theorem pack_length_all_flush (measure : String → Int) (mh : Int) (hnn : ∀ m, 0 ≤ measure m)
    (ms : List String) (hbig : ∀ m ∈ ms, measure m > mh - 10)
    (cur : List String) (h : Int) (hh : 0 ≤ h) (hcur : cur ≠ []) :
    (pack measure mh cur h ms).length = ms.length + 1 := by
  induction ms generalizing cur h with
  | nil =>
    cases cur with
    | nil => exact absurd rfl hcur
    | cons a t => simp [pack]
  | cons m rest ih =>
    have hm := hbig m (List.mem_cons_self _ _)
    have hov : h + measure m > mh - 10 := by omega
    simp only [pack, hov, if_true, List.length_cons]
    rw [ih (fun b hb => hbig b (List.mem_cons_of_mem _ hb)) [m] (measure m) (hnn m) (by simp)]

theorem renderedItems_manyParagraphs (n : Nat) :
    renderedItems smallEnv (manyParagraphs n) = List.replicate n "<p>x</p>" := by
  have h : createElementHTML smallEnv.userRatings { type := "paragraph", text := some "x" }
      = "<p>x</p>" := by decide
  have h2 : decide ("<p>x</p>" ≠ "") = true := by decide
  simp only [renderedItems, manyParagraphs, List.map_replicate, h, List.filter_replicate, h2, if_true]

theorem longBook_pages (n : Nat) (s : State) :
    (paginateContent smallEnv (some (longBook n)) s).generatedPages.length = n + 5 ∧
    (paginateContent smallEnv (some (longBook n)) s).chapterStartPages = [("long", 3)] := by
  constructor
  · rw [paginateContent_pages]
    simp only [longBook, List.flatMap_cons, List.flatMap_nil, List.append_nil, List.length_append,
      chapterPages_eq, List.length_map, chapterLayout]
    rw [pack_length_all_flush smallEnv.measureElement (getPageMaxHeight smallEnv)
      (fun _ => show (0 : Int) ≤ 50 by decide) (renderedItems smallEnv (manyParagraphs n))
      (fun _ _ => show (50 : Int) > getPageMaxHeight smallEnv - 10 by decide)
      [titleHTML (manyParagraphs n)] (smallEnv.measureElement (titleHTML (manyParagraphs n)))
      (show (0 : Int) ≤ 50 by decide) (by simp), renderedItems_manyParagraphs,
      List.length_replicate]
    simp [leadingPages]
    omega
  · rfl

theorem scanChapters_mem (starts : JsObj Nat) (q : Nat) (cs : List Chapter)
    (cur : Option Chapter) (c : Chapter) (h : scanChapters starts q cs cur = some c) :
    cur = some c ∨ c ∈ cs := by
  induction cs generalizing cur with
  | nil => exact Or.inl h
  | cons a rest ih =>
    simp only [scanChapters] at h
    rcases ih _ h with h1 | h1
    · by_cases hin : inChapterRange starts a rest q = true
      · rw [if_pos hin] at h1
        cases cur with
        | none =>
          simp only [keepLater] at h1
          cases h1
          exact Or.inr (List.mem_cons_self _ _)
        | some c0 =>
          simp only [keepLater] at h1
          split at h1
          · cases h1
            exact Or.inr (List.mem_cons_self _ _)
          · exact Or.inl h1
      · rw [if_neg hin] at h1
        exact Or.inl h1
    · exact Or.inr (List.mem_cons_of_mem _ h1)

theorem currentChapterFor_mem (cs : List Chapter) (starts : JsObj Nat) (p : Nat) (c : Chapter)
    (h : currentChapterFor cs starts p = some c) : c ∈ cs := by
  rw [currentChapterFor_eq] at h
  rcases scanChapters_mem _ _ _ _ _ h with h1 | h1
  · rcases scanChapters_mem _ _ _ _ _ h1 with h2 | h2
    · cases h2
    · exact h2
  · exact h1

theorem isChapterRated_set_other (ur : JsObj RatingEntry) (k k2 : String) (v : RatingEntry)
    (hk : k ≠ k2) : isChapterRated (JsObj.set ur k v) k2 = isChapterRated ur k2 := by
  simp [isChapterRated, JsObj.get_set_other ur k k2 v hk]

theorem rateChapter_rejected (s : RatingState) (c : String) (r : Int)
    (h : s.isAuthenticated = false ∨ isChapterRated s.userRatings c = true ∨
      c ∈ s.ratingSubmissions ∨ c ∉ s.widgets) :
    ∃ messages, rateChapter s c r = { s with messages := messages } := by
  refine ⟨(rateChapter s c r).messages, ?_⟩
  by_cases h1 : s.isAuthenticated = true
  · by_cases h2 : isChapterRated s.userRatings c = true
    · simp [rateChapter, h1, h2, showMessage]
    · by_cases h3 : c ∈ s.ratingSubmissions
      · simp [rateChapter, h1, h2, h3, showMessage]
      · by_cases h4 : c ∈ s.widgets
        · rcases h with h | h | h | h
          · rw [h] at h1; cases h1
          · exact absurd h h2
          · exact absurd h h3
          · exact absurd h4 h
        · have hs : rateChapter s c r = s := by simp [rateChapter, h1, h2, h3, h4]
          rw [hs]
  · simp [rateChapter, h1, showMessage]

theorem rateChapter_accepted (s : RatingState) (c : String) (r : Int)
    (h1 : s.isAuthenticated = true) (h2 : isChapterRated s.userRatings c = false)
    (h3 : c ∉ s.ratingSubmissions) (h4 : c ∈ s.widgets) :
    rateChapter s c r = { s with
      ratingSubmissions := s.ratingSubmissions ++ [c],
      pending := s.pending ++ [{ chapterId := c, rating := r }],
      sent := s.sent ++ [{ chapterId := c, rating := r }] } := by
  simp [rateChapter, h1, h2, h3, h4, setAdd]

theorem rateChapter_cases (s : RatingState) (c : String) (r : Int) :
    (∃ messages, rateChapter s c r = { s with messages := messages }) ∨
    (s.isAuthenticated = true ∧ isChapterRated s.userRatings c = false ∧
      c ∉ s.ratingSubmissions ∧ c ∈ s.widgets ∧
      rateChapter s c r = { s with
        ratingSubmissions := s.ratingSubmissions ++ [c],
        pending := s.pending ++ [{ chapterId := c, rating := r }],
        sent := s.sent ++ [{ chapterId := c, rating := r }] }) := by
  by_cases h1 : s.isAuthenticated = true
  · by_cases h2 : isChapterRated s.userRatings c = true
    · exact Or.inl (rateChapter_rejected s c r (Or.inr (Or.inl h2)))
    · by_cases h3 : c ∈ s.ratingSubmissions
      · exact Or.inl (rateChapter_rejected s c r (Or.inr (Or.inr (Or.inl h3))))
      · by_cases h4 : c ∈ s.widgets
        · have h2f : isChapterRated s.userRatings c = false := by simpa using h2
          exact Or.inr ⟨h1, h2f, h3, h4, rateChapter_accepted s c r h1 h2f h3 h4⟩
        · exact Or.inl (rateChapter_rejected s c r (Or.inr (Or.inr (Or.inr h4))))
  · exact Or.inl (rateChapter_rejected s c r (Or.inl (by simpa using h1)))

theorem settleAddRating_fields (s : RatingState) (request : AddRatingRequest)
    (outcome : Outcome) (now : String) :
    (settleAddRating s request outcome now).isAuthenticated = s.isAuthenticated ∧
    (settleAddRating s request outcome now).widgets = s.widgets ∧
    (settleAddRating s request outcome now).sent = s.sent ∧
    (settleAddRating s request outcome now).ratingSubmissions
      = setDelete s.ratingSubmissions request.chapterId ∧
    (settleAddRating s request outcome now).pending = s.pending.erase request ∧
    ((settleAddRating s request outcome now).userRatings = s.userRatings ∨
      ∃ v, (settleAddRating s request outcome now).userRatings
        = JsObj.set s.userRatings request.chapterId v) := by
  cases outcome with
  | rejected => simp [settleAddRating, showMessage]
  | responded data =>
    by_cases h1 : data.success = true
    · simp [settleAddRating, showMessage, h1, markChapterAsRated]
    · by_cases h2 : data.alreadyRated = true
      · simp [settleAddRating, showMessage, h1, h2, markChapterAsRated]
      · simp [settleAddRating, showMessage, h1, h2]

theorem ratingInv_fresh (isAuthenticated : Bool) (userRatings : JsObj RatingEntry)
    (widgets : List String) : RatingInv (freshRatingState isAuthenticated userRatings widgets) := by
  simp [RatingInv, freshRatingState]

theorem ratingInv_rateChapter (s : RatingState) (c : String) (r : Int) (h : RatingInv s) :
    RatingInv (rateChapter s c r) := by
  rcases rateChapter_cases s c r with ⟨m, hm⟩ | ⟨_, h2, h3, _, hacc⟩
  · rw [hm]; exact h
  · rw [hacc]
    obtain ⟨ha, hb, hc⟩ := h
    refine ⟨?_, ?_, ?_⟩
    · intro c'
      simp only [List.mem_append, List.mem_singleton, ha c']
      constructor
      · rintro (⟨q, hq, rfl⟩ | rfl)
        · exact ⟨q, Or.inl hq, rfl⟩
        · exact ⟨_, Or.inr rfl, rfl⟩
      · rintro ⟨q, hq | hq, rfl⟩
        · exact Or.inl ⟨q, hq, rfl⟩
        · exact Or.inr (by rw [hq])
    · simp only [List.map_append, List.map_cons, List.map_nil]
      rw [List.nodup_append]
      refine ⟨hb, by simp, ?_⟩
      intro x hx hx2
      rw [List.mem_singleton] at hx2
      subst hx2
      obtain ⟨q, hq, hqc⟩ := List.mem_map.mp hx
      exact h3 ((ha _).mpr ⟨q, hq, hqc⟩)
    · intro q hq
      rcases List.mem_append.mp hq with h5 | h5
      · exact hc q h5
      · rw [List.mem_singleton.mp h5]; exact h2

theorem pending_eq_of_chapterId_eq (pending : List AddRatingRequest)
    (hnd : (pending.map AddRatingRequest.chapterId).Nodup) (a b : AddRatingRequest)
    (ha : a ∈ pending) (hb : b ∈ pending) (hab : a.chapterId = b.chapterId) : a = b :=
  List.inj_on_of_nodup_map hnd ha hb hab

theorem ratingInv_settle (s : RatingState) (request : AddRatingRequest) (outcome : Outcome)
    (now : String) (h : RatingInv s) (hmem : request ∈ s.pending) :
    RatingInv (settleAddRating s request outcome now) := by
  obtain ⟨ha, hb, hc⟩ := h
  obtain ⟨_, _, _, hsub, hpend, hur⟩ := settleAddRating_fields s request outcome now
  have hnd : s.pending.Nodup := List.Nodup.of_map _ hb
  have hother : ∀ q ∈ s.pending.erase request, q.chapterId ≠ request.chapterId := by
    intro q hq heq
    have hq2 : q ∈ s.pending := List.mem_of_mem_erase hq
    have : q = request := pending_eq_of_chapterId_eq _ hb q request hq2 hmem heq
    rw [this] at hq
    exact (List.Nodup.not_mem_erase hnd) hq
  refine ⟨?_, ?_, ?_⟩
  · intro c
    rw [hsub, hpend]
    simp only [setDelete, List.mem_filter, decide_eq_true_eq, ha c]
    constructor
    · rintro ⟨⟨q, hq, rfl⟩, hne⟩
      refine ⟨q, ?_, rfl⟩
      exact (List.mem_erase_of_ne (fun h => hne (by rw [h]))).mpr hq
    · rintro ⟨q, hq, rfl⟩
      exact ⟨⟨q, List.mem_of_mem_erase hq, rfl⟩, hother q hq⟩
  · rw [hpend]
    exact hb.sublist ((List.erase_sublist _ _).map _)
  · intro q hq
    rw [hpend] at hq
    have hq2 : q ∈ s.pending := List.mem_of_mem_erase hq
    rcases hur with h1 | ⟨v, h1⟩
    · rw [h1]; exact hc q hq2
    · rw [h1, isChapterRated_set_other _ _ _ _ (fun h => hother q hq h.symm)]
      exact hc q hq2

theorem ratingInv_clearAuth (s : RatingState) (h : RatingInv s) : RatingInv (clearAuth s) := by
  obtain ⟨ha, hb, _⟩ := h
  exact ⟨ha, hb, fun q _ => by simp [clearAuth, isChapterRated, JsObj.get]⟩

theorem ratingInv_step (s : RatingState) (e : RatingEvent) (h : RatingInv s) :
    RatingInv (ratingStep s e) := by
  cases e with
  | rate c r => exact ratingInv_rateChapter s c r h
  | settle request outcome now =>
    simp only [ratingStep]
    split
    · next hmem => exact ratingInv_settle s request outcome now h hmem
    · exact h
  | logout => exact ratingInv_clearAuth s h

theorem ratingInv_run (s : RatingState) (events : List RatingEvent) (h : RatingInv s) :
    RatingInv (ratingRun s events) := by
  induction events generalizing s with
  | nil => exact h
  | cons e rest ih => exact ih _ (ratingInv_step s e h)

theorem ratingRun_append (s : RatingState) (a b : List RatingEvent) :
    ratingRun s (a ++ b) = ratingRun (ratingRun s a) b := by
  simp [ratingRun, List.foldl_append]

theorem isChapterRated_set_self (ur : JsObj RatingEntry) (k : String) (v : RatingEntry) :
    isChapterRated (JsObj.set ur k v) k = decide (v.rating > 0) := by
  simp [isChapterRated, JsObj.get_set_self]

theorem getUserRating_set_self (ur : JsObj RatingEntry) (k : String) (v : RatingEntry)
    (hv : v.rating > 0) : getUserRating (JsObj.set ur k v) k = some v.rating := by
  simp [getUserRating, isChapterRated_set_self, hv, JsObj.get_set_self]

theorem inflight_step (s : RatingState) (e : RatingEvent) (c : String)
    (hc : c ∈ s.ratingSubmissions)
    (he : ∀ request outcome now, e = RatingEvent.settle request outcome now →
      request.chapterId ≠ c) :
    c ∈ (ratingStep s e).ratingSubmissions ∧
    requestsFor c (ratingStep s e).sent = requestsFor c s.sent := by
  cases e with
  | rate c2 r =>
    simp only [ratingStep]
    rcases rateChapter_cases s c2 r with ⟨m, hm⟩ | ⟨_, _, h3, _, hacc⟩
    · rw [hm]; exact ⟨hc, rfl⟩
    · rw [hacc]
      have hne : c2 ≠ c := fun h => h3 (h ▸ hc)
      exact ⟨List.mem_append_left _ hc, by simp [requestsFor, hne]⟩
  | settle request outcome now =>
    simp only [ratingStep]
    split
    · obtain ⟨_, _, hsent, hsub, _, _⟩ := settleAddRating_fields s request outcome now
      rw [hsent, hsub]
      refine ⟨?_, rfl⟩
      simp only [setDelete, List.mem_filter, decide_eq_true_eq]
      exact ⟨hc, fun h => he request outcome now rfl h.symm⟩
    · exact ⟨hc, rfl⟩
  | logout => exact ⟨hc, rfl⟩

theorem inflight_run (events : List RatingEvent) (s : RatingState) (c : String)
    (hc : c ∈ s.ratingSubmissions)
    (he : ∀ request outcome now, RatingEvent.settle request outcome now ∈ events →
      request.chapterId ≠ c) :
    c ∈ (ratingRun s events).ratingSubmissions ∧
    requestsFor c (ratingRun s events).sent = requestsFor c s.sent := by
  induction events generalizing s with
  | nil => exact ⟨hc, rfl⟩
  | cons e rest ih =>
    obtain ⟨h1, h2⟩ := inflight_step s e c hc
      (fun request outcome now h => he request outcome now (h ▸ List.mem_cons_self _ _))
    obtain ⟨h3, h4⟩ := ih (ratingStep s e) h1
      (fun request outcome now h => he request outcome now (List.mem_cons_of_mem _ h))
    exact ⟨h3, h4.trans h2⟩

theorem rejecting_step (s : RatingState) (e : RatingEvent) (c : String) (hinv : RatingInv s)
    (h : s.isAuthenticated = false ∨ isChapterRated s.userRatings c = true) :
    (ratingStep s e).isAuthenticated = false ∨
      isChapterRated (ratingStep s e).userRatings c = true := by
  cases e with
  | rate c2 r =>
    simp only [ratingStep]
    rcases rateChapter_cases s c2 r with ⟨m, hm⟩ | ⟨_, _, _, _, hacc⟩
    · rw [hm]; exact h
    · rw [hacc]; exact h
  | settle request outcome now =>
    simp only [ratingStep]
    split
    · next hmem =>
      obtain ⟨hauth, _, _, _, _, hur⟩ := settleAddRating_fields s request outcome now
      rcases h with h | h
      · exact Or.inl (hauth.trans h)
      · right
        rcases hur with h1 | ⟨v, h1⟩
        · rw [h1]; exact h
        · have hne : request.chapterId ≠ c := by
            intro heq
            have := hinv.2.2 request hmem
            rw [heq, h] at this
            cases this
          rw [h1, isChapterRated_set_other _ _ _ _ hne]
          exact h
    · exact h
  | logout => exact Or.inl rfl

theorem rejecting_run (events : List RatingEvent) (s : RatingState) (c : String)
    (hinv : RatingInv s)
    (h : s.isAuthenticated = false ∨ isChapterRated s.userRatings c = true) :
    (ratingRun s events).isAuthenticated = false ∨
      isChapterRated (ratingRun s events).userRatings c = true := by
  induction events generalizing s with
  | nil => exact h
  | cons e rest ih => exact ih _ (ratingInv_step s e hinv) (rejecting_step s e c hinv h)

theorem paginateContent_length_ge (env : Env) (book : BookContent) (s : State) :
    4 ≤ (paginateContent env (some book) s).generatedPages.length := by
  rw [paginateContent_pages]
  simp only [List.length_append, leadingPages, List.length_cons, List.length_nil]
  omega

theorem foldl_chapterStep_get_none (env : Env) (mh : Int) (cs : List Chapter) (s : State)
    (k : String) (hk : k ∉ cs.map Chapter.id) :
    JsObj.get (cs.foldl (chapterStep env mh) s).chapterStartPages k
      = JsObj.get s.chapterStartPages k :=
  foldl_chapterStep_get_other env mh cs s k
    (fun _ hc h => hk (h ▸ List.mem_map_of_mem _ hc))

theorem flatMap_chapterPages_length_ge (env : Env) (mh : Int) (cs : List Chapter) :
    cs.length ≤ (cs.flatMap (chapterPages env mh)).length := by
  induction cs with
  | nil => simp
  | cons c rest ih =>
    have hne := List.length_pos.mpr (chapterPages_ne_nil env mh c)
    rw [List.flatMap_cons, List.length_append, List.length_cons]
    omega

theorem ne_empty_of_length_pos (a : String) (h : 0 < a.length) : a ≠ "" := by
  intro h2
  rw [h2] at h
  exact absurd h (by decide)

theorem titleHTML_ne_empty (c : Chapter) : titleHTML c ≠ "" := by
  apply ne_empty_of_length_pos
  simp only [titleHTML, String.length_append]
  have : "<h2>".length = 4 := by decide
  omega

theorem renderedItems_ne_empty (env : Env) (c : Chapter) :
    ∀ m ∈ renderedItems env c, m ≠ "" := by
  intro m hm
  simp only [renderedItems, List.mem_filter, decide_eq_true_eq] at hm
  exact hm.2

theorem pack_breaks (measure : String → Int) (mh : Int) (ms : List String)
    (cur : List String) (h : Int) (hh : h = totalHeight measure cur) (hcur : cur ≠ [])
    (A B : List (List String)) (g1 g2 : List String)
    (hsplit : pack measure mh cur h ms = A ++ g1 :: g2 :: B) :
    ∃ m rest, g2 = m :: rest ∧ totalHeight measure g1 + measure m > mh - 10 := by
  induction ms generalizing cur h A with
  | nil =>
    cases cur with
    | nil => exact absurd rfl hcur
    | cons a t =>
      simp only [pack, List.length_cons, Nat.zero_lt_succ, if_true] at hsplit
      have := congrArg List.length hsplit
      simp at this
      omega
  | cons m rest ih =>
    by_cases hov : h + measure m > mh - 10
    · simp only [pack, hov, if_true] at hsplit
      cases A with
      | nil =>
        simp only [List.nil_append, List.cons.injEq] at hsplit
        obtain ⟨hg1, hrest⟩ := hsplit
        obtain ⟨tail, more, hpk⟩ := pack_head measure mh rest [m] (measure m) (by simp)
        rw [hpk] at hrest
        simp only [List.cons.injEq] at hrest
        refine ⟨m, tail, by rw [← hrest.1]; rfl, ?_⟩
        rw [← hg1, ← hh]
        exact hov
      | cons a A2 =>
        simp only [List.cons_append, List.cons.injEq] at hsplit
        exact ih [m] (measure m) (by simp [totalHeight]) (by simp) A2 hsplit.2
    · simp only [pack, hov, if_false] at hsplit
      exact ih (cur ++ [m]) (h + measure m) (by simp [totalHeight, hh]) (by simp) A hsplit

theorem createRatingHTML_ne_empty (ur : JsObj RatingEntry) (chapterId : String) :
    createRatingHTML ur chapterId ≠ "" := by
  apply ne_empty_of_length_pos
  simp only [createRatingHTML, String.length_append]
  have : 0 < "\n        <div class=\"rating-container ".length := by decide
  omega

theorem createElementHTML_recognized (ur : JsObj RatingEntry) (item : ContentItem)
    (h : item.type ∈ ["paragraph", "image", "lyrics", "metadata", "rating"]) :
    createElementHTML ur item ≠ "" := by
  simp only [List.mem_cons, List.mem_singleton, List.mem_nil_iff, or_false] at h
  rcases h with h | h | h | h | h
  · apply ne_empty_of_length_pos
    simp only [createElementHTML, h, if_true, String.length_append]
    have : 0 < "<p>".length := by decide
    omega
  · apply ne_empty_of_length_pos
    have h1 : ¬ ("image" = "paragraph") := by decide
    simp only [createElementHTML, h, h1, if_true, if_false, String.length_append]
    have : 0 < "<img src=\"".length := by decide
    omega
  · apply ne_empty_of_length_pos
    have h1 : ¬ ("lyrics" = "paragraph") := by decide
    have h2 : ¬ ("lyrics" = "image") := by decide
    simp only [createElementHTML, h, h1, h2, if_true, if_false, String.length_append]
    have : 0 < "<div class=\"song-lyrics\"><center><i><pre>".length := by decide
    omega
  · apply ne_empty_of_length_pos
    have h1 : ¬ ("metadata" = "paragraph") := by decide
    have h2 : ¬ ("metadata" = "image") := by decide
    have h3 : ¬ ("metadata" = "lyrics") := by decide
    simp only [createElementHTML, h, h1, h2, h3, if_true, if_false, String.length_append]
    have : 0 < "<div class=\"post-date\"><span class=\"date\">".length := by decide
    omega
  · have h1 : ¬ ("rating" = "paragraph") := by decide
    have h2 : ¬ ("rating" = "image") := by decide
    have h3 : ¬ ("rating" = "lyrics") := by decide
    have h4 : ¬ ("rating" = "metadata") := by decide
    simp only [createElementHTML, h, h1, h2, h3, h4, if_true, if_false]
    exact createRatingHTML_ne_empty _ _

theorem contentStep_skip (env : Env) (mh : Int) (c : Chapter) (st : List Page × CurrentPage)
    (item : ContentItem) (h : createElementHTML env.userRatings item = "") :
    contentStep env mh c st item = st := by
  simp [contentStep, h]

theorem chapterStep_congr_content (env : Env) (mh : Int) (s : State) (c : Chapter)
    (a b : List ContentItem) (item : ContentItem)
    (hc : c.content = a ++ item :: b) (h : createElementHTML env.userRatings item = "") :
    chapterStep env mh s c = chapterStep env mh s { c with content := a ++ b } := by
  simp only [chapterStep, titleHTML, contentPage, hc, List.foldl_append, List.foldl_cons]
  rw [contentStep_skip env mh c _ item h]
  rfl

theorem contentStep_measure_congr (env : Env) (h : Int) (mh : Int) (c : Chapter) :
    contentStep { env with measureElement := fun m => if m = "" then h else env.measureElement m }
      mh c = contentStep env mh c := by
  funext st item
  by_cases he : createElementHTML env.userRatings item = ""
  · simp [contentStep, he]
  · simp [contentStep, he]

theorem chapterStep_measure_congr (env : Env) (h : Int) (mh : Int) :
    chapterStep { env with measureElement := fun m => if m = "" then h else env.measureElement m }
      mh = chapterStep env mh := by
  funext s c
  have ht : titleHTML c ≠ "" := by
    apply ne_empty_of_length_pos
    simp only [titleHTML, String.length_append]
    have : 0 < "<h2>".length := by decide
    omega
  simp only [chapterStep, contentStep_measure_congr, ht, if_false]

theorem onResize_after_pending (st : ResizeState) (id t t2 : Nat)
    (hlive : st.liveTimers = [(id, t + settleInterval)]) (htimer : st.resizeTimer = some id)
    (hre : st.reflows = []) (h2 : t2 < t + settleInterval) :
    (onResize (fireDue st t2) t2).liveTimers = [(st.nextTimerId, t2 + settleInterval)] ∧
    (onResize (fireDue st t2) t2).resizeTimer = some st.nextTimerId ∧
    (onResize (fireDue st t2) t2).reflows = [] := by
  have hnd : ¬ (t + settleInterval ≤ t2) := by omega
  simp [onResize, fireDue, clearTimeout, hlive, htimer, hre, h2, hnd]

theorem resizeBurst_pending (st : ResizeState) (id t : Nat) (times : List Nat) (last : Nat)
    (hlive : st.liveTimers = [(id, t + settleInterval)]) (htimer : st.resizeTimer = some id)
    (hre : st.reflows = [])
    (hchain : (t :: (times ++ [last])).Chain' (fun a b => a ≤ b ∧ b < a + settleInterval)) :
    ∃ id2, (resizeBurst st (times ++ [last])).liveTimers = [(id2, last + settleInterval)] ∧
      (resizeBurst st (times ++ [last])).resizeTimer = some id2 ∧
      (resizeBurst st (times ++ [last])).reflows = [] := by
  induction times generalizing st id t with
  | nil =>
    have h2 : last < t + settleInterval := by
      simp only [List.nil_append, List.chain'_cons, List.chain'_singleton, and_true] at hchain
      exact hchain.2
    exact ⟨st.nextTimerId, onResize_after_pending st id t last hlive htimer hre h2⟩
  | cons t2 rest ih =>
    simp only [List.cons_append, List.chain'_cons] at hchain
    obtain ⟨⟨_, h2⟩, hchain2⟩ := hchain
    obtain ⟨h3, h4, h5⟩ := onResize_after_pending st id t t2 hlive htimer hre h2
    exact ih (onResize (fireDue st t2) t2) st.nextTimerId t2 h3 h4 h5
      (by simpa [List.chain'_cons] using hchain2)

theorem resizeBurst_from_quiet (times : List Nat) (last : Nat)
    (hchain : (times ++ [last]).Chain' (fun a b => a ≤ b ∧ b < a + settleInterval)) :
    ∃ id, (resizeBurst quietResizeState (times ++ [last])).liveTimers
        = [(id, last + settleInterval)] ∧
      (resizeBurst quietResizeState (times ++ [last])).resizeTimer = some id ∧
      (resizeBurst quietResizeState (times ++ [last])).reflows = [] := by
  cases times with
  | nil => exact ⟨0, by simp [resizeBurst, onResize, fireDue, clearTimeout, quietResizeState]⟩
  | cons t rest =>
    have h0 : (onResize (fireDue quietResizeState t) t).liveTimers = [(0, t + settleInterval)] ∧
        (onResize (fireDue quietResizeState t) t).resizeTimer = some 0 ∧
        (onResize (fireDue quietResizeState t) t).reflows = [] := by
      simp [onResize, fireDue, clearTimeout, quietResizeState]
    exact resizeBurst_pending _ 0 t rest last h0.1 h0.2.1 h0.2.2 hchain

theorem chain_of_closelySpaced (times : List Nat) (h : closelySpaced times = true) :
    times.Chain' (fun a b => a ≤ b ∧ b < a + settleInterval) := by
  induction times with
  | nil => exact List.chain'_nil
  | cons a rest ih =>
    cases rest with
    | nil => exact List.chain'_singleton a
    | cons b rest2 =>
      simp only [closelySpaced, Bool.and_eq_true, decide_eq_true_eq] at h
      exact List.chain'_cons.mpr ⟨⟨h.1.1, h.1.2⟩, ih h.2⟩

theorem ratingsFromArray_foldl (records : List RatingRecord) (o : JsObj RatingEntry) (c : String)
    (hnd : (records.map RatingRecord.chapterId).Nodup) (e : RatingEntry) :
    JsObj.get (records.foldl storeArrayRecord o) c = some e ↔
      (∃ r ∈ records, r.chapterId = c ∧ r.chapterId ≠ "" ∧ r.rating > 0 ∧
        e = { rating := r.rating, timestamp := jsOr r.timestamp r.CREATEDTIME }) ∨
      ((∀ r ∈ records, r.chapterId = c → ¬ (r.chapterId ≠ "" ∧ r.rating > 0)) ∧
        JsObj.get o c = some e) := by
  induction records generalizing o with
  | nil => simp
  | cons r rest ih =>
    simp only [List.map_cons, List.nodup_cons] at hnd
    obtain ⟨hr, hrest⟩ := hnd
    simp only [List.foldl_cons, storeArrayRecord]
    rw [ih _ hrest]
    have hrest_ne : ∀ r2 ∈ rest, r2.chapterId ≠ r.chapterId :=
      fun r2 h2 heq => hr (heq ▸ List.mem_map_of_mem _ h2)
    by_cases hkey : r.chapterId = c
    · -- no record of the rest has this key
      have hnone : ∀ r2 ∈ rest, r2.chapterId ≠ c := fun r2 h2 => hkey ▸ hrest_ne r2 h2
      by_cases hkeep : r.chapterId ≠ "" ∧ r.rating > 0
      · have hk : (decide (r.chapterId ≠ "") && decide (r.rating > 0)) = true := by
          simp [hkeep.1, hkeep.2]
        rw [if_pos hk, hkey, JsObj.get_set_self]
        constructor
        · rintro (⟨r2, h2, h3, _⟩ | ⟨_, h4⟩)
          · exact absurd h3 (hnone r2 h2)
          · refine Or.inl ⟨r, List.mem_cons_self _ _, hkey, hkeep.1, hkeep.2, ?_⟩
            exact (Option.some.inj h4).symm
        · rintro (⟨r2, h2, h3, h4, h5, h6⟩ | ⟨h4, _⟩)
          · rcases List.mem_cons.mp h2 with h7 | h7
            · subst h7
              exact Or.inr ⟨fun r3 h8 h9 => absurd h9 (hnone r3 h8), by rw [h6]⟩
            · exact absurd h3 (hnone r2 h7)
          · exact absurd hkeep (h4 r (List.mem_cons_self _ _) hkey)
      · have hk : ¬ ((decide (r.chapterId ≠ "") && decide (r.rating > 0)) = true) := by
          simpa using hkeep
        rw [if_neg hk]
        constructor
        · rintro (⟨r2, h2, h3, _⟩ | ⟨_, h4⟩)
          · exact absurd h3 (hnone r2 h2)
          · refine Or.inr ⟨?_, h4⟩
            intro r3 h8 h9
            rcases List.mem_cons.mp h8 with h10 | h10
            · rw [h10]; exact hkeep
            · exact absurd h9 (hnone r3 h10)
        · rintro (⟨r2, h2, h3, h4, h5, h6⟩ | ⟨h4, h5⟩)
          · rcases List.mem_cons.mp h2 with h7 | h7
            · subst h7
              exact absurd ⟨h4, h5⟩ hkeep
            · exact absurd h3 (hnone r2 h7)
          · exact Or.inr ⟨fun r3 h8 h9 => absurd h9 (hnone r3 h8), h5⟩
    · have hget : JsObj.get (if decide (r.chapterId ≠ "") && decide (r.rating > 0) then
            JsObj.set o r.chapterId
              { rating := r.rating, timestamp := jsOr r.timestamp r.CREATEDTIME }
          else o) c = JsObj.get o c := by
        split
        · exact JsObj.get_set_other _ _ _ _ hkey
        · rfl
      rw [hget]
      constructor
      · rintro (⟨r2, h2, h3⟩ | ⟨h4, h5⟩)
        · exact Or.inl ⟨r2, List.mem_cons_of_mem _ h2, h3⟩
        · refine Or.inr ⟨?_, h5⟩
          intro r3 h8 h9
          rcases List.mem_cons.mp h8 with h10 | h10
          · rw [h10] at h9; exact absurd h9 hkey
          · exact h4 r3 h10 h9
      · rintro (⟨r2, h2, h3⟩ | ⟨h4, h5⟩)
        · rcases List.mem_cons.mp h2 with h7 | h7
          · rw [h7] at h3; exact absurd h3.1 hkey
          · exact Or.inl ⟨r2, h7, h3⟩
        · exact Or.inr ⟨fun r3 h8 h9 => h4 r3 (List.mem_cons_of_mem _ h8) h9, h5⟩

theorem ratingsFromArray_get (records : List RatingRecord) (c : String)
    (hnd : (records.map RatingRecord.chapterId).Nodup) (e : RatingEntry) :
    JsObj.get (ratingsFromArray records) c = some e ↔
      ∃ r ∈ records, r.chapterId = c ∧ r.chapterId ≠ "" ∧ r.rating > 0 ∧
        e = { rating := r.rating, timestamp := jsOr r.timestamp r.CREATEDTIME } := by
  rw [ratingsFromArray, ratingsFromArray_foldl records [] c hnd e]
  simp [JsObj.get]

theorem ratingsFromObject_foldl (records : JsObj RatingRecord) (keys : List String)
    (o : JsObj RatingEntry) (c : String) (e : RatingEntry) :
    JsObj.get (keys.foldl (storeObjectRecord records) o) c = some e ↔
      (c ∈ keys ∧ ∃ r, JsObj.get records c = some r ∧ r.rating > 0 ∧
        e = { rating := r.rating, timestamp := r.timestamp }) ∨
      (¬ (c ∈ keys ∧ ∃ r, JsObj.get records c = some r ∧ r.rating > 0) ∧
        JsObj.get o c = some e) := by
  induction keys generalizing o with
  | nil => simp
  | cons k rest ih =>
    simp only [List.foldl_cons]
    rw [ih]
    by_cases hk : k = c
    · subst hk
      by_cases hQ : ∃ r, JsObj.get records k = some r ∧ r.rating > 0
      · obtain ⟨r, hg, hpos⟩ := hQ
        have hstore : storeObjectRecord records o k
            = JsObj.set o k { rating := r.rating, timestamp := r.timestamp } := by
          simp [storeObjectRecord, hg, hpos]
        have hP : (∃ r2, JsObj.get records k = some r2 ∧ r2.rating > 0 ∧
            e = { rating := r2.rating, timestamp := r2.timestamp }) ↔
            e = { rating := r.rating, timestamp := r.timestamp } := by
          constructor
          · rintro ⟨r2, h1, _, h3⟩
            rw [hg] at h1
            cases h1
            exact h3
          · intro h
            exact ⟨r, hg, hpos, h⟩
        rw [hstore, JsObj.get_set_self, hP]
        constructor
        · rintro (⟨_, h⟩ | ⟨_, h⟩)
          · exact Or.inl ⟨List.mem_cons_self _ _, h⟩
          · exact Or.inl ⟨List.mem_cons_self _ _, (Option.some.inj h).symm⟩
        · rintro (⟨_, h⟩ | ⟨h, _⟩)
          · by_cases hm : k ∈ rest
            · exact Or.inl ⟨hm, h⟩
            · exact Or.inr ⟨fun h2 => hm h2.1, by rw [h]⟩
          · exact absurd ⟨List.mem_cons_self _ _, r, hg, hpos⟩ h
      · have hstore : storeObjectRecord records o k = o := by
          unfold storeObjectRecord
          split
          · next r hg =>
            split
            · next hpos => exact absurd ⟨r, hg, hpos⟩ hQ
            · rfl
          · rfl
        have hP : ¬ (∃ r2, JsObj.get records k = some r2 ∧ r2.rating > 0 ∧
            e = { rating := r2.rating, timestamp := r2.timestamp }) := by
          rintro ⟨r2, h1, h2, _⟩
          exact hQ ⟨r2, h1, h2⟩
        rw [hstore]
        simp only [hQ, hP, and_false, not_false_eq_true, true_and, false_or]
    · have hget : JsObj.get (storeObjectRecord records o k) c = JsObj.get o c := by
        unfold storeObjectRecord
        split
        · split
          · exact JsObj.get_set_other _ _ _ _ hk
          · rfl
        · rfl
      have hmem : c ∈ k :: rest ↔ c ∈ rest := by
        constructor
        · intro h
          rcases List.mem_cons.mp h with h1 | h1
          · exact absurd h1.symm hk
          · exact h1
        · exact List.mem_cons_of_mem _
      rw [hget, hmem]

theorem JsObj.get_mem {α : Type} (o : JsObj α) (k : String) (v : α)
    (h : JsObj.get o k = some v) : (k, v) ∈ o := by
  induction o with
  | nil => simp [JsObj.get] at h
  | cons e rest ih =>
    obtain ⟨k2, v2⟩ := e
    by_cases hk : k2 = k
    · simp only [JsObj.get, hk, if_true, Option.some.injEq] at h
      rw [hk, h]
      exact List.mem_cons_self _ _
    · simp only [JsObj.get, hk, if_false] at h
      exact List.mem_cons_of_mem _ (ih h)

theorem JsObj.get_of_mem {α : Type} (o : JsObj α) (k : String) (v : α)
    (hnd : (o.map (fun entry => entry.1)).Nodup) (h : (k, v) ∈ o) : JsObj.get o k = some v := by
  induction o with
  | nil => cases h
  | cons e rest ih =>
    obtain ⟨k2, v2⟩ := e
    simp only [List.map_cons, List.nodup_cons] at hnd
    rcases List.mem_cons.mp h with h1 | h1
    · cases h1
      simp [JsObj.get]
    · have hne : k2 ≠ k := by
        intro heq
        exact hnd.1 (heq ▸ List.mem_map_of_mem (fun entry : String × α => entry.1) h1)
      simp only [JsObj.get, hne, if_false]
      exact ih hnd.2 h1

theorem ratingsFromObject_get (records : JsObj RatingRecord) (c : String) (e : RatingEntry) :
    JsObj.get (ratingsFromObject records) c = some e ↔
      ∃ r, JsObj.get records c = some r ∧ r.rating > 0 ∧
        e = { rating := r.rating, timestamp := r.timestamp } := by
  rw [ratingsFromObject, ratingsFromObject_foldl]
  constructor
  · rintro (⟨_, h⟩ | ⟨_, h⟩)
    · exact h
    · simp [JsObj.get] at h
  · rintro ⟨r, h1, h2, h3⟩
    refine Or.inl ⟨?_, r, h1, h2, h3⟩
    exact List.mem_map_of_mem (fun entry : String × RatingRecord => entry.1)
      (JsObj.get_mem records c r h1)

theorem isChapterRated_iff (ur : JsObj RatingEntry) (c : String) :
    isChapterRated ur c = true ↔ ∃ e, JsObj.get ur c = some e ∧ e.rating > 0 := by
  unfold isChapterRated
  cases h : JsObj.get ur c with
  | none => simp
  | some e => simp

theorem keyed_get_iff (records : List RatingRecord) (keyed : JsObj RatingRecord)
    (hnd : (records.map RatingRecord.chapterId).Nodup)
    (hperm : keyed.Perm (records.map (fun r => (r.chapterId, r)))) (c : String)
    (r : RatingRecord) :
    JsObj.get keyed c = some r ↔ r ∈ records ∧ r.chapterId = c := by
  have hkeys : (keyed.map (fun entry => entry.1)).Nodup := by
    have hp := hperm.map (fun entry : String × RatingRecord => entry.1)
    rw [List.map_map] at hp
    exact hp.nodup_iff.mpr hnd
  constructor
  · intro h
    have hm := hperm.mem_iff.mp (JsObj.get_mem keyed c r h)
    obtain ⟨r2, hr2, heq⟩ := List.mem_map.mp hm
    cases heq
    exact ⟨hr2, rfl⟩
  · rintro ⟨hr, hc⟩
    apply JsObj.get_of_mem keyed c r hkeys
    apply hperm.mem_iff.mpr
    exact List.mem_map.mpr ⟨r, hr, by rw [hc]⟩

theorem String_join_ne_empty (g : List String) (hg : g ≠ []) (he : ∀ e ∈ g, e ≠ "") :
    String.join g ≠ "" := by
  cases g with
  | nil => exact absurd rfl hg
  | cons a l =>
    rw [String_join_cons]
    intro h
    have hlen : (a ++ String.join l).length = 0 := by rw [h]; rfl
    rw [String.length_append] at hlen
    have ha : a ≠ "" := he a (List.mem_cons_self _ _)
    apply ha
    apply String.ext
    have : a.length = 0 := by omega
    exact List.length_eq_zero.mp this

theorem chapterLayout_elements (env : Env) (mh : Int) (c : Chapter) :
    ∀ g ∈ chapterLayout env mh c, g ≠ [] ∧ ∀ e ∈ g, e ≠ "" := by
  intro g hg
  refine ⟨pack_ne_nil _ _ _ _ _ (by simp) g hg, ?_⟩
  intro e he
  have hmem : e ∈ (chapterLayout env mh c).flatten :=
    List.mem_flatten.mpr ⟨g, hg, he⟩
  rw [chapterLayout, pack_flatten] at hmem
  rcases List.mem_append.mp hmem with h1 | h1
  · rw [List.mem_singleton.mp h1]
    exact titleHTML_ne_empty c
  · exact renderedItems_ne_empty env c e h1

theorem allPositive_set (ur : JsObj RatingEntry) (k : String) (v : RatingEntry)
    (h : AllPositive ur) (hv : v.rating > 0) : AllPositive (JsObj.set ur k v) := by
  intro c e hget
  by_cases hk : k = c
  · subst hk
    rw [JsObj.get_set_self] at hget
    cases hget
    exact hv
  · rw [JsObj.get_set_other _ _ _ _ hk] at hget
    exact h c e hget

theorem allPositive_storeArrayRecord (ur : JsObj RatingEntry) (r : RatingRecord)
    (h : AllPositive ur) : AllPositive (storeArrayRecord ur r) := by
  unfold storeArrayRecord
  split
  · rename_i hc
    simp only [Bool.and_eq_true, decide_eq_true_eq] at hc
    exact allPositive_set _ _ _ h hc.2
  · exact h

theorem allPositive_storeObjectRecord (records : JsObj RatingRecord) (ur : JsObj RatingEntry)
    (k : String) (h : AllPositive ur) : AllPositive (storeObjectRecord records ur k) := by
  unfold storeObjectRecord
  split
  · split
    · rename_i hc
      exact allPositive_set _ _ _ h hc
    · exact h
  · exact h

theorem allPositive_loadUserRatings (outcome : Option UserRatingsResponse) :
    AllPositive (loadUserRatings outcome) := by
  have hnil : AllPositive [] := by
    intro c e h
    simp [JsObj.get] at h
  have harr : ∀ (records : List RatingRecord) (ur : JsObj RatingEntry), AllPositive ur →
      AllPositive (records.foldl storeArrayRecord ur) := by
    intro records
    induction records with
    | nil => intro ur h; exact h
    | cons r rest ih =>
      intro ur h
      exact ih _ (allPositive_storeArrayRecord ur r h)
  have hobj : ∀ (records : JsObj RatingRecord) (keys : List String) (ur : JsObj RatingEntry),
      AllPositive ur → AllPositive (keys.foldl (storeObjectRecord records) ur) := by
    intro records keys
    induction keys with
    | nil => intro ur h; exact h
    | cons k rest ih =>
      intro ur h
      exact ih _ (allPositive_storeObjectRecord records ur k h)
  unfold loadUserRatings
  cases outcome with
  | none => exact hnil
  | some data =>
    simp only
    split
    · cases hr : data.ratings with
      | array records => exact harr records [] hnil
      | object records => exact hobj records _ [] hnil
      | other => exact hnil
    · exact hnil

theorem loadUserRatings_entry_rated (outcome : Option UserRatingsResponse) (c : String)
    (e : RatingEntry) (h : JsObj.get (loadUserRatings outcome) c = some e) :
    isChapterRated (loadUserRatings outcome) c = true :=
  (isChapterRated_iff _ c).mpr ⟨e, h, allPositive_loadUserRatings outcome c e h⟩

/-- Once `isChapterRated` holds for a chapter in a consistent state, every
call of `rateChapter` for it after any further events changes only the
messages. -/
theorem rated_stays_rejected (s : RatingState) (after : List RatingEvent) (c : String)
    (r : Int) (hinv : RatingInv s) (hrated : isChapterRated s.userRatings c = true) :
    (rateChapter (ratingRun s after) c r).sent = (ratingRun s after).sent ∧
    (rateChapter (ratingRun s after) c r).pending = (ratingRun s after).pending ∧
    (rateChapter (ratingRun s after) c r).userRatings = (ratingRun s after).userRatings ∧
    (rateChapter (ratingRun s after) c r).ratingSubmissions
      = (ratingRun s after).ratingSubmissions := by
  have hrej := rejecting_run after s c hinv (Or.inr hrated)
  obtain ⟨m, hm⟩ := rateChapter_rejected (ratingRun s after) c r
    (by rcases hrej with h | h
        · exact Or.inl h
        · exact Or.inr (Or.inl h))
  rw [hm]
  exact ⟨rfl, rfl, rfl, rfl⟩

theorem settle_success_rated (s : RatingState) (request : AddRatingRequest)
    (data : AddRatingResponse) (now : String) (hs : data.success = true)
    (hr : request.rating > 0) :
    isChapterRated (settleAddRating s request (Outcome.responded data) now).userRatings
      request.chapterId = true := by
  simp [settleAddRating, showMessage, markChapterAsRated, hs, isChapterRated_set_self, hr]

theorem settle_alreadyRated_rated (s : RatingState) (request : AddRatingRequest)
    (data : AddRatingResponse) (now : String) (hs : data.success = false)
    (ha : data.alreadyRated = true)
    (hr : (match data.existingRating with
      | some e => if e = 0 then request.rating else e
      | none => request.rating) > 0) :
    isChapterRated (settleAddRating s request (Outcome.responded data) now).userRatings
      request.chapterId = true := by
  cases he : data.existingRating with
  | none =>
    rw [he] at hr
    simp only at hr
    simp [settleAddRating, showMessage, markChapterAsRated, hs, ha, he,
      isChapterRated_set_self, hr]
  | some e =>
    rw [he] at hr
    simp only at hr
    by_cases h0 : e = 0
    · simp only [h0, if_true] at hr
      simp [settleAddRating, showMessage, markChapterAsRated, hs, ha, he, h0,
        isChapterRated_set_self, hr]
    · simp only [h0, if_false] at hr
      simp [settleAddRating, showMessage, markChapterAsRated, hs, ha, he, h0,
        isChapterRated_set_self, hr]


/-! ## The claims -/

/-- C1: for chapters with pairwise distinct ids, the pages of the output from
position `chapterStartPages[chapter.id]` up to the start of the next chapter
(up to the back cover, the last position, for the last chapter) are content
pages of that chapter whose markup is the concatenation of the elements put
on them; no page is without elements, no element is empty markup, and the
elements of these pages read in order are exactly the title followed by the
non-empty markup of the chapter's items in original order: every item lies
whole on one page, none is duplicated, dropped, reordered or split.  So the
markup of these pages, concatenated, is the title followed by the items.
This holds for every measurement function, in particular for one returning
non-negative heights. -/
theorem paginateContent_chapter_pages_in_order (env : Env) (book : BookContent) (s : State)
    (pre post : List Chapter) (c : Chapter) (hsplit : book.chapters = pre ++ c :: post)
    (hid : (book.chapters.map Chapter.id).Nodup) :
    ∃ (start stop : Nat) (groups : List (List String)),
      JsObj.get (paginateContent env (some book) s).chapterStartPages c.id = some start ∧
      (match post with
        | [] => some ((paginateContent env (some book) s).generatedPages.length - 1)
        | next :: _ => JsObj.get (paginateContent env (some book) s).chapterStartPages next.id)
        = some stop ∧
      start ≤ stop ∧
      ((paginateContent env (some book) s).generatedPages.drop start).take (stop - start)
        = groups.map (fun g =>
            ({ type := "content", html := String.join g, chapterId := some c.chapterId } : Page)) ∧
      groups.flatten = titleHTML c :: renderedItems env c ∧
      (∀ g ∈ groups, g ≠ [] ∧ ∀ e ∈ g, e ≠ "") ∧
      String.join ((((paginateContent env (some book) s).generatedPages.drop start).take
          (stop - start)).map Page.html)
        = String.join (titleHTML c :: renderedItems env c) := by
  refine ⟨3 + (pre.flatMap (chapterPages env (getPageMaxHeight env))).length,
    3 + (pre.flatMap (chapterPages env (getPageMaxHeight env))).length
      + (chapterPages env (getPageMaxHeight env) c).length,
    chapterLayout env (getPageMaxHeight env) c,
    paginateContent_start env book s pre post c hsplit hid, ?_, Nat.le_add_right _ _,
    ?_, ?_, ?_, ?_⟩
  · cases post with
    | nil =>
      simp only [paginateContent_split env book s pre [] c hsplit]
      simp [leadingPages]
      omega
    | cons next rest =>
      have hsplit2 : book.chapters = (pre ++ [c]) ++ next :: rest := by simp [hsplit]
      simp only [paginateContent_start env book s (pre ++ [c]) rest next hsplit2 hid]
      simp
      omega
  · rw [paginateContent_split env book s pre post c hsplit,
      List.drop_left' (by rw [List.length_append]; rfl), Nat.add_sub_cancel_left,
      List.take_left' rfl, chapterPages_eq]
    rfl
  · simp [chapterLayout, pack_flatten]
  · exact chapterLayout_elements env _ c
  · rw [paginateContent_split env book s pre post c hsplit,
      List.drop_left' (by rw [List.length_append]; rfl), Nat.add_sub_cancel_left,
      List.take_left' rfl, chapterPages_eq, List.map_map]
    have hflat : (chapterLayout env (getPageMaxHeight env) c).flatten
        = titleHTML c :: renderedItems env c := by simp [chapterLayout, pack_flatten]
    rw [← hflat]
    exact String_join_flatten _

/-- Witness of C1 on the two-chapter sample book, for its first chapter. -/
theorem paginateContent_chapter_pages_in_order_witness :
    sampleBook.chapters = [] ++ sampleChapter1 :: [sampleChapter2] ∧
    (sampleBook.chapters.map Chapter.id).Nodup ∧
    ∃ (start stop : Nat) (groups : List (List String)),
      JsObj.get (paginateContent sampleEnv (some sampleBook) emptyState).chapterStartPages
        sampleChapter1.id = some start ∧
      JsObj.get (paginateContent sampleEnv (some sampleBook) emptyState).chapterStartPages
        sampleChapter2.id = some stop ∧
      start ≤ stop ∧
      ((paginateContent sampleEnv (some sampleBook) emptyState).generatedPages.drop start).take
        (stop - start)
        = groups.map (fun g =>
            ({ type := "content", html := String.join g,
               chapterId := some sampleChapter1.chapterId } : Page)) ∧
      groups.flatten = titleHTML sampleChapter1 :: renderedItems sampleEnv sampleChapter1 ∧
      (∀ g ∈ groups, g ≠ [] ∧ ∀ e ∈ g, e ≠ "") ∧
      String.join ((((paginateContent sampleEnv (some sampleBook) emptyState).generatedPages.drop
          start).take (stop - start)).map Page.html)
        = String.join (titleHTML sampleChapter1 :: renderedItems sampleEnv sampleChapter1) :=
  ⟨rfl, by decide,
    paginateContent_chapter_pages_in_order sampleEnv sampleBook emptyState [] [sampleChapter2]
      sampleChapter1 rfl (by decide)⟩

/-- C2, counterexample to the claim as stated: in the sample book the first
chapter has `id` "chapter-1" and `chapterId` "101"; no content page has a
`chapterId` field equal to the chapter's `id`, so the pages the claim selects
are none and their concatenation is empty, although the chapter holds a
paragraph that the output does contain. -/
theorem contentPagesWithChapterId_id_counterexample :
    contentPagesWithChapterId
      (paginateContent sampleEnv (some sampleBook) emptyState).generatedPages
      sampleChapter1.id = [] ∧
    sampleChapter1.content.map (createElementHTML sampleEnv.userRatings) = ["<p>x</p>", ""] := by
  decide

/-- C2, amended: when the `chapterId` values of the chapters are pairwise
distinct, the content pages whose `chapterId` field equals `C.chapterId`, in
page order, are the pages of `C`; their element lists read in order are the
title followed by the non-empty markup of `C.content` in original order, and
the concatenation of their markup is the title markup followed by the markup
of every item of `C.content` in original order. -/
theorem contentPagesWithChapterId_chapterId_coverage (env : Env) (book : BookContent) (s : State)
    (pre post : List Chapter) (c : Chapter) (hsplit : book.chapters = pre ++ c :: post)
    (hcid : (book.chapters.map Chapter.chapterId).Nodup) :
    ∃ groups : List (List String),
      contentPagesWithChapterId (paginateContent env (some book) s).generatedPages c.chapterId
        = groups.map (contentPage c) ∧
      groups.flatten = titleHTML c :: renderedItems env c ∧
      String.join ((contentPagesWithChapterId
          (paginateContent env (some book) s).generatedPages c.chapterId).map Page.html)
        = titleHTML c ++ String.join (c.content.map (createElementHTML env.userRatings)) := by
  have hnd := hcid
  rw [hsplit, List.map_append, List.map_cons, List.nodup_append] at hnd
  obtain ⟨_, hnd2, hdisj⟩ := hnd
  have hpre : ∀ c' ∈ pre, c'.chapterId ≠ c.chapterId := by
    intro c' hc' heq
    exact hdisj (List.mem_map_of_mem _ hc') (heq ▸ List.mem_cons_self _ _)
  have hpost : ∀ c' ∈ post, c'.chapterId ≠ c.chapterId := by
    intro c' hc' heq
    exact (List.nodup_cons.mp hnd2).1 (heq ▸ List.mem_map_of_mem _ hc')
  have hsel : contentPagesWithChapterId (paginateContent env (some book) s).generatedPages
      c.chapterId = (chapterLayout env (getPageMaxHeight env) c).map (contentPage c) := by
    rw [paginateContent_split env book s pre post c hsplit]
    simp only [contentPagesWithChapterId_append, contentPagesWithChapterId_chapterPages_self,
      contentPagesWithChapterId_flatMap_other _ _ _ _ hpre,
      contentPagesWithChapterId_flatMap_other _ _ _ _ hpost,
      (contentPagesWithChapterId_fixed c.chapterId).1,
      (contentPagesWithChapterId_fixed c.chapterId).2, List.nil_append, List.append_nil]
    exact chapterPages_eq _ _ _
  have hflat : (chapterLayout env (getPageMaxHeight env) c).flatten
      = titleHTML c :: renderedItems env c := by
    simp [chapterLayout, pack_flatten]
  refine ⟨chapterLayout env (getPageMaxHeight env) c, hsel, hflat, ?_⟩
  rw [hsel, List.map_map]
  have hhtml : (Page.html ∘ contentPage c) = String.join := rfl
  rw [hhtml, String_join_flatten, hflat, String_join_cons, renderedItems, String_join_filter]

/-- Witness of the amended C2 on the sample book, for its second chapter. -/
theorem contentPagesWithChapterId_chapterId_coverage_witness :
    sampleBook.chapters = [sampleChapter1] ++ sampleChapter2 :: [] ∧
    (sampleBook.chapters.map Chapter.chapterId).Nodup ∧
    ∃ groups : List (List String),
      contentPagesWithChapterId
          (paginateContent sampleEnv (some sampleBook) emptyState).generatedPages
          sampleChapter2.chapterId = groups.map (contentPage sampleChapter2) ∧
      groups.flatten = titleHTML sampleChapter2 :: renderedItems sampleEnv sampleChapter2 ∧
      String.join ((contentPagesWithChapterId
          (paginateContent sampleEnv (some sampleBook) emptyState).generatedPages
          sampleChapter2.chapterId).map Page.html)
        = titleHTML sampleChapter2
          ++ String.join (sampleChapter2.content.map (createElementHTML sampleEnv.userRatings)) :=
  ⟨rfl, by decide,
    contentPagesWithChapterId_chapterId_coverage sampleEnv sampleBook emptyState
      [sampleChapter1] [] sampleChapter2 rfl (by decide)⟩

/-- C3, counterexample to the claim as stated: with a page height of 40 (a
budget of 30) and a title 50 pixels tall, the only content page of a chapter
without content holds the title alone, so it holds no item at all, and its
height is over the budget: neither alternative of the claim holds. -/
theorem title_only_page_over_budget_counterexample :
    (paginateContent smallEnv (some titleOnlyBook) emptyState).generatedPages
      = leadingPages ++ [contentPage titleOnlyChapter [titleHTML titleOnlyChapter]]
          ++ [backCoverPage] ∧
    renderedItems smallEnv titleOnlyChapter = [] ∧
    ¬ (smallEnv.measureElement (titleHTML titleOnlyChapter) ≤ getPageMaxHeight smallEnv - 10) := by
  decide

/-- C3, amended: the content pages of the output are the pages of the
chapter layouts, and on every one of them either the heights of all its
elements (the title included when it is on the page) sum to at most
`maxPageHeight - 10`, or the page holds exactly one element, an item or the
title, whose height alone exceeds `maxPageHeight - 10`.  No assumption on the
sign of the heights is needed. -/
theorem paginateContent_budget (env : Env) (book : BookContent) (s : State) :
    (paginateContent env (some book) s).generatedPages
      = leadingPages
        ++ book.chapters.flatMap
            (fun c => (chapterLayout env (getPageMaxHeight env) c).map (contentPage c))
        ++ [backCoverPage] ∧
    ∀ c ∈ book.chapters, ∀ g ∈ chapterLayout env (getPageMaxHeight env) c,
      totalHeight env.measureElement g ≤ getPageMaxHeight env - 10 ∨
      ∃ e, g = [e] ∧ env.measureElement e > getPageMaxHeight env - 10 := by
  constructor
  · rw [paginateContent_pages]
    congr 2
    exact List.flatMap_congr (fun c _ => chapterPages_eq _ _ c) |>.trans rfl
  · intro c _ g hg
    exact pack_budget env.measureElement _ (renderedItems env c) [titleHTML c] _
      (by simp [totalHeight]) (Or.inl rfl) g hg

/-- C4: for chapters with pairwise distinct ids, whenever the chapter at
position `i` comes no later in the chapter list than the chapter at position
`j`, its start page is at most the start page of the other, and it is at
least 3. -/
theorem chapterStartPages_monotone (env : Env) (book : BookContent) (s : State)
    (hid : (book.chapters.map Chapter.id).Nodup) (i j : Nat) (a b : Chapter)
    (hi : book.chapters[i]? = some a) (hj : book.chapters[j]? = some b) (hij : i ≤ j) :
    ∃ sa sb : Nat,
      JsObj.get (paginateContent env (some book) s).chapterStartPages a.id = some sa ∧
      JsObj.get (paginateContent env (some book) s).chapterStartPages b.id = some sb ∧
      3 ≤ sa ∧ sa ≤ sb :=
  ⟨_, _,
    paginateContent_start env book s _ _ a (chapters_split_of_getElem? _ i a hi) hid,
    paginateContent_start env book s _ _ b (chapters_split_of_getElem? _ j b hj) hid,
    Nat.le_add_right _ _,
    Nat.add_le_add_left (flatMap_take_length_le env _ _ i j hij) 3⟩

/-- Witness of C4 on the two chapters of the sample book. -/
theorem chapterStartPages_monotone_witness :
    (sampleBook.chapters.map Chapter.id).Nodup ∧
    sampleBook.chapters[0]? = some sampleChapter1 ∧
    sampleBook.chapters[1]? = some sampleChapter2 ∧ 0 ≤ 1 ∧
    ∃ sa sb : Nat,
      JsObj.get (paginateContent sampleEnv (some sampleBook) emptyState).chapterStartPages
        sampleChapter1.id = some sa ∧
      JsObj.get (paginateContent sampleEnv (some sampleBook) emptyState).chapterStartPages
        sampleChapter2.id = some sb ∧
      3 ≤ sa ∧ sa ≤ sb :=
  ⟨by decide, rfl, rfl, by decide,
    chapterStartPages_monotone sampleEnv sampleBook emptyState (by decide) 0 1
      sampleChapter1 sampleChapter2 rfl rfl (by decide)⟩

/-- C5: for chapters with pairwise distinct ids, `chapterStartPages[c.id]`
is the length of the page list after the chapters before `c` have been
processed, and the page at that 0-based position of the output is a content
page carrying the `chapterId` of `c` whose markup begins with the title
markup of `c`, whatever the height of the title. -/
theorem chapterStartPages_is_page_count_before (env : Env) (book : BookContent) (s : State)
    (pre post : List Chapter) (c : Chapter) (hsplit : book.chapters = pre ++ c :: post)
    (hid : (book.chapters.map Chapter.id).Nodup) :
    ∃ (start : Nat) (p : Page) (rest : String),
      JsObj.get (paginateContent env (some book) s).chapterStartPages c.id = some start ∧
      start = (pre.foldl (chapterStep env (getPageMaxHeight env))
        { generatedPages := leadingPages, chapterStartPages := [] }).generatedPages.length ∧
      (paginateContent env (some book) s).generatedPages[start]? = some p ∧
      p.type = "content" ∧ p.chapterId = some c.chapterId ∧
      p.html = titleHTML c ++ rest := by
  obtain ⟨tail, more, hpk⟩ := pack_head env.measureElement (getPageMaxHeight env)
    (renderedItems env c) [titleHTML c] (env.measureElement (titleHTML c)) (by simp)
  refine ⟨3 + (pre.flatMap (chapterPages env (getPageMaxHeight env))).length,
    contentPage c ([titleHTML c] ++ tail), String.join tail,
    paginateContent_start env book s pre post c hsplit hid, ?_, ?_, rfl, rfl, ?_⟩
  · rw [foldl_chapterStep_pages, List.length_append]
    rfl
  · rw [paginateContent_split env book s pre post c hsplit,
      List.getElem?_append_right (by rw [List.length_append]; exact Nat.le_of_eq rfl)]
    have hlen : (leadingPages ++ pre.flatMap (chapterPages env (getPageMaxHeight env))).length
        = 3 + (pre.flatMap (chapterPages env (getPageMaxHeight env))).length := by
      rw [List.length_append]; rfl
    rw [hlen, Nat.sub_self, chapterPages_eq, chapterLayout, hpk]
    simp
  · show String.join (titleHTML c :: tail) = _
    exact String_join_cons _ _

/-- Witness of C5 on the sample book, for its second chapter. -/
theorem chapterStartPages_is_page_count_before_witness :
    sampleBook.chapters = [sampleChapter1] ++ sampleChapter2 :: [] ∧
    (sampleBook.chapters.map Chapter.id).Nodup ∧
    ∃ (start : Nat) (p : Page) (rest : String),
      JsObj.get (paginateContent sampleEnv (some sampleBook) emptyState).chapterStartPages
        sampleChapter2.id = some start ∧
      start = ([sampleChapter1].foldl (chapterStep sampleEnv (getPageMaxHeight sampleEnv))
        { generatedPages := leadingPages, chapterStartPages := [] }).generatedPages.length ∧
      (paginateContent sampleEnv (some sampleBook) emptyState).generatedPages[start]? = some p ∧
      p.type = "content" ∧ p.chapterId = some sampleChapter2.chapterId ∧
      p.html = titleHTML sampleChapter2 ++ rest :=
  ⟨rfl, by decide,
    chapterStartPages_is_page_count_before sampleEnv sampleBook emptyState
      [sampleChapter1] [] sampleChapter2 rfl (by decide)⟩

/-- C6, counterexample to the claim as stated: for a book with one chapter
the recorded start is 3, but the page with 1-based index 3 is the inner cover
and the first page of the chapter has 1-based index 4. -/
theorem chapterStartPages_one_based_counterexample :
    JsObj.get (paginateContent smallEnv (some titleOnlyBook) emptyState).chapterStartPages
      titleOnlyChapter.id = some 3 ∧
    (paginateContent smallEnv (some titleOnlyBook) emptyState).generatedPages[3 - 1]?
      = some coverBackPage ∧
    (paginateContent smallEnv (some titleOnlyBook) emptyState).generatedPages[4 - 1]?
      = some (contentPage titleOnlyChapter [titleHTML titleOnlyChapter]) := by
  decide

/-- C6, amended: for chapters with pairwise distinct ids,
`chapterStartPages[c.id]` is the 0-based index of the first page of `c`: the
pages before that position are exactly the three leading pages and the pages
of the earlier chapters, and the pages from that position on begin with the
pages of `c`, of which there is at least one.  The 1-based index of that page
is therefore the recorded value plus one. -/
theorem chapterStartPages_zero_based (env : Env) (book : BookContent) (s : State)
    (pre post : List Chapter) (c : Chapter) (hsplit : book.chapters = pre ++ c :: post)
    (hid : (book.chapters.map Chapter.id).Nodup) :
    ∃ start : Nat,
      JsObj.get (paginateContent env (some book) s).chapterStartPages c.id = some start ∧
      (paginateContent env (some book) s).generatedPages.take start
        = leadingPages ++ pre.flatMap (chapterPages env (getPageMaxHeight env)) ∧
      (paginateContent env (some book) s).generatedPages.drop start
        = chapterPages env (getPageMaxHeight env) c
          ++ (post.flatMap (chapterPages env (getPageMaxHeight env)) ++ [backCoverPage]) ∧
      chapterPages env (getPageMaxHeight env) c ≠ [] := by
  have hlen : (leadingPages ++ pre.flatMap (chapterPages env (getPageMaxHeight env))).length
      = 3 + (pre.flatMap (chapterPages env (getPageMaxHeight env))).length := by
    rw [List.length_append]; rfl
  refine ⟨3 + (pre.flatMap (chapterPages env (getPageMaxHeight env))).length,
    paginateContent_start env book s pre post c hsplit hid, ?_, ?_, chapterPages_ne_nil _ _ _⟩
  · rw [paginateContent_split env book s pre post c hsplit, List.take_left' hlen]
  · rw [paginateContent_split env book s pre post c hsplit, List.drop_left' hlen]

/-- Witness of the amended C6 on the sample book, for its second chapter. -/
theorem chapterStartPages_zero_based_witness :
    sampleBook.chapters = [sampleChapter1] ++ sampleChapter2 :: [] ∧
    (sampleBook.chapters.map Chapter.id).Nodup ∧
    ∃ start : Nat,
      JsObj.get (paginateContent sampleEnv (some sampleBook) emptyState).chapterStartPages
        sampleChapter2.id = some start ∧
      (paginateContent sampleEnv (some sampleBook) emptyState).generatedPages.take start
        = leadingPages ++ [sampleChapter1].flatMap
            (chapterPages sampleEnv (getPageMaxHeight sampleEnv)) ∧
      (paginateContent sampleEnv (some sampleBook) emptyState).generatedPages.drop start
        = chapterPages sampleEnv (getPageMaxHeight sampleEnv) sampleChapter2
          ++ (([] : List Chapter).flatMap (chapterPages sampleEnv (getPageMaxHeight sampleEnv))
            ++ [backCoverPage]) ∧
      chapterPages sampleEnv (getPageMaxHeight sampleEnv) sampleChapter2 ≠ [] :=
  ⟨rfl, by decide,
    chapterStartPages_zero_based sampleEnv sampleBook emptyState
      [sampleChapter1] [] sampleChapter2 rfl (by decide)⟩

/-- C7: the output is the pages blank, cover, cover-back, then the pages
emitted for the chapters in order, then one back-cover page; every page
emitted for a chapter has type content and carries the `chapterId` of that
chapter, and the four fixed pages carry no `chapterId`. -/
theorem paginateContent_page_types (env : Env) (book : BookContent) (s : State) :
    (paginateContent env (some book) s).generatedPages
      = [blankPage, coverPage, coverBackPage]
        ++ book.chapters.flatMap (chapterPages env (getPageMaxHeight env))
        ++ [backCoverPage] ∧
    (blankPage.type = "blank" ∧ coverPage.type = "cover" ∧ coverBackPage.type = "cover-back" ∧
      backCoverPage.type = "back-cover") ∧
    (blankPage.chapterId = none ∧ coverPage.chapterId = none ∧ coverBackPage.chapterId = none ∧
      backCoverPage.chapterId = none) ∧
    ∀ c : Chapter, ∀ p ∈ chapterPages env (getPageMaxHeight env) c,
      p.type = "content" ∧ p.chapterId = some c.chapterId := by
  refine ⟨paginateContent_pages env book s, ⟨rfl, rfl, rfl, rfl⟩, ⟨rfl, rfl, rfl, rfl⟩, ?_⟩
  intro c p hp
  rw [chapterPages_eq] at hp
  obtain ⟨g, _, rfl⟩ := List.mem_map.mp hp
  exact ⟨rfl, rfl⟩

/-- C8, counterexample to the claim as stated: in a book whose two chapters
share one `id`, the first chapter fits on one page (its heights sum to
exactly the budget), but the second chapter overwrites the start entry, so
the start read for the first chapter and the start read for the next are
both 4, not one page apart. -/
theorem repeated_id_next_start_counterexample :
    twinBook.chapters = [] ++ sampleChapter1 :: [twinChapter] ∧
    (∀ m, 0 ≤ exactEnv.measureElement m) ∧
    exactEnv.measureElement (titleHTML sampleChapter1)
      + totalHeight exactEnv.measureElement (renderedItems exactEnv sampleChapter1)
      ≤ getPageMaxHeight exactEnv - 10 ∧
    JsObj.get (paginateContent exactEnv (some twinBook) emptyState).chapterStartPages
      sampleChapter1.id = some 4 ∧
    JsObj.get (paginateContent exactEnv (some twinBook) emptyState).chapterStartPages
      twinChapter.id = some 4 :=
  ⟨rfl, exactEnv_nonneg, by decide, by decide, by decide⟩

/-- C8, amended: with non-negative heights, a chapter whose title height
plus the heights of its rendered items is at most `maxPageHeight - 10`
(equality included) gets exactly one content page, whose markup is the title
followed by all its items; and when the chapter ids are pairwise distinct
and a chapter follows, that chapter starts one page later. -/
theorem fitting_chapter_on_one_page (env : Env) (book : BookContent) (s : State)
    (pre post : List Chapter) (c : Chapter) (hsplit : book.chapters = pre ++ c :: post)
    (hnn : ∀ m, 0 ≤ env.measureElement m)
    (hfit : env.measureElement (titleHTML c)
      + totalHeight env.measureElement (renderedItems env c) ≤ getPageMaxHeight env - 10) :
    (paginateContent env (some book) s).generatedPages
      = (leadingPages ++ pre.flatMap (chapterPages env (getPageMaxHeight env)))
        ++ ([({ type := "content", html := String.join (titleHTML c :: renderedItems env c),
                chapterId := some c.chapterId } : Page)]
        ++ (post.flatMap (chapterPages env (getPageMaxHeight env)) ++ [backCoverPage])) ∧
    ((book.chapters.map Chapter.id).Nodup →
      ∀ next rest, post = next :: rest →
        ∃ start : Nat,
          JsObj.get (paginateContent env (some book) s).chapterStartPages c.id = some start ∧
          JsObj.get (paginateContent env (some book) s).chapterStartPages next.id
            = some (start + 1)) := by
  have hone : chapterPages env (getPageMaxHeight env) c
      = [contentPage c (titleHTML c :: renderedItems env c)] := by
    rw [chapterPages_eq, chapterLayout,
      pack_fits env.measureElement _ hnn (renderedItems env c) [titleHTML c] _ (by simp) hfit]
    rfl
  constructor
  · rw [paginateContent_split env book s pre post c hsplit, hone]
    rfl
  · intro hid next rest hpost
    subst hpost
    have hsplit2 : book.chapters = (pre ++ [c]) ++ next :: rest := by simp [hsplit]
    refine ⟨_, paginateContent_start env book s pre _ c hsplit hid, ?_⟩
    rw [paginateContent_start env book s (pre ++ [c]) rest next hsplit2 hid,
      List.flatMap_append, List.length_append]
    simp [hone, Nat.add_assoc]

/-- Witness of the amended C8 where the title (12) and the paragraph (8) sum
to exactly the budget `30 - 10`. -/
theorem fitting_chapter_on_one_page_witness :
    sampleBook.chapters = [] ++ sampleChapter1 :: [sampleChapter2] ∧
    (sampleBook.chapters.map Chapter.id).Nodup ∧
    (∀ m, 0 ≤ exactEnv.measureElement m) ∧
    exactEnv.measureElement (titleHTML sampleChapter1)
      + totalHeight exactEnv.measureElement (renderedItems exactEnv sampleChapter1)
      = getPageMaxHeight exactEnv - 10 ∧
    (paginateContent exactEnv (some sampleBook) emptyState).generatedPages
      = (leadingPages ++ ([] : List Chapter).flatMap
            (chapterPages exactEnv (getPageMaxHeight exactEnv)))
        ++ ([({ type := "content",
                html := String.join
                  (titleHTML sampleChapter1 :: renderedItems exactEnv sampleChapter1),
                chapterId := some sampleChapter1.chapterId } : Page)]
        ++ ([sampleChapter2].flatMap (chapterPages exactEnv (getPageMaxHeight exactEnv))
            ++ [backCoverPage])) ∧
    ∃ start : Nat,
      JsObj.get (paginateContent exactEnv (some sampleBook) emptyState).chapterStartPages
        sampleChapter1.id = some start ∧
      JsObj.get (paginateContent exactEnv (some sampleBook) emptyState).chapterStartPages
        sampleChapter2.id = some (start + 1) :=
  ⟨rfl, by decide, exactEnv_nonneg, by decide,
    (fitting_chapter_on_one_page exactEnv sampleBook emptyState [] [sampleChapter2]
      sampleChapter1 rfl exactEnv_nonneg (by decide)).1,
    (fitting_chapter_on_one_page exactEnv sampleBook emptyState [] [sampleChapter2]
      sampleChapter1 rfl exactEnv_nonneg (by decide)).2 (by decide) sampleChapter2 [] rfl⟩

/-- C9: with non-negative heights, an item whose height alone exceeds
`maxPageHeight` is on a content page whose markup is that item's markup and
nothing else; the pages of the chapter before it hold the title and the
earlier items, the pages after it hold the later items, so nothing is
dropped.  `paginateContent` is a total function: it always returns. -/
theorem oversize_item_alone_on_page (env : Env) (book : BookContent) (s : State)
    (pre post : List Chapter) (c : Chapter) (hsplit : book.chapters = pre ++ c :: post)
    (hnn : ∀ m, 0 ≤ env.measureElement m)
    (before after : List String) (m : String)
    (hitems : renderedItems env c = before ++ m :: after)
    (hbig : env.measureElement m > getPageMaxHeight env) :
    ∃ A B : List (List String),
      (paginateContent env (some book) s).generatedPages
        = (leadingPages ++ pre.flatMap (chapterPages env (getPageMaxHeight env)))
          ++ ((A.map (contentPage c) ++ [contentPage c [m]] ++ B.map (contentPage c))
          ++ (post.flatMap (chapterPages env (getPageMaxHeight env)) ++ [backCoverPage])) ∧
      A.flatten = titleHTML c :: before ∧ B.flatten = after ∧
      (contentPage c [m]).html = m := by
  obtain ⟨A, B, hpk, hA, hB⟩ := pack_oversize env.measureElement (getPageMaxHeight env) hnn
    before m after hbig [titleHTML c] (env.measureElement (titleHTML c)) (hnn _)
  refine ⟨A, B, ?_, hA, hB, ?_⟩
  · rw [paginateContent_split env book s pre post c hsplit, chapterPages_eq, chapterLayout,
      hitems, hpk]
    simp
  · show String.join [m] = m
    rw [String_join_cons]
    exact String.ext (by simp [String.data_join])

/-- Witness of C9: the paragraph "big" is 500 pixels tall on a page of
110. -/
theorem oversize_item_alone_on_page_witness :
    tallBook.chapters = [] ++ tallChapter :: [] ∧
    (∀ m, 0 ≤ tallEnv.measureElement m) ∧
    renderedItems tallEnv tallChapter = ["<p>a</p>"] ++ "<p>big</p>" :: ["<p>b</p>"] ∧
    tallEnv.measureElement "<p>big</p>" > getPageMaxHeight tallEnv ∧
    ∃ A B : List (List String),
      (paginateContent tallEnv (some tallBook) emptyState).generatedPages
        = (leadingPages ++ ([] : List Chapter).flatMap
              (chapterPages tallEnv (getPageMaxHeight tallEnv)))
          ++ ((A.map (contentPage tallChapter) ++ [contentPage tallChapter ["<p>big</p>"]]
              ++ B.map (contentPage tallChapter))
          ++ (([] : List Chapter).flatMap (chapterPages tallEnv (getPageMaxHeight tallEnv))
              ++ [backCoverPage])) ∧
      A.flatten = titleHTML tallChapter :: ["<p>a</p>"] ∧ B.flatten = ["<p>b</p>"] ∧
      (contentPage tallChapter ["<p>big</p>"]).html = "<p>big</p>" :=
  ⟨rfl, tallEnv_nonneg, by decide, by decide,
    oversize_item_alone_on_page tallEnv tallBook emptyState [] [] tallChapter rfl
      tallEnv_nonneg ["<p>a</p>"] ["<p>b</p>"] "<p>big</p>" (by decide) (by decide)⟩

/-- C10: a chapter all of whose items have an unrecognized type (or with
no item) gets exactly one content page, whose markup is the title markup
alone. -/
theorem chapter_without_renderable_items (env : Env) (book : BookContent) (s : State)
    (pre post : List Chapter) (c : Chapter) (hsplit : book.chapters = pre ++ c :: post)
    (hnone : ∀ item ∈ c.content,
      item.type ∉ ["paragraph", "image", "lyrics", "metadata", "rating"]) :
    (paginateContent env (some book) s).generatedPages
      = (leadingPages ++ pre.flatMap (chapterPages env (getPageMaxHeight env)))
        ++ ([{ type := "content", html := titleHTML c, chapterId := some c.chapterId }]
        ++ (post.flatMap (chapterPages env (getPageMaxHeight env)) ++ [backCoverPage])) := by
  have hone : chapterPages env (getPageMaxHeight env) c
      = [{ type := "content", html := titleHTML c, chapterId := some c.chapterId }] := by
    rw [chapterPages_eq, chapterLayout, renderedItems_eq_nil env c hnone]
    simp only [pack, List.length_singleton, Nat.lt_one_iff, if_true, List.map_cons, List.map_nil,
      contentPage]
    congr 2
  rw [paginateContent_split env book s pre post c hsplit, hone]

/-- Witness of C10 on a chapter whose only item is a footnote, a type the
renderer does not know. -/
theorem chapter_without_renderable_items_witness :
    footnoteBook.chapters = [sampleChapter2] ++ footnoteChapter :: [] ∧
    (∀ item ∈ footnoteChapter.content,
      item.type ∉ ["paragraph", "image", "lyrics", "metadata", "rating"]) ∧
    (paginateContent sampleEnv (some footnoteBook) emptyState).generatedPages
      = (leadingPages ++ [sampleChapter2].flatMap
            (chapterPages sampleEnv (getPageMaxHeight sampleEnv)))
        ++ ([{ type := "content", html := titleHTML footnoteChapter,
               chapterId := some footnoteChapter.chapterId }]
        ++ (([] : List Chapter).flatMap (chapterPages sampleEnv (getPageMaxHeight sampleEnv))
            ++ [backCoverPage])) :=
  ⟨rfl, by decide,
    chapter_without_renderable_items sampleEnv footnoteBook emptyState [sampleChapter2] []
      footnoteChapter rfl (by decide)⟩

/-- C11, counterexample to the claim as stated: a book whose only chapter
has 99996 oversize paragraphs has 100001 pages and its chapter starts at 3,
so raw page 99999 exists and the chapter's start is below both checked
pages; yet no chapter is resolved for it, because the range of the last
chapter stops at 99999. -/
theorem currentChapterFor_page_99999_counterexample :
    (paginateContent smallEnv (some (longBook 99996)) emptyState).generatedPages.length = 100001 ∧
    startOf (paginateContent smallEnv (some (longBook 99996)) emptyState).chapterStartPages
      (manyParagraphs 99996) = 3 ∧
    currentChapterFor (longBook 99996).chapters
      (paginateContent smallEnv (some (longBook 99996)) emptyState).chapterStartPages 99999
      = none := by
  rw [(longBook_pages 99996 emptyState).2]
  exact ⟨(longBook_pages 99996 emptyState).1, by decide, by decide⟩

/-- C11, amended: for chapters with pairwise distinct ids, every chapter has
a start page in the map left by `paginateContent`, and for every raw page `p`
with `p + 1 < 99999` the chapter resolved by `updateCommentsForCurrentPage`
(the final value of `currentChapter`) is `c` exactly when `c` is a chapter
whose start is at most `p` or at most `p + 1` and no chapter with such a
start has a higher start: at a boundary inside the spread the later chapter
is chosen. -/
theorem currentChapterFor_highest_start (env : Env) (book : BookContent) (s : State)
    (hid : (book.chapters.map Chapter.id).Nodup) (p : Nat) (hp : p + 1 < 99999) (c : Chapter) :
    (∀ b ∈ book.chapters,
      JsObj.get (paginateContent env (some book) s).chapterStartPages b.id
        = some (startOf (paginateContent env (some book) s).chapterStartPages b)) ∧
    (currentChapterFor book.chapters (paginateContent env (some book) s).chapterStartPages p
        = some c ↔
      c ∈ book.chapters ∧
      (startOf (paginateContent env (some book) s).chapterStartPages c ≤ p ∨
        startOf (paginateContent env (some book) s).chapterStartPages c ≤ p + 1) ∧
      ∀ b ∈ book.chapters,
        (startOf (paginateContent env (some book) s).chapterStartPages b ≤ p ∨
          startOf (paginateContent env (some book) s).chapterStartPages b ≤ p + 1) →
        startOf (paginateContent env (some book) s).chapterStartPages b
          ≤ startOf (paginateContent env (some book) s).chapterStartPages c) := by
  obtain ⟨hdef, hsorted⟩ := paginateContent_starts_sorted env book s hid
  refine ⟨hdef, ?_⟩
  rw [currentChapterFor_highest _ p hp book.chapters hdef hsorted c]
  constructor
  · rintro ⟨h1, h2, h3⟩
    exact ⟨h1, Or.inr h2, fun b hb hbq => h3 b hb (by omega)⟩
  · rintro ⟨h1, h2, h3⟩
    exact ⟨h1, by omega, fun b hb hbq => h3 b hb (Or.inr hbq)⟩

/-- Witness of the amended C11: on the sample book, page 3 is followed by
page 4, where the second chapter starts, and the second chapter is
resolved. -/
theorem currentChapterFor_highest_start_witness :
    (sampleBook.chapters.map Chapter.id).Nodup ∧ 3 + 1 < 99999 ∧
    currentChapterFor sampleBook.chapters
        (paginateContent sampleEnv (some sampleBook) emptyState).chapterStartPages 3
      = some sampleChapter2 ∧
    ((∀ b ∈ sampleBook.chapters,
      JsObj.get (paginateContent sampleEnv (some sampleBook) emptyState).chapterStartPages b.id
        = some (startOf (paginateContent sampleEnv (some sampleBook) emptyState).chapterStartPages
            b)) ∧
    (currentChapterFor sampleBook.chapters
        (paginateContent sampleEnv (some sampleBook) emptyState).chapterStartPages 3
        = some sampleChapter2 ↔
      sampleChapter2 ∈ sampleBook.chapters ∧
      (startOf (paginateContent sampleEnv (some sampleBook) emptyState).chapterStartPages
          sampleChapter2 ≤ 3 ∨
        startOf (paginateContent sampleEnv (some sampleBook) emptyState).chapterStartPages
          sampleChapter2 ≤ 3 + 1) ∧
      ∀ b ∈ sampleBook.chapters,
        (startOf (paginateContent sampleEnv (some sampleBook) emptyState).chapterStartPages b ≤ 3 ∨
          startOf (paginateContent sampleEnv (some sampleBook) emptyState).chapterStartPages b
            ≤ 3 + 1) →
        startOf (paginateContent sampleEnv (some sampleBook) emptyState).chapterStartPages b
          ≤ startOf (paginateContent sampleEnv (some sampleBook) emptyState).chapterStartPages
              sampleChapter2)) :=
  ⟨by decide, by decide, by decide,
    currentChapterFor_highest_start sampleEnv sampleBook emptyState (by decide) 3 (by decide)
      sampleChapter2⟩

/-- C12, counterexample to the claim as stated: in the sample book the last
chapter starts at 4, page 99999 is not below it, and no chapter is
resolved. -/
theorem last_chapter_unbounded_counterexample :
    sampleBook.chapters = [sampleChapter1] ++ [sampleChapter2] ∧
    startOf (paginateContent sampleEnv (some sampleBook) emptyState).chapterStartPages
      sampleChapter2 ≤ 99999 ∧
    currentChapterFor sampleBook.chapters
      (paginateContent sampleEnv (some sampleBook) emptyState).chapterStartPages 99999 = none := by
  decide

/-- C12, amended: for chapters with pairwise distinct ids and the map left
by `paginateContent`, the range of the last chapter ends at the fixed bound
99999: a raw page `p` at or after the last chapter's start resolves to the
last chapter when `p < 99999`, and to no chapter when `p` is 99999 or
more. -/
theorem last_chapter_range_ends_at_99999 (env : Env) (book : BookContent) (s : State)
    (hid : (book.chapters.map Chapter.id).Nodup) (pre : List Chapter) (last : Chapter)
    (hsplit : book.chapters = pre ++ [last]) (p : Nat)
    (hge : startOf (paginateContent env (some book) s).chapterStartPages last ≤ p) :
    (p < 99999 →
      currentChapterFor book.chapters (paginateContent env (some book) s).chapterStartPages p
        = some last) ∧
    (99999 ≤ p →
      currentChapterFor book.chapters (paginateContent env (some book) s).chapterStartPages p
        = none) := by
  obtain ⟨hdef, hsorted⟩ := paginateContent_starts_sorted env book s hid
  have hlast : last ∈ book.chapters := by rw [hsplit]; simp
  have hmax : ∀ b ∈ book.chapters,
      startOf (paginateContent env (some book) s).chapterStartPages b
        ≤ startOf (paginateContent env (some book) s).chapterStartPages last := by
    intro b hb
    rw [hsplit] at hb hsorted
    rcases List.mem_append.mp hb with h1 | h1
    · exact Nat.le_of_lt ((List.pairwise_append.mp hsorted).2.2 b h1 last (by simp))
    · rw [List.mem_singleton.mp h1]
  rw [currentChapterFor_eq]
  constructor
  · intro hlt
    rw [scanChapters_of_highest _ p hlt book.chapters none last hdef hsorted hlast hge
      (fun b hb _ => hmax b hb)]
    by_cases hp1 : p + 1 < 99999
    · rw [scanChapters_of_highest _ (p + 1) hp1 book.chapters _ last hdef hsorted hlast
        (by omega) (fun b hb _ => hmax b hb)]
      exact keepLater_some _ book.chapters hdef hsorted last last hlast hlast (Nat.le_refl _)
    · exact scanChapters_of_no_range _ _ _ _
        (no_range_of_all_earlier _ _ _ hdef
          (fun b hb => by have := hmax b hb; omega) (by omega))
  · intro hbig
    rw [scanChapters_of_no_range _ p _ _
      (no_range_of_all_earlier _ _ _ hdef (fun b hb => by have := hmax b hb; omega) hbig)]
    exact scanChapters_of_no_range _ _ _ _
      (no_range_of_all_earlier _ _ _ hdef
        (fun b hb => by have := hmax b hb; omega) (by omega))

/-- Witness of the amended C12 on the sample book at page 99998. -/
theorem last_chapter_range_ends_at_99999_witness :
    (sampleBook.chapters.map Chapter.id).Nodup ∧
    sampleBook.chapters = [sampleChapter1] ++ [sampleChapter2] ∧
    startOf (paginateContent sampleEnv (some sampleBook) emptyState).chapterStartPages
      sampleChapter2 ≤ 99998 ∧
    (99998 < 99999 →
      currentChapterFor sampleBook.chapters
        (paginateContent sampleEnv (some sampleBook) emptyState).chapterStartPages 99998
        = some sampleChapter2) ∧
    (99999 ≤ 99998 →
      currentChapterFor sampleBook.chapters
        (paginateContent sampleEnv (some sampleBook) emptyState).chapterStartPages 99998
        = none) :=
  ⟨by decide, rfl, by decide,
    last_chapter_range_ends_at_99999 sampleEnv sampleBook emptyState (by decide)
      [sampleChapter1] sampleChapter2 rfl 99998 (by decide)⟩

/-- C13: when no chapter's range contains `p` or `p + 1`, no chapter is
resolved and `updateCommentsForCurrentPage` returns the discussion manager
unchanged: the current chapter id and title are what they were and no call
of `loadResponsesForChapter` was added.  The function is total, it always
returns. -/
theorem updateCommentsForCurrentPage_no_chapter (book : BookContent) (s : State)
    (dm : DiscussionManager) (p : Nat)
    (h1 : anyChapterRangeContains s.chapterStartPages p book.chapters = false)
    (h2 : anyChapterRangeContains s.chapterStartPages (p + 1) book.chapters = false) :
    currentChapterFor book.chapters s.chapterStartPages p = none ∧
    updateCommentsForCurrentPage book s dm p = dm := by
  have hnone : currentChapterFor book.chapters s.chapterStartPages p = none := by
    rw [currentChapterFor_eq, scanChapters_of_no_range _ p _ _ h1]
    exact scanChapters_of_no_range _ _ _ _ h2
  exact ⟨hnone, by simp [updateCommentsForCurrentPage, hnone]⟩

/-- Witness of C13 on the sample book at page 1: pages 1 and 2 are below the
first chapter's start. -/
theorem updateCommentsForCurrentPage_no_chapter_witness :
    anyChapterRangeContains
      (paginateContent sampleEnv (some sampleBook) emptyState).chapterStartPages 1
      sampleBook.chapters = false ∧
    anyChapterRangeContains
      (paginateContent sampleEnv (some sampleBook) emptyState).chapterStartPages (1 + 1)
      sampleBook.chapters = false ∧
    currentChapterFor sampleBook.chapters
      (paginateContent sampleEnv (some sampleBook) emptyState).chapterStartPages 1 = none ∧
    updateCommentsForCurrentPage sampleBook
      (paginateContent sampleEnv (some sampleBook) emptyState) newDiscussionManager 1
      = newDiscussionManager :=
  ⟨by decide, by decide,
    updateCommentsForCurrentPage_no_chapter sampleBook
      (paginateContent sampleEnv (some sampleBook) emptyState) newDiscussionManager 1
      (by decide) (by decide)⟩

/-- C14: for a chapter whose `chapterId` is the empty string, two calls in a
row for the same page call `loadResponsesForChapter` twice, although the
second call resolves the chapter the manager was just notified of: the guard
tests the manager's chapter id for truthiness, where its comment speaks of
a null or undefined id. -/
theorem updateCommentsForCurrentPage_reloads_twice :
    (updateCommentsForCurrentPage unnamedBook
      (paginateContent sampleEnv (some unnamedBook) emptyState)
      (updateCommentsForCurrentPage unnamedBook
        (paginateContent sampleEnv (some unnamedBook) emptyState) newDiscussionManager 3)
      3).loadCalls = [("", "Prologue"), ("", "Prologue")] := by
  decide

/-- Companion to C14: when no chapter has an empty `chapterId`, a second
call of `updateCommentsForCurrentPage` for the same page changes nothing, so
the two calls together call `loadResponsesForChapter` at most once; and the
first call either changes nothing or resolves a chapter whose `chapterId` is
not the manager's current chapter id (in particular when that id is null)
and loads that chapter. -/
theorem updateCommentsForCurrentPage_idempotent (book : BookContent) (s : State)
    (dm : DiscussionManager) (p : Nat)
    (hne : ∀ c ∈ book.chapters, c.chapterId ≠ "") :
    updateCommentsForCurrentPage book s (updateCommentsForCurrentPage book s dm p) p
      = updateCommentsForCurrentPage book s dm p ∧
    (updateCommentsForCurrentPage book s dm p = dm ∨
      ∃ c, currentChapterFor book.chapters s.chapterStartPages p = some c ∧
        dm.currentChapterId ≠ some c.chapterId ∧
        updateCommentsForCurrentPage book s dm p
          = loadResponsesForChapter dm c.chapterId c.title) := by
  cases hres : currentChapterFor book.chapters s.chapterStartPages p with
  | none => simp [updateCommentsForCurrentPage, hres]
  | some c =>
    have hc : c.chapterId ≠ "" := hne c (currentChapterFor_mem _ _ _ _ hres)
    by_cases hsame : dm.currentChapterId = some c.chapterId
    · have hnot : jsNot dm.currentChapterId = false := by simp [hsame, jsNot, hc]
      simp [updateCommentsForCurrentPage, hres, hsame, jsNot, hc]
    · have hload : updateCommentsForCurrentPage book s dm p
          = loadResponsesForChapter dm c.chapterId c.title := by
        have hsame2 : ¬ (some c.chapterId = dm.currentChapterId) := fun h => hsame h.symm
        simp [updateCommentsForCurrentPage, hres, hsame2]
      refine ⟨?_, Or.inr ⟨c, rfl, hsame, hload⟩⟩
      rw [hload]
      simp [updateCommentsForCurrentPage, hres, loadResponsesForChapter, jsNot, hc]

/-- The companion to C14 on the sample book at page 3, starting from a
fresh discussion manager. -/
theorem updateCommentsForCurrentPage_idempotent_witness :
    (∀ c ∈ sampleBook.chapters, c.chapterId ≠ "") ∧
    updateCommentsForCurrentPage sampleBook
        (paginateContent sampleEnv (some sampleBook) emptyState)
        (updateCommentsForCurrentPage sampleBook
          (paginateContent sampleEnv (some sampleBook) emptyState) newDiscussionManager 3) 3
      = updateCommentsForCurrentPage sampleBook
          (paginateContent sampleEnv (some sampleBook) emptyState) newDiscussionManager 3 ∧
    (updateCommentsForCurrentPage sampleBook
        (paginateContent sampleEnv (some sampleBook) emptyState) newDiscussionManager 3
        = newDiscussionManager ∨
      ∃ c, currentChapterFor sampleBook.chapters
          (paginateContent sampleEnv (some sampleBook) emptyState).chapterStartPages 3 = some c ∧
        newDiscussionManager.currentChapterId ≠ some c.chapterId ∧
        updateCommentsForCurrentPage sampleBook
            (paginateContent sampleEnv (some sampleBook) emptyState) newDiscussionManager 3
          = loadResponsesForChapter newDiscussionManager c.chapterId c.title) :=
  ⟨by decide,
    updateCommentsForCurrentPage_idempotent sampleBook
      (paginateContent sampleEnv (some sampleBook) emptyState) newDiscussionManager 3
      (by decide)⟩

/-- C15: for a logged-in user, a chapter that is not rated, whose widget
exists and for which nothing is in flight, the first call of `rateChapter`
issues one `/addRating` request; whatever happens before that request
settles (other calls, other requests settling, a logout), a second call for
the same chapter issues no request, so exactly one request for the chapter
was added, and the second call leaves the outstanding requests, the
in-flight set and the user's ratings as they were. -/
theorem second_rateChapter_rejected (s : RatingState) (c : String) (r1 r2 : Int)
    (events : List RatingEvent)
    (hlogin : s.isAuthenticated = true) (hunrated : isChapterRated s.userRatings c = false)
    (hwidget : c ∈ s.widgets) (hfree : c ∉ s.ratingSubmissions)
    (hunsettled : ∀ request outcome now,
      RatingEvent.settle request outcome now ∈ events → request.chapterId ≠ c) :
    (rateChapter s c r1).sent = s.sent ++ [{ chapterId := c, rating := r1 }] ∧
    requestsFor c (rateChapter (ratingRun (rateChapter s c r1) events) c r2).sent
      = requestsFor c s.sent ++ [{ chapterId := c, rating := r1 }] ∧
    (rateChapter (ratingRun (rateChapter s c r1) events) c r2).sent
      = (ratingRun (rateChapter s c r1) events).sent ∧
    (rateChapter (ratingRun (rateChapter s c r1) events) c r2).pending
      = (ratingRun (rateChapter s c r1) events).pending ∧
    (rateChapter (ratingRun (rateChapter s c r1) events) c r2).ratingSubmissions
      = (ratingRun (rateChapter s c r1) events).ratingSubmissions ∧
    (rateChapter (ratingRun (rateChapter s c r1) events) c r2).userRatings
      = (ratingRun (rateChapter s c r1) events).userRatings := by
  have hacc := rateChapter_accepted s c r1 hlogin hunrated hfree hwidget
  have hin : c ∈ (rateChapter s c r1).ratingSubmissions := by rw [hacc]; simp
  obtain ⟨h1, h2⟩ := inflight_run events (rateChapter s c r1) c hin hunsettled
  obtain ⟨m, hm⟩ := rateChapter_rejected (ratingRun (rateChapter s c r1) events) c r2
    (Or.inr (Or.inr (Or.inl h1)))
  refine ⟨by rw [hacc], ?_, by rw [hm], by rw [hm], by rw [hm], by rw [hm]⟩
  rw [hm]
  show requestsFor c (ratingRun (rateChapter s c r1) events).sent = _
  rw [h2, hacc]
  simp [requestsFor]

/-- Witness of C15: two calls in a row for chapter "ch3". -/
theorem second_rateChapter_rejected_witness :
    readerState.isAuthenticated = true ∧ isChapterRated readerState.userRatings "ch3" = false ∧
    "ch3" ∈ readerState.widgets ∧ "ch3" ∉ readerState.ratingSubmissions ∧
    (rateChapter readerState "ch3" 5).sent
      = readerState.sent ++ [{ chapterId := "ch3", rating := 5 }] ∧
    requestsFor "ch3" (rateChapter (ratingRun (rateChapter readerState "ch3" 5) []) "ch3" 4).sent
      = requestsFor "ch3" readerState.sent ++ [{ chapterId := "ch3", rating := 5 }] ∧
    (rateChapter (ratingRun (rateChapter readerState "ch3" 5) []) "ch3" 4).sent
      = (ratingRun (rateChapter readerState "ch3" 5) []).sent ∧
    (rateChapter (ratingRun (rateChapter readerState "ch3" 5) []) "ch3" 4).pending
      = (ratingRun (rateChapter readerState "ch3" 5) []).pending ∧
    (rateChapter (ratingRun (rateChapter readerState "ch3" 5) []) "ch3" 4).ratingSubmissions
      = (ratingRun (rateChapter readerState "ch3" 5) []).ratingSubmissions ∧
    (rateChapter (ratingRun (rateChapter readerState "ch3" 5) []) "ch3" 4).userRatings
      = (ratingRun (rateChapter readerState "ch3" 5) []).userRatings :=
  ⟨rfl, by decide, by decide, by decide,
    second_rateChapter_rejected readerState "ch3" 5 4 [] rfl (by decide) (by decide) (by decide)
      (fun _ _ _ h => absurd h (List.not_mem_nil _))⟩

/-- C16: in every state reached from the initialized page by calls of
`rateChapter`, settling requests and logouts, the in-flight set holds exactly
the chapter ids of the outstanding requests; hence it is empty whenever no
request is outstanding, a chapter is locked only while a request for it is
outstanding, and when that request settles, with any outcome, the chapter is
no longer in the set. -/
theorem ratingSubmissions_released (isAuthenticated : Bool) (userRatings : JsObj RatingEntry)
    (widgets : List String) (events : List RatingEvent) :
    (∀ c, c ∈ (ratingRun (freshRatingState isAuthenticated userRatings widgets)
          events).ratingSubmissions ↔
        ∃ request ∈ (ratingRun (freshRatingState isAuthenticated userRatings widgets)
          events).pending, request.chapterId = c) ∧
    ((ratingRun (freshRatingState isAuthenticated userRatings widgets) events).pending = [] →
      (ratingRun (freshRatingState isAuthenticated userRatings widgets)
        events).ratingSubmissions = []) ∧
    (∀ request ∈ (ratingRun (freshRatingState isAuthenticated userRatings widgets)
          events).pending,
      ∀ outcome now, request.chapterId ∉
        (settleAddRating (ratingRun (freshRatingState isAuthenticated userRatings widgets) events)
          request outcome now).ratingSubmissions) := by
  have hinv := ratingInv_run _ events (ratingInv_fresh isAuthenticated userRatings widgets)
  refine ⟨hinv.1, ?_, ?_⟩
  · intro hp
    apply List.eq_nil_iff_forall_not_mem.mpr
    intro c hc
    obtain ⟨q, hq, _⟩ := (hinv.1 c).mp hc
    rw [hp] at hq
    cases hq
  · intro request _ outcome now
    rw [(settleAddRating_fields _ request outcome now).2.2.2.1]
    simp [setDelete]

/-- C17, counterexample to the claim as stated: for an already-rated answer
with `existingRating` 0 to a submission of 5 stars, the value recorded and
reported is 5, not 0. -/
theorem alreadyRated_zero_existingRating_counterexample :
    getUserRating
      (settleAddRating (rateChapter readerState "ch3" 5) { chapterId := "ch3", rating := 5 }
        (Outcome.responded { success := false, alreadyRated := true, existingRating := some 0 })
        "2025-11-01T10:00:00.000Z").userRatings "ch3" = some 5 ∧
    (settleAddRating (rateChapter readerState "ch3" 5) { chapterId := "ch3", rating := 5 }
        (Outcome.responded { success := false, alreadyRated := true, existingRating := some 0 })
        "2025-11-01T10:00:00.000Z").messages
      = [("You already rated this chapter 5 stars!", "error")] := by
  decide

/-- C17, amended: for an already-rated answer with `existingRating` `e > 0`
the chapter is marked as rated with `e`, `getUserRating` returns `e` and the
message shown is "You already rated this chapter e stars!"; when
`existingRating` is absent the value recorded is the submitted rating. -/
theorem alreadyRated_reconciles (s : RatingState) (request : AddRatingRequest) (now : String)
    (e : Int) (he : e > 0) :
    isChapterRated
      (settleAddRating s request
        (Outcome.responded { success := false, alreadyRated := true, existingRating := some e })
        now).userRatings request.chapterId = true ∧
    getUserRating
      (settleAddRating s request
        (Outcome.responded { success := false, alreadyRated := true, existingRating := some e })
        now).userRatings request.chapterId = some e ∧
    (settleAddRating s request
        (Outcome.responded { success := false, alreadyRated := true, existingRating := some e })
        now).messages
      = s.messages ++ [("You already rated this chapter " ++ toString e ++ " stars!", "error")] ∧
    JsObj.get
      (settleAddRating s request
        (Outcome.responded { success := false, alreadyRated := true, existingRating := none })
        now).userRatings request.chapterId
      = some { rating := request.rating, timestamp := some now } := by
  have hne : e ≠ 0 := by omega
  refine ⟨?_, ?_, ?_, ?_⟩
  · simp [settleAddRating, showMessage, markChapterAsRated, hne, isChapterRated_set_self, he]
  · simp only [settleAddRating, showMessage, markChapterAsRated, hne, if_false]
    exact getUserRating_set_self _ _ _ he
  · simp [settleAddRating, showMessage, hne]
  · simp [settleAddRating, showMessage, markChapterAsRated, JsObj.get_set_self]

/-- Witness of the amended C17: chapter "ch3", submitted 5, existing 4. -/
theorem alreadyRated_reconciles_witness :
    (4 : Int) > 0 ∧
    isChapterRated
      (settleAddRating (rateChapter readerState "ch3" 5) { chapterId := "ch3", rating := 5 }
        (Outcome.responded { success := false, alreadyRated := true, existingRating := some 4 })
        "2025-11-01T10:00:00.000Z").userRatings "ch3" = true ∧
    getUserRating
      (settleAddRating (rateChapter readerState "ch3" 5) { chapterId := "ch3", rating := 5 }
        (Outcome.responded { success := false, alreadyRated := true, existingRating := some 4 })
        "2025-11-01T10:00:00.000Z").userRatings "ch3" = some 4 ∧
    (settleAddRating (rateChapter readerState "ch3" 5) { chapterId := "ch3", rating := 5 }
        (Outcome.responded { success := false, alreadyRated := true, existingRating := some 4 })
        "2025-11-01T10:00:00.000Z").messages
      = (rateChapter readerState "ch3" 5).messages
        ++ [("You already rated this chapter " ++ toString (4 : Int) ++ " stars!", "error")] ∧
    JsObj.get
      (settleAddRating (rateChapter readerState "ch3" 5) { chapterId := "ch3", rating := 5 }
        (Outcome.responded { success := false, alreadyRated := true, existingRating := none })
        "2025-11-01T10:00:00.000Z").userRatings "ch3"
      = some { rating := 5, timestamp := some "2025-11-01T10:00:00.000Z" } :=
  ⟨by decide,
    alreadyRated_reconciles (rateChapter readerState "ch3" 5) { chapterId := "ch3", rating := 5 }
      "2025-11-01T10:00:00.000Z" 4 (by decide)⟩

/-- C18, counterexample to the claim as stated: a success answer to a
submission of 0 stars marks chapter "ch3" with the rating 0; the next call
of `rateChapter` for "ch3" is not rejected but issues a second request and
puts the chapter in the in-flight set again. -/
theorem zero_star_marking_not_rejected_counterexample :
    (ratingRun readerState
      [RatingEvent.rate "ch3" 0,
        RatingEvent.settle { chapterId := "ch3", rating := 0 }
          (Outcome.responded { success := true }) "2025-11-01T10:00:00.000Z"]).userRatings
      = [("ch3", { rating := 0, timestamp := some "2025-11-01T10:00:00.000Z" })] ∧
    (ratingRun readerState
      [RatingEvent.rate "ch3" 0,
        RatingEvent.settle { chapterId := "ch3", rating := 0 }
          (Outcome.responded { success := true }) "2025-11-01T10:00:00.000Z"]).sent
      = [{ chapterId := "ch3", rating := 0 }] ∧
    (rateChapter (ratingRun readerState
      [RatingEvent.rate "ch3" 0,
        RatingEvent.settle { chapterId := "ch3", rating := 0 }
          (Outcome.responded { success := true }) "2025-11-01T10:00:00.000Z"]) "ch3" 5).sent
      = [{ chapterId := "ch3", rating := 0 }, { chapterId := "ch3", rating := 5 }] ∧
    (rateChapter (ratingRun readerState
      [RatingEvent.rate "ch3" 0,
        RatingEvent.settle { chapterId := "ch3", rating := 0 }
          (Outcome.responded { success := true }) "2025-11-01T10:00:00.000Z"]) "ch3"
        5).ratingSubmissions = ["ch3"] := by
  decide

/-- C18, amended: on a page initialized with the ratings stored by
`loadUserRatings`, a chapter that has an entry among those ratings, and a
chapter marked by the answer to one of its outstanding requests (a success
answer to a submitted rating above 0, or an already-rated answer whose
stored rating, the existing rating or else the submitted one, is above 0),
stays rejected: after any further calls, settlings and logouts, a call of
`rateChapter` for that chapter with any rating issues no request and leaves
the outstanding requests, the user's ratings and the in-flight set as they
were. -/
theorem rated_chapter_rejected (isAuthenticated : Bool) (outcome : Option UserRatingsResponse)
    (widgets : List String) (after : List RatingEvent) (r : Int) :
    (∀ (c : String) (e : RatingEntry) (sf : RatingState),
      JsObj.get (loadUserRatings outcome) c = some e →
      sf = ratingRun (freshRatingState isAuthenticated (loadUserRatings outcome) widgets)
        after →
      (rateChapter sf c r).sent = sf.sent ∧ (rateChapter sf c r).pending = sf.pending ∧
        (rateChapter sf c r).userRatings = sf.userRatings ∧
        (rateChapter sf c r).ratingSubmissions = sf.ratingSubmissions) ∧
    (∀ (before : List RatingEvent) (request : AddRatingRequest) (data : AddRatingResponse)
        (now : String) (sf : RatingState),
      request ∈ (ratingRun
        (freshRatingState isAuthenticated (loadUserRatings outcome) widgets) before).pending →
      ((data.success = true ∧ request.rating > 0) ∨
        (data.success = false ∧ data.alreadyRated = true ∧
          (match data.existingRating with
            | some e => if e = 0 then request.rating else e
            | none => request.rating) > 0)) →
      sf = ratingRun (freshRatingState isAuthenticated (loadUserRatings outcome) widgets)
        (before ++ RatingEvent.settle request (Outcome.responded data) now :: after) →
      (rateChapter sf request.chapterId r).sent = sf.sent ∧
        (rateChapter sf request.chapterId r).pending = sf.pending ∧
        (rateChapter sf request.chapterId r).userRatings = sf.userRatings ∧
        (rateChapter sf request.chapterId r).ratingSubmissions = sf.ratingSubmissions) := by
  constructor
  · intro c e sf hget hsf
    subst hsf
    exact rated_stays_rejected _ after c r (ratingInv_fresh _ _ _)
      (loadUserRatings_entry_rated outcome c e hget)
  · intro before request data now sf hpending hmark hsf
    subst hsf
    rw [ratingRun_append]
    have hinv0 := ratingInv_run _ before
      (ratingInv_fresh isAuthenticated (loadUserRatings outcome) widgets)
    generalize ratingRun (freshRatingState isAuthenticated (loadUserRatings outcome) widgets)
      before = s0 at hpending hinv0 ⊢
    have hstep : ratingRun s0 (RatingEvent.settle request (Outcome.responded data) now :: after)
        = ratingRun (settleAddRating s0 request (Outcome.responded data) now) after := by
      simp only [ratingRun, List.foldl_cons, ratingStep, if_pos hpending]
    rw [hstep]
    have hinv1 : RatingInv (settleAddRating s0 request (Outcome.responded data) now) := by
      have := ratingInv_run s0 [RatingEvent.settle request (Outcome.responded data) now] hinv0
      simpa only [ratingRun, List.foldl_cons, List.foldl_nil, ratingStep, if_pos hpending]
        using this
    refine rated_stays_rejected _ after request.chapterId r hinv1 ?_
    rcases hmark with ⟨hs, hr⟩ | ⟨hs, ha, hr⟩
    · exact settle_success_rated _ request data now hs hr
    · exact settle_alreadyRated_rated _ request data now hs ha hr

/-- Witness of the amended C18: the reader's stored ratings hold five stars
for "ch1"; "ch3" is rated by a success answer and a call for "ch1" follows;
new calls for "ch1" and for "ch3" are both rejected. -/
theorem rated_chapter_rejected_witness :
    JsObj.get (loadUserRatings (arrayAnswer sampleRecords)) "ch1"
      = some { rating := 5, timestamp := some "2025-11-01" } ∧
    ((rateChapter ratedLater "ch1" 1).sent = ratedLater.sent ∧
      (rateChapter ratedLater "ch1" 1).pending = ratedLater.pending ∧
      (rateChapter ratedLater "ch1" 1).userRatings = ratedLater.userRatings ∧
      (rateChapter ratedLater "ch1" 1).ratingSubmissions = ratedLater.ratingSubmissions) ∧
    ({ chapterId := "ch3", rating := 5 } : AddRatingRequest) ∈ (ratingRun
      (freshRatingState true (loadUserRatings (arrayAnswer sampleRecords)) ["ch1", "ch3"])
      [RatingEvent.rate "ch3" 5]).pending ∧
    ((rateChapter ratedLater "ch3" 1).sent = ratedLater.sent ∧
      (rateChapter ratedLater "ch3" 1).pending = ratedLater.pending ∧
      (rateChapter ratedLater "ch3" 1).userRatings = ratedLater.userRatings ∧
      (rateChapter ratedLater "ch3" 1).ratingSubmissions = ratedLater.ratingSubmissions) :=
  ⟨by decide,
    (rated_chapter_rejected true (arrayAnswer sampleRecords) ["ch1", "ch3"] fiveStarEvents 1).1
      "ch1" { rating := 5, timestamp := some "2025-11-01" } ratedLater (by decide) rfl,
    by decide,
    (rated_chapter_rejected true (arrayAnswer sampleRecords) ["ch1", "ch3"]
      [RatingEvent.rate "ch1" 2] 1).2
      [RatingEvent.rate "ch3" 5] { chapterId := "ch3", rating := 5 } { success := true }
      "2025-11-01T10:00:00.000Z" ratedLater (by decide) (Or.inl ⟨rfl, by decide⟩) rfl⟩

/-- C19, counterexample to the claim as stated: after a success answer to a
submission of 0 stars the chapter is not rated and `getUserRating` returns
null. -/
theorem success_with_zero_rating_counterexample :
    isChapterRated
      (settleAddRating (rateChapter readerState "ch3" 0) { chapterId := "ch3", rating := 0 }
        (Outcome.responded { success := true }) "2025-11-01T10:00:00.000Z").userRatings "ch3"
      = false ∧
    getUserRating
      (settleAddRating (rateChapter readerState "ch3" 0) { chapterId := "ch3", rating := 0 }
        (Outcome.responded { success := true }) "2025-11-01T10:00:00.000Z").userRatings "ch3"
      = none := by
  decide

/-- C19, amended: after a success answer to a submission of `r > 0` stars
for chapter `c`, `isChapterRated c` holds and `getUserRating c` returns
`r`. -/
theorem success_marks_rated (s : RatingState) (c : String) (r : Int) (now : String)
    (data : AddRatingResponse) (hsuccess : data.success = true) (hr : r > 0) :
    isChapterRated
      (settleAddRating s { chapterId := c, rating := r } (Outcome.responded data)
        now).userRatings c = true ∧
    getUserRating
      (settleAddRating s { chapterId := c, rating := r } (Outcome.responded data)
        now).userRatings c = some r := by
  constructor
  · simp [settleAddRating, showMessage, markChapterAsRated, hsuccess, isChapterRated_set_self, hr]
  · simp only [settleAddRating, showMessage, markChapterAsRated, hsuccess, if_true]
    exact getUserRating_set_self _ _ _ hr

/-- Witness of the amended C19: 5 stars for chapter "ch3". -/
theorem success_marks_rated_witness :
    ({ success := true } : AddRatingResponse).success = true ∧ (5 : Int) > 0 ∧
    isChapterRated
      (settleAddRating (rateChapter readerState "ch3" 5) { chapterId := "ch3", rating := 5 }
        (Outcome.responded { success := true }) "2025-11-01T10:00:00.000Z").userRatings "ch3"
      = true ∧
    getUserRating
      (settleAddRating (rateChapter readerState "ch3" 5) { chapterId := "ch3", rating := 5 }
        (Outcome.responded { success := true }) "2025-11-01T10:00:00.000Z").userRatings "ch3"
      = some 5 :=
  ⟨rfl, by decide,
    success_marks_rated (rateChapter readerState "ch3" 5) "ch3" 5 "2025-11-01T10:00:00.000Z"
      { success := true } rfl (by decide)⟩

/-- C20: when an accepted submission fails (the request rejects, or the
answer has neither `success` nor `alreadyRated`), the user's ratings after
the request has settled are those from before the submission, the chapter is
neither rated nor in flight, and a new call of `rateChapter` for it issues a
new request. -/
theorem failed_rating_can_be_retried (s : RatingState) (c : String) (r r2 : Int)
    (outcome : Outcome) (now : String)
    (hlogin : s.isAuthenticated = true) (hunrated : isChapterRated s.userRatings c = false)
    (hwidget : c ∈ s.widgets) (hfree : c ∉ s.ratingSubmissions)
    (hfail : outcome = Outcome.rejected ∨
      ∃ data, outcome = Outcome.responded data ∧ data.success = false ∧
        data.alreadyRated = false) :
    (settleAddRating (rateChapter s c r) { chapterId := c, rating := r } outcome now).userRatings
      = s.userRatings ∧
    isChapterRated
      (settleAddRating (rateChapter s c r) { chapterId := c, rating := r } outcome
        now).userRatings c = false ∧
    c ∉ (settleAddRating (rateChapter s c r) { chapterId := c, rating := r } outcome
        now).ratingSubmissions ∧
    (rateChapter
        (settleAddRating (rateChapter s c r) { chapterId := c, rating := r } outcome now)
        c r2).sent
      = (settleAddRating (rateChapter s c r) { chapterId := c, rating := r } outcome now).sent
        ++ [{ chapterId := c, rating := r2 }] := by
  have hacc := rateChapter_accepted s c r hlogin hunrated hfree hwidget
  have hur : (settleAddRating (rateChapter s c r) { chapterId := c, rating := r } outcome
      now).userRatings = s.userRatings := by
    rw [hacc]
    rcases hfail with h | ⟨data, h, h1, h2⟩
    · subst h; simp [settleAddRating, showMessage]
    · subst h; simp [settleAddRating, showMessage, h1, h2]
  obtain ⟨hauth, hwid, _, hsub, _, _⟩ :=
    settleAddRating_fields (rateChapter s c r) { chapterId := c, rating := r } outcome now
  have hnotin : c ∉ (settleAddRating (rateChapter s c r) { chapterId := c, rating := r } outcome
      now).ratingSubmissions := by
    rw [hsub]
    simp [setDelete]
  refine ⟨hur, by rw [hur]; exact hunrated, hnotin, ?_⟩
  rw [rateChapter_accepted _ c r2 (by rw [hauth, hacc]; exact hlogin)
    (by rw [hur]; exact hunrated) hnotin (by rw [hwid, hacc]; exact hwidget)]

/-- Witness of C20: the request for chapter "ch3" is rejected and the
reader tries again. -/
theorem failed_rating_can_be_retried_witness :
    readerState.isAuthenticated = true ∧ isChapterRated readerState.userRatings "ch3" = false ∧
    "ch3" ∈ readerState.widgets ∧ "ch3" ∉ readerState.ratingSubmissions ∧
    (Outcome.rejected = Outcome.rejected ∨
      ∃ data, Outcome.rejected = Outcome.responded data ∧ data.success = false ∧
        data.alreadyRated = false) ∧
    (settleAddRating (rateChapter readerState "ch3" 5) { chapterId := "ch3", rating := 5 }
        Outcome.rejected "2025-11-01T10:00:00.000Z").userRatings = readerState.userRatings ∧
    isChapterRated
      (settleAddRating (rateChapter readerState "ch3" 5) { chapterId := "ch3", rating := 5 }
        Outcome.rejected "2025-11-01T10:00:00.000Z").userRatings "ch3" = false ∧
    "ch3" ∉ (settleAddRating (rateChapter readerState "ch3" 5)
        { chapterId := "ch3", rating := 5 } Outcome.rejected
        "2025-11-01T10:00:00.000Z").ratingSubmissions ∧
    (rateChapter
        (settleAddRating (rateChapter readerState "ch3" 5) { chapterId := "ch3", rating := 5 }
          Outcome.rejected "2025-11-01T10:00:00.000Z") "ch3" 4).sent
      = (settleAddRating (rateChapter readerState "ch3" 5) { chapterId := "ch3", rating := 5 }
          Outcome.rejected "2025-11-01T10:00:00.000Z").sent
        ++ [{ chapterId := "ch3", rating := 4 }] :=
  ⟨rfl, by decide, by decide, by decide, Or.inl rfl,
    failed_rating_can_be_retried readerState "ch3" 5 4 Outcome.rejected
      "2025-11-01T10:00:00.000Z" rfl (by decide) (by decide) (by decide) (Or.inl rfl)⟩

/-- C21, the code at the failing input: on raw page 3 the `turning` handler
leaves the previous button enabled, but the left-arrow key handler makes no
plugin call, it refuses to turn back; it turns back from page 4 on.  The
button is disabled on page 2. -/
theorem left_arrow_blocked_on_page_3 :
    (onTurning blankPageFlipbook 3).prevBtnDisabled = false ∧
    onKeydown false 37 3 = [] ∧
    onKeydown false 37 4 = [TurnCommand.previous] ∧
    (onTurning blankPageFlipbook 2).prevBtnDisabled = true := by
  decide

/-- C22, counterexample to the claim as stated: when the captured raw page is
1, the leading blank page, the flipbook of 6 pages is left on page 2 after
the reflow, not on `min 1 6 = 1`. -/
theorem resizeReflow_from_blank_page_counterexample :
    blankPageFlipbook.page = 1 ∧
    (resizeReflow sampleEnv (some sampleBook) emptyState blankPageFlipbook 1200).2.pages = 6 ∧
    (resizeReflow sampleEnv (some sampleBook) emptyState blankPageFlipbook 1200).2.page = 2 ∧
    min 1 6 = 1 := by
  decide

/-- C22, amended: for every captured raw page greater than 1 the position
restored after a resize reflow is the minimum of the captured page and the
new page count, which is the length of the new page list, and it lies between
1 and the new page count. -/
theorem resizeReflow_restores_page (env : Env) (book : BookContent) (s : State) (fb : Flipbook)
    (windowWidth : Nat) (hc : 1 < fb.page) :
    (resizeReflow env (some book) s fb windowWidth).2.pages
      = (resizeReflow env (some book) s fb windowWidth).1.generatedPages.length ∧
    (resizeReflow env (some book) s fb windowWidth).2.page
      = min fb.page (resizeReflow env (some book) s fb windowWidth).2.pages ∧
    1 ≤ (resizeReflow env (some book) s fb windowWidth).2.page ∧
    (resizeReflow env (some book) s fb windowWidth).2.page
      ≤ (resizeReflow env (some book) s fb windowWidth).2.pages := by
  have hlen := paginateContent_length_ge env book s
  have hin : 1 ≤ min fb.page (paginateContent env (some book) s).generatedPages.length ∧
      min fb.page (paginateContent env (some book) s).generatedPages.length
        ≤ (paginateContent env (some book) s).generatedPages.length := by
    constructor
    · exact Nat.le_min.mpr ⟨by omega, by omega⟩
    · exact Nat.min_le_right _ _
  simp only [resizeReflow, buildFlipbook, turnToPage, onTurning, hc, if_true, hin, and_self]

/-- Witness of the amended C22: page 9 is captured and the new flipbook has 6
pages. -/
theorem resizeReflow_restores_page_witness :
    1 < ({ blankPageFlipbook with page := 9 } : Flipbook).page ∧
    (resizeReflow sampleEnv (some sampleBook) emptyState { blankPageFlipbook with page := 9 }
        1200).2.pages
      = (resizeReflow sampleEnv (some sampleBook) emptyState { blankPageFlipbook with page := 9 }
        1200).1.generatedPages.length ∧
    (resizeReflow sampleEnv (some sampleBook) emptyState { blankPageFlipbook with page := 9 }
        1200).2.page
      = min ({ blankPageFlipbook with page := 9 } : Flipbook).page
          (resizeReflow sampleEnv (some sampleBook) emptyState
            { blankPageFlipbook with page := 9 } 1200).2.pages ∧
    1 ≤ (resizeReflow sampleEnv (some sampleBook) emptyState { blankPageFlipbook with page := 9 }
        1200).2.page ∧
    (resizeReflow sampleEnv (some sampleBook) emptyState { blankPageFlipbook with page := 9 }
        1200).2.page
      ≤ (resizeReflow sampleEnv (some sampleBook) emptyState
          { blankPageFlipbook with page := 9 } 1200).2.pages :=
  ⟨by decide,
    resizeReflow_restores_page sampleEnv sampleBook emptyState { blankPageFlipbook with page := 9 }
      1200 (by decide)⟩

/-- C23: for a burst of resize events in which each event follows the one
before it by less than the settle interval, no reflow runs during the burst,
after every event of the burst at most one timer is live, at the end exactly
one timer is live, due at the time of the last event plus the settle
interval, and once that time has come exactly one reflow has run, at that
time.  Time is counted in milliseconds and a timer runs when it is due. -/
theorem resize_burst_single_reflow (times : List Nat) (last : Nat)
    (hspaced : closelySpaced (times ++ [last]) = true) :
    (resizeBurst quietResizeState (times ++ [last])).reflows = [] ∧
    (∃ id, (resizeBurst quietResizeState (times ++ [last])).liveTimers
      = [(id, last + settleInterval)]) ∧
    (∀ n, (resizeBurst quietResizeState ((times ++ [last]).take n)).liveTimers.length ≤ 1) ∧
    (∀ t, t < last + settleInterval →
      (fireDue (resizeBurst quietResizeState (times ++ [last])) t).reflows = []) ∧
    (∀ t, last + settleInterval ≤ t →
      (fireDue (resizeBurst quietResizeState (times ++ [last])) t).reflows
        = [last + settleInterval] ∧
      (fireDue (resizeBurst quietResizeState (times ++ [last])) t).liveTimers = []) := by
  have hburst := chain_of_closelySpaced _ hspaced
  obtain ⟨id, hlive, _, hre⟩ := resizeBurst_from_quiet times last hburst
  refine ⟨hre, ⟨id, hlive⟩, ?_, ?_, ?_⟩
  · intro n
    rcases List.eq_nil_or_concat ((times ++ [last]).take n) with h | ⟨L, b, h⟩
    · rw [h]; simp [resizeBurst, quietResizeState]
    · have hc : (L ++ [b]).Chain' (fun a b => a ≤ b ∧ b < a + settleInterval) := by
        rw [← List.concat_eq_append, ← h]
        exact List.Chain'.take hburst n
      obtain ⟨id2, hl2, _, _⟩ := resizeBurst_from_quiet L b hc
      rw [h, List.concat_eq_append, hl2]
      simp
  · intro t ht
    have hnd : ¬ (last + settleInterval ≤ t) := by omega
    simp [fireDue, hlive, hre, hnd]
  · intro t ht
    have hnd : ¬ (t < last + settleInterval) := by omega
    simp [fireDue, hlive, hre, ht, hnd]

/-- Witness of C23: five resize events within 200 milliseconds. -/
theorem resize_burst_single_reflow_witness :
    closelySpaced ([0, 40, 80, 120] ++ [160]) = true ∧
    (fireDue (resizeBurst quietResizeState ([0, 40, 80, 120] ++ [160])) 1000).reflows = [660] ∧
    ((resizeBurst quietResizeState ([0, 40, 80, 120] ++ [160])).reflows = [] ∧
    (∃ id, (resizeBurst quietResizeState ([0, 40, 80, 120] ++ [160])).liveTimers
      = [(id, 160 + settleInterval)]) ∧
    (∀ n, (resizeBurst quietResizeState (([0, 40, 80, 120] ++ [160]).take n)).liveTimers.length
      ≤ 1) ∧
    (∀ t, t < 160 + settleInterval →
      (fireDue (resizeBurst quietResizeState ([0, 40, 80, 120] ++ [160])) t).reflows = []) ∧
    (∀ t, 160 + settleInterval ≤ t →
      (fireDue (resizeBurst quietResizeState ([0, 40, 80, 120] ++ [160])) t).reflows
        = [160 + settleInterval] ∧
      (fireDue (resizeBurst quietResizeState ([0, 40, 80, 120] ++ [160])) t).liveTimers = [])) :=
  ⟨by decide, by decide,
    resize_burst_single_reflow [0, 40, 80, 120] 160 (by decide)⟩

/-- C24: `createElementHTML` gives the empty string exactly for the items
whose type is none of paragraph, image, lyrics, metadata, rating; and with
such an item in a chapter `paginateContent` gives the same page list and the
same start map as for the chapter without the item, and the result does not
depend on the height that a measurement of empty markup would give. -/
theorem unrecognized_item_skipped (env : Env) (book : BookContent) (s : State)
    (pre post : List Chapter) (c : Chapter) (a b : List ContentItem) (item : ContentItem)
    (hsplit : book.chapters = pre ++ c :: post) (hc : c.content = a ++ item :: b)
    (htype : item.type ∉ ["paragraph", "image", "lyrics", "metadata", "rating"]) :
    (∀ other : ContentItem, createElementHTML env.userRatings other = "" ↔
      other.type ∉ ["paragraph", "image", "lyrics", "metadata", "rating"]) ∧
    paginateContent env (some book) s
      = paginateContent env
          (some { chapters := pre ++ { c with content := a ++ b } :: post }) s ∧
    ∀ h : Int,
      paginateContent
          { env with measureElement := fun m => if m = "" then h else env.measureElement m }
          (some book) s
        = paginateContent env (some book) s := by
  refine ⟨?_, ?_, ?_⟩
  · intro other
    constructor
    · intro he hmem
      exact createElementHTML_recognized env.userRatings other hmem he
    · exact createElementHTML_unrecognized env.userRatings other
  · have hstep := fun st => chapterStep_congr_content env (getPageMaxHeight env) st c a b item hc
      (createElementHTML_unrecognized env.userRatings item htype)
    simp only [paginateContent, hsplit, List.foldl_append, List.foldl_cons, hstep]
  · intro h
    simp only [paginateContent, getPageMaxHeight, chapterStep_measure_congr]

/-- Witness of C24: the footnote of the first sample chapter. -/
theorem unrecognized_item_skipped_witness :
    sampleBook.chapters = [] ++ sampleChapter1 :: [sampleChapter2] ∧
    sampleChapter1.content
      = [{ type := "paragraph", text := some "x" }] ++ { type := "footnote" } :: [] ∧
    ({ type := "footnote" } : ContentItem).type
      ∉ ["paragraph", "image", "lyrics", "metadata", "rating"] ∧
    ((∀ other : ContentItem, createElementHTML sampleEnv.userRatings other = "" ↔
      other.type ∉ ["paragraph", "image", "lyrics", "metadata", "rating"]) ∧
    paginateContent sampleEnv (some sampleBook) emptyState
      = paginateContent sampleEnv
          (some { chapters := [] ++ { sampleChapter1 with
              content := [{ type := "paragraph", text := some "x" }] ++ [] }
            :: [sampleChapter2] }) emptyState ∧
    ∀ h : Int,
      paginateContent
          { sampleEnv with
            measureElement := fun m => if m = "" then h else sampleEnv.measureElement m }
          (some sampleBook) emptyState
        = paginateContent sampleEnv (some sampleBook) emptyState) :=
  ⟨rfl, rfl, by decide,
    unrecognized_item_skipped sampleEnv sampleBook emptyState [] [sampleChapter2] sampleChapter1
      [{ type := "paragraph", text := some "x" }] [] { type := "footnote" } rfl rfl
      (by decide)⟩

/-- C25, counterexample to the claim as stated: for a record whose timestamp
is the empty string, the array form stores an undefined timestamp and the
object form stores the empty string. -/
theorem loadUserRatings_empty_timestamp_counterexample :
    JsObj.get (loadUserRatings (arrayAnswer [undatedRecord])) "ch1"
      = some { rating := 5, timestamp := none } ∧
    JsObj.get (loadUserRatings (objectAnswer [("ch1", undatedRecord)])) "ch1"
      = some { rating := 5, timestamp := some "" } := by
  decide

/-- C25, amended: for records with pairwise distinct non-empty chapter ids
and non-empty timestamps, delivered as an array or as an object keyed by
chapter id in any key order, `loadUserRatings` stores the same entry under
every chapter id; the entries stored are exactly those of the records with
`rating > 0`, and `isChapterRated c` holds exactly when there is a record for
`c` with `rating > 0`. -/
theorem loadUserRatings_array_object_agree (records : List RatingRecord)
    (keyed : JsObj RatingRecord)
    (hnd : (records.map RatingRecord.chapterId).Nodup)
    (hne : ∀ r ∈ records, r.chapterId ≠ "")
    (hts : ∀ r ∈ records, jsNot r.timestamp = false)
    (hperm : keyed.Perm (records.map (fun r => (r.chapterId, r)))) (c : String) :
    JsObj.get (loadUserRatings (arrayAnswer records)) c
      = JsObj.get (loadUserRatings (objectAnswer keyed)) c ∧
    (∀ e, JsObj.get (loadUserRatings (arrayAnswer records)) c = some e ↔
      ∃ r ∈ records, r.chapterId = c ∧ r.rating > 0 ∧
        e = { rating := r.rating, timestamp := r.timestamp }) ∧
    (isChapterRated (loadUserRatings (arrayAnswer records)) c = true ↔
      ∃ r ∈ records, r.chapterId = c ∧ r.rating > 0) ∧
    (isChapterRated (loadUserRatings (objectAnswer keyed)) c = true ↔
      ∃ r ∈ records, r.chapterId = c ∧ r.rating > 0) := by
  have harr : ∀ e, JsObj.get (ratingsFromArray records) c = some e ↔
      ∃ r ∈ records, r.chapterId = c ∧ r.rating > 0 ∧
        e = { rating := r.rating, timestamp := r.timestamp } := by
    intro e
    rw [ratingsFromArray_get records c hnd e]
    constructor
    · rintro ⟨r, hr, h1, _, h3, h4⟩
      refine ⟨r, hr, h1, h3, ?_⟩
      rw [h4]
      simp [jsOr, hts r hr]
    · rintro ⟨r, hr, h1, h3, h4⟩
      refine ⟨r, hr, h1, hne r hr, h3, ?_⟩
      rw [h4]
      simp [jsOr, hts r hr]
  have hobj : ∀ e, JsObj.get (ratingsFromObject keyed) c = some e ↔
      ∃ r ∈ records, r.chapterId = c ∧ r.rating > 0 ∧
        e = { rating := r.rating, timestamp := r.timestamp } := by
    intro e
    rw [ratingsFromObject_get keyed c e]
    constructor
    · rintro ⟨r, h1, h2, h3⟩
      obtain ⟨hr, hc⟩ := (keyed_get_iff records keyed hnd hperm c r).mp h1
      exact ⟨r, hr, hc, h2, h3⟩
    · rintro ⟨r, hr, hc, h2, h3⟩
      exact ⟨r, (keyed_get_iff records keyed hnd hperm c r).mpr ⟨hr, hc⟩, h2, h3⟩
  have hsame : JsObj.get (ratingsFromArray records) c = JsObj.get (ratingsFromObject keyed) c := by
    apply Option.ext
    intro e
    rw [Option.mem_def, Option.mem_def, harr e, hobj e]
  have hrated : ∀ ur : JsObj RatingEntry,
      (∀ e, JsObj.get ur c = some e ↔
        ∃ r ∈ records, r.chapterId = c ∧ r.rating > 0 ∧
          e = { rating := r.rating, timestamp := r.timestamp }) →
      (isChapterRated ur c = true ↔ ∃ r ∈ records, r.chapterId = c ∧ r.rating > 0) := by
    intro ur hur
    rw [isChapterRated_iff]
    constructor
    · rintro ⟨e, h1, _⟩
      obtain ⟨r, hr, hc, hpos, _⟩ := (hur e).mp h1
      exact ⟨r, hr, hc, hpos⟩
    · rintro ⟨r, hr, hc, hpos⟩
      exact ⟨_, (hur _).mpr ⟨r, hr, hc, hpos, rfl⟩, hpos⟩
  exact ⟨hsame, harr, hrated _ harr, hrated _ hobj⟩

/-- Witness of the amended C25: two records, one without a rating, delivered
in opposite orders. -/
theorem loadUserRatings_array_object_agree_witness :
    (sampleRecords.map RatingRecord.chapterId).Nodup ∧
    (∀ r ∈ sampleRecords, r.chapterId ≠ "") ∧
    (∀ r ∈ sampleRecords, jsNot r.timestamp = false) ∧
    sampleKeyed.Perm (sampleRecords.map (fun r => (r.chapterId, r))) ∧
    isChapterRated (loadUserRatings (arrayAnswer sampleRecords)) "ch1" = true ∧
    isChapterRated (loadUserRatings (arrayAnswer sampleRecords)) "7" = false ∧
    JsObj.get (loadUserRatings (arrayAnswer sampleRecords)) "ch1"
      = JsObj.get (loadUserRatings (objectAnswer sampleKeyed)) "ch1" :=
  ⟨by decide, by decide, by decide, List.Perm.swap _ _ [], by decide, by decide,
    (loadUserRatings_array_object_agree sampleRecords sampleKeyed (by decide) (by decide)
      (by decide) (List.Perm.swap _ _ []) "ch1").1⟩

/-- C26, counterexample to the claim as stated: with the same content, the
same measured heights and the same page height, the page list for a chapter
with a rating widget differs between a reader who has not rated the chapter
and one who has given it five stars. -/
theorem paginateContent_depends_on_ratings_counterexample :
    unratedEnv.measureElement = fiveStarEnv.measureElement ∧
    unratedEnv.magazineHeight = fiveStarEnv.magazineHeight ∧
    (paginateContent unratedEnv (some ratedBook) emptyState).generatedPages
      ≠ (paginateContent fiveStarEnv (some ratedBook) emptyState).generatedPages := by
  refine ⟨rfl, rfl, ?_⟩
  decide

/-- C26, amended: with the content model present the result of
`paginateContent` is the same for every previous state, so it depends only on
the content model and on what the browser supplies (measured heights, page
height and the reader's ratings); running it again gives the same result, and
a chapter id that is not in the content model has no start entry. -/
theorem paginateContent_ignores_previous_state (env : Env) (book : BookContent)
    (s1 s2 : State) :
    paginateContent env (some book) s1 = paginateContent env (some book) s2 ∧
    paginateContent env (some book) (paginateContent env (some book) s1)
      = paginateContent env (some book) s1 ∧
    ∀ k, k ∉ book.chapters.map Chapter.id →
      JsObj.get (paginateContent env (some book) s1).chapterStartPages k = none := by
  refine ⟨rfl, rfl, ?_⟩
  intro k hk
  exact foldl_chapterStep_get_none env (getPageMaxHeight env) book.chapters
    { generatedPages := [blankPage, coverPage, coverBackPage], chapterStartPages := [] } k hk

/-- C27: no content page of the output has empty markup; the content pages
are the pages of the chapter layouts, each with the concatenation of its
elements as markup; every chapter has at least one page, every page has at
least one element and every element is non-empty markup; the page list has
at least 4 pages plus one per chapter; and for chapters with pairwise
distinct ids the start pages increase strictly in chapter order. -/
theorem content_pages_not_empty (env : Env) (book : BookContent) (s : State) :
    (∀ p ∈ (paginateContent env (some book) s).generatedPages,
      p.type = "content" → p.html ≠ "") ∧
    (paginateContent env (some book) s).generatedPages
      = leadingPages
        ++ book.chapters.flatMap
            (fun c => (chapterLayout env (getPageMaxHeight env) c).map (fun g =>
              ({ type := "content", html := String.join g,
                 chapterId := some c.chapterId } : Page)))
        ++ [backCoverPage] ∧
    (∀ c : Chapter, chapterLayout env (getPageMaxHeight env) c ≠ [] ∧
      ∀ g ∈ chapterLayout env (getPageMaxHeight env) c,
        g ≠ [] ∧ (∀ e ∈ g, e ≠ "") ∧ String.join g ≠ "") ∧
    4 + book.chapters.length ≤ (paginateContent env (some book) s).generatedPages.length ∧
    ((book.chapters.map Chapter.id).Nodup →
      book.chapters.Pairwise (fun a b =>
        startOf (paginateContent env (some book) s).chapterStartPages a
          < startOf (paginateContent env (some book) s).chapterStartPages b)) := by
  have hpages : (paginateContent env (some book) s).generatedPages
      = leadingPages
        ++ book.chapters.flatMap
            (fun c => (chapterLayout env (getPageMaxHeight env) c).map (fun g =>
              ({ type := "content", html := String.join g,
                 chapterId := some c.chapterId } : Page)))
        ++ [backCoverPage] := by
    rw [paginateContent_pages]
    congr 2
    exact List.flatMap_congr (fun c _ => chapterPages_eq _ _ c)
  refine ⟨?_, hpages, ?_, ?_, fun hid => (paginateContent_starts_sorted env book s hid).2⟩
  · intro p hp htype
    rw [hpages] at hp
    rcases List.mem_append.mp hp with h | h
    · rcases List.mem_append.mp h with h | h
      · exfalso
        simp only [leadingPages, List.mem_cons, List.mem_singleton, List.not_mem_nil,
          or_false] at h
        rcases h with h | h | h <;> subst h <;> exact absurd htype (by decide)
      · obtain ⟨c, _, hc⟩ := List.mem_flatMap.mp h
        obtain ⟨g, hg, rfl⟩ := List.mem_map.mp hc
        have := chapterLayout_elements env _ c g hg
        exact String_join_ne_empty g this.1 this.2
    · rw [List.mem_singleton.mp h] at htype
      exact absurd htype (by decide)
  · intro c
    constructor
    · intro h
      exact chapterPages_ne_nil env (getPageMaxHeight env) c (by rw [chapterPages_eq, h]; rfl)
    · intro g hg
      have := chapterLayout_elements env _ c g hg
      exact ⟨this.1, this.2, String_join_ne_empty g this.1 this.2⟩
  · rw [paginateContent_pages]
    have := flatMap_chapterPages_length_ge env (getPageMaxHeight env) book.chapters
    simp only [List.length_append, leadingPages, List.length_cons, List.length_nil]
    omega

/-- Witness of C27 on the sample book: its ids are distinct, so the starts
increase strictly, and no content page has empty markup. -/
theorem content_pages_not_empty_witness :
    (sampleBook.chapters.map Chapter.id).Nodup ∧
    sampleBook.chapters.Pairwise (fun a b =>
      startOf (paginateContent sampleEnv (some sampleBook) emptyState).chapterStartPages a
        < startOf (paginateContent sampleEnv (some sampleBook) emptyState).chapterStartPages b) ∧
    ∀ p ∈ (paginateContent sampleEnv (some sampleBook) emptyState).generatedPages,
      p.type = "content" → p.html ≠ "" :=
  ⟨by decide, (content_pages_not_empty sampleEnv sampleBook emptyState).2.2.2.2 (by decide),
    (content_pages_not_empty sampleEnv sampleBook emptyState).1⟩

/-- C28: for every two consecutive pages of the layout of a chapter, the
later page has a first element, and the heights of everything on the earlier
page plus the height of that first element exceed `maxPageHeight - 10`. -/
theorem page_break_only_when_needed (env : Env) (book : BookContent) (s : State) :
    (paginateContent env (some book) s).generatedPages
      = leadingPages
        ++ book.chapters.flatMap
            (fun c => (chapterLayout env (getPageMaxHeight env) c).map (contentPage c))
        ++ [backCoverPage] ∧
    ∀ (c : Chapter) (A B : List (List String)) (earlier later : List String),
      chapterLayout env (getPageMaxHeight env) c = A ++ earlier :: later :: B →
      ∃ first rest, later = first :: rest ∧
        totalHeight env.measureElement earlier + env.measureElement first
          > getPageMaxHeight env - 10 := by
  constructor
  · rw [paginateContent_pages]
    congr 2
    exact List.flatMap_congr (fun c _ => chapterPages_eq _ _ c)
  · intro c A B earlier later hsplit
    exact pack_breaks env.measureElement (getPageMaxHeight env) (renderedItems env c)
      [titleHTML c] (env.measureElement (titleHTML c)) (by simp [totalHeight]) (by simp)
      A B earlier later hsplit

/-- Witness of C28: the break before the oversize paragraph of the tall
chapter. -/
theorem page_break_only_when_needed_witness :
    chapterLayout tallEnv (getPageMaxHeight tallEnv) tallChapter
      = [] ++ [titleHTML tallChapter, "<p>a</p>"] :: ["<p>big</p>"] :: [["<p>b</p>"]] ∧
    ∃ first rest, ["<p>big</p>"] = first :: rest ∧
      totalHeight tallEnv.measureElement [titleHTML tallChapter, "<p>a</p>"]
          + tallEnv.measureElement first
        > getPageMaxHeight tallEnv - 10 :=
  ⟨by decide,
    (page_break_only_when_needed tallEnv tallBook emptyState).2 tallChapter []
      [["<p>b</p>"]] [titleHTML tallChapter, "<p>a</p>"] ["<p>big</p>"] (by decide)⟩

/-- C29: for chapters with pairwise distinct ids the sidebar link of a
chapter turns to raw page `chapterStartPages[chapter.id] + 1`, and the page
list entry shown as that raw page is the first page emitted for the chapter,
whose markup begins with the chapter title. -/
theorem chapterLinkTarget_is_first_page (env : Env) (book : BookContent) (s : State)
    (pre post : List Chapter) (c : Chapter) (hsplit : book.chapters = pre ++ c :: post)
    (hid : (book.chapters.map Chapter.id).Nodup) :
    ∃ (startPage : Nat) (tail : List String) (more : List (List String)),
      JsObj.get (paginateContent env (some book) s).chapterStartPages c.id = some startPage ∧
      chapterLinkTarget (paginateContent env (some book) s) c = some (startPage + 1) ∧
      chapterPages env (getPageMaxHeight env) c
        = contentPage c (titleHTML c :: tail) :: more.map (contentPage c) ∧
      flipbookPage (paginateContent env (some book) s) (startPage + 1)
        = some (contentPage c (titleHTML c :: tail)) ∧
      (contentPage c (titleHTML c :: tail)).html = titleHTML c ++ String.join tail := by
  obtain ⟨tail, more, hpk⟩ := pack_head env.measureElement (getPageMaxHeight env)
    (renderedItems env c) [titleHTML c] (env.measureElement (titleHTML c)) (by simp)
  have hstart := paginateContent_start env book s pre post c hsplit hid
  have hpages : chapterPages env (getPageMaxHeight env) c
      = contentPage c (titleHTML c :: tail) :: more.map (contentPage c) := by
    rw [chapterPages_eq, chapterLayout, hpk]
    rfl
  have hlen : (leadingPages ++ pre.flatMap (chapterPages env (getPageMaxHeight env))).length
      = 3 + (pre.flatMap (chapterPages env (getPageMaxHeight env))).length := by
    rw [List.length_append]; rfl
  refine ⟨_, tail, more, hstart, by simp [chapterLinkTarget, hstart], hpages, ?_,
    String_join_cons (titleHTML c) tail⟩
  simp only [flipbookPage, Nat.add_sub_cancel, Nat.add_one_ne_zero, if_false]
  rw [paginateContent_split env book s pre post c hsplit,
    List.getElem?_append_right (Nat.le_of_eq hlen), hlen, Nat.sub_self, hpages]
  simp

/-- Witness of C29: the link of the second sample chapter turns to raw page
5. -/
theorem chapterLinkTarget_is_first_page_witness :
    sampleBook.chapters = [sampleChapter1] ++ sampleChapter2 :: [] ∧
    (sampleBook.chapters.map Chapter.id).Nodup ∧
    chapterLinkTarget (paginateContent sampleEnv (some sampleBook) emptyState) sampleChapter2
      = some 5 ∧
    ∃ (startPage : Nat) (tail : List String) (more : List (List String)),
      JsObj.get (paginateContent sampleEnv (some sampleBook) emptyState).chapterStartPages
        sampleChapter2.id = some startPage ∧
      chapterLinkTarget (paginateContent sampleEnv (some sampleBook) emptyState) sampleChapter2
        = some (startPage + 1) ∧
      chapterPages sampleEnv (getPageMaxHeight sampleEnv) sampleChapter2
        = contentPage sampleChapter2 (titleHTML sampleChapter2 :: tail)
          :: more.map (contentPage sampleChapter2) ∧
      flipbookPage (paginateContent sampleEnv (some sampleBook) emptyState) (startPage + 1)
        = some (contentPage sampleChapter2 (titleHTML sampleChapter2 :: tail)) ∧
      (contentPage sampleChapter2 (titleHTML sampleChapter2 :: tail)).html
        = titleHTML sampleChapter2 ++ String.join tail :=
  ⟨rfl, by decide, by decide,
    chapterLinkTarget_is_first_page sampleEnv sampleBook emptyState [sampleChapter1] []
      sampleChapter2 rfl (by decide)⟩

/-- C30, the code at the failing inputs: a comment that is exactly 28 days
old is labelled "0mo ago" and one that is 360 days old "0y ago"; one
millisecond before 28 days the label is "3w ago", below 60 seconds it is
"Just now" and at 60 seconds "1m ago". -/
theorem getTimeAgo_zero_count :
    getTimeAgo 2419200000 (some 0) = "0mo ago" ∧
    getTimeAgo 31104000000 (some 0) = "0y ago" ∧
    getTimeAgo 2419199999 (some 0) = "3w ago" ∧
    getTimeAgo 59999 (some 0) = "Just now" ∧
    getTimeAgo 60000 (some 0) = "1m ago" := by
  decide

end BookSite
